import Mathlib

/-!
connman-glib: call ledger, call gateways, property resolver, signal dispatch and agent
protocol.

A shallow embedding of `src/call_work.c`, `src/connman-call.c`, `src/connman-call.h`,
`src/connman-agent.c` and the parts of `src/api.c` that use them (callback lists, signal
handlers, connect, technology power, agent response).

Conventions of the embedding.

* A C string (`const char *`, `gchar *`) that may be `NULL` is an `Option String`; a string
  the code dereferences unconditionally (`strcmp`, `strlen`) is a `String`.  One `Char`
  stands for one byte.
* A `struct call_work *` is represented by the record it points to; the field `addr` of the
  record is the address of the block, so pointer comparison is comparison of `addr`.
  Blocks come from `g_malloc0`; the code never releases a `struct call_work` block
  (`call_work_destroy_unlocked` frees the four strings only), hence the allocator is a
  counter `heap_top` and every block has an address of its own.
* `int` is `Int`; the pre-increment of `next_cw_id` wraps around at 32 bits.
* The mutexes are not represented: every operation runs to completion on the state.
* What the code does to the outside (D-Bus calls, replies to a method invocation,
  application callbacks) is returned as a list of `Effect`s, oldest first.  What the bus
  answers to a synchronous call is a parameter of the operations that make such calls.
* Log output (`ERROR`, `INFO`, `DEBUG`) is not represented.
* A `callback_list_t` is the list of its entries; every entry is a block of its own, so the
  node that `g_slist_remove` unlinks is the node at the position the search stopped at.
* A result `none` of an operation stands for a run that does not return normally: a `NULL`
  pointer is read, `g_assert` fails, or a loop does not terminate.
-/

namespace Connman

/-! ## glib helpers -/

/-- The function `strcmp` on byte lists: the sign of the difference at the first position
where the strings differ. -/
def strcmp : List Char → List Char → Int
  | [], [] => 0
  | [], _ :: _ => -1
  | _ :: _, [] => 1
  | a :: as, b :: bs =>
    if a = b then strcmp as bs else if a.toNat < b.toNat then -1 else 1

/-- The glib function `g_strcmp0`: `strcmp` that accepts `NULL`, which sorts before every
string; two `NULL`s are equal.  Only the sign of the result is meaningful. -/
def g_strcmp0 (str1 str2 : Option String) : Int :=
  match str1, str2 with
  | none, none => 0
  | none, some _ => -1
  | some _, none => 1
  | some a, some b => strcmp a.data b.data

/-- How `printf` renders a `%s` argument: glibc prints `(null)` for a `NULL` pointer. -/
def fmt_s (s : Option String) : String :=
  match s with
  | some v => v
  | none => "(null)"

/-- The error domains that occur: the quark `CONNMAN_ERROR` of this library and the
domains of the transport. -/
inductive GQuark where
  | CONNMAN_ERROR
  | transport (q : Nat)
deriving DecidableEq, Repr

/-- The enumeration `NBError` of `connman-call.h`. -/
inductive NBError where
  | CONNMAN_ERROR_BAD_TECHNOLOGY
  | CONNMAN_ERROR_BAD_SERVICE
  | CONNMAN_ERROR_OUT_OF_MEMORY
  | CONNMAN_ERROR_NO_TECHNOLOGIES
  | CONNMAN_ERROR_NO_SERVICES
  | CONNMAN_ERROR_BAD_PROPERTY
  | CONNMAN_ERROR_UNIMPLEMENTED
  | CONNMAN_ERROR_UNKNOWN_PROPERTY
  | CONNMAN_ERROR_UNKNOWN_TECHNOLOGY
  | CONNMAN_ERROR_UNKNOWN_SERVICE
  | CONNMAN_ERROR_MISSING_ARGUMENT
  | CONNMAN_ERROR_ILLEGAL_ARGUMENT
  | CONNMAN_ERROR_CALL_IN_PROGRESS
deriving DecidableEq, Repr

/-- The integer value of an `NBError` enumerator. -/
def NBError.code : NBError → Int
  | .CONNMAN_ERROR_BAD_TECHNOLOGY => 0
  | .CONNMAN_ERROR_BAD_SERVICE => 1
  | .CONNMAN_ERROR_OUT_OF_MEMORY => 2
  | .CONNMAN_ERROR_NO_TECHNOLOGIES => 3
  | .CONNMAN_ERROR_NO_SERVICES => 4
  | .CONNMAN_ERROR_BAD_PROPERTY => 5
  | .CONNMAN_ERROR_UNIMPLEMENTED => 6
  | .CONNMAN_ERROR_UNKNOWN_PROPERTY => 7
  | .CONNMAN_ERROR_UNKNOWN_TECHNOLOGY => 8
  | .CONNMAN_ERROR_UNKNOWN_SERVICE => 9
  | .CONNMAN_ERROR_MISSING_ARGUMENT => 10
  | .CONNMAN_ERROR_ILLEGAL_ARGUMENT => 11
  | .CONNMAN_ERROR_CALL_IN_PROGRESS => 12

/-- A glib `GError`: domain, code and message. -/
structure GError where
  domain : GQuark
  code : Int
  message : String
deriving DecidableEq, Repr

deriving instance DecidableEq for Except

/-- The call `g_set_error(error, CONNMAN_ERROR, code, ...)` on an unset error. -/
def connman_error (e : NBError) (message : String) : GError :=
  { domain := GQuark.CONNMAN_ERROR, code := e.code, message := message }

/-! ## The call ledger (`call_work.c`) -/

/-- The record `struct call_work` of `call_work.h`.  `addr` is the address of the block;
the back pointer `ns` is left out, there being one connection state.  Function pointers,
`gpointer`s, the pending-work handle and the method invocation are opaque numbers, with
`none` for `NULL`. -/
structure call_work where
  addr : Nat
  id : Int
  access_type : Option String
  type_arg : Option String
  method : Option String
  connman_method : Option String
  cpw : Option Nat
  request_cb : Option Nat
  request_user_data : Option Nat
  agent_method : Option String
  invocation : Option Nat
deriving DecidableEq, Repr

/-- The ledger fields of `struct connman_state` (`common.h`): the id counter and the list
of pending entries, together with the allocation counter of the embedding. -/
structure connman_state where
  next_cw_id : Int
  cw_pending : List call_work
  heap_top : Nat
deriving DecidableEq, Repr

/-- The ledger as `connman_dbus_init` leaves it: zeroed by `g_try_malloc0`, then
`ns->next_cw_id = 1`. -/
def connman_dbus_init : connman_state :=
  { next_cw_id := 1, cw_pending := [], heap_top := 0 }

/-- The scan of `call_work_lookup_unlocked`: the first entry of the list whose
`access_type`, `type_arg` and `method` all compare equal under `g_strcmp0`. -/
def call_work_lookup_unlocked (ns : connman_state)
    (access_type type_arg method : Option String) : Option call_work :=
  ns.cw_pending.find? (fun cw =>
    g_strcmp0 access_type cw.access_type == 0 &&
    g_strcmp0 type_arg cw.type_arg == 0 &&
    g_strcmp0 method cw.method == 0)

/-- The scan of `call_work_lookup_by_id_unlocked`: the first entry with the given id. -/
def call_work_lookup_by_id_unlocked (ns : connman_state) (id : Int) : Option call_work :=
  ns.cw_pending.find? (fun cw => cw.id == id)

/-- The function `call_work_pending_id`: the id of the entry found, `-1` when none. -/
def call_work_pending_id (ns : connman_state)
    (access_type type_arg method : Option String) : Int :=
  match call_work_lookup_unlocked ns access_type type_arg method with
  | some cw => cw.id
  | none => -1

/-- Two's complement wrap-around of a value to the range of a 32-bit `int`. -/
def wrap_int (x : Int) : Int := (x + 2147483648) % 4294967296 - 2147483648

/-- The counter update of the allocation loop:
`if (++ns->next_cw_id < 0) ns->next_cw_id = 1;`. -/
def next_cw_id_step (n : Int) : Int :=
  if wrap_int (n + 1) < 0 then 1 else wrap_int (n + 1)

/-- The loop `do { cw->id = ns->next_cw_id; ... } while (call_work_lookup_by_id_unlocked(ns,
cw->id));` of `call_work_create_unlocked`, with a bound on the number of iterations.  The
result is the id taken and the counter left behind; `none` when the bound is used up. -/
def alloc_id_loop (ns : connman_state) : Nat → Int → Option (Int × Int)
  | 0, _ => none
  | fuel + 1, next =>
    match call_work_lookup_by_id_unlocked ns next with
    | some _ => alloc_id_loop ns fuel (next_cw_id_step next)
    | none => some (next, next_cw_id_step next)

/-- Number of iterations after which the allocation loop has tried every value the counter
can take: two steps bring any `int` into `1 .. 2^31-1`, where the counter cycles with
period `2^31-1` (see `alloc_id_loop_fuel_enough`). -/
def ALLOC_FUEL : Nat := 2147483649

/-- What a ledger operation that can fail hands back: the entry, or the error set. -/
abbrev CreateResult := Except GError call_work

/-- The function `call_work_create_unlocked`.  `none`: the allocation loop does not
terminate.  Otherwise the new state and the entry returned, or the state and the error
set when an entry for the triple is pending. -/
def call_work_create_unlocked (ns : connman_state)
    (access_type type_arg method connman_method : Option String) :
    Option (connman_state × CreateResult) :=
  match call_work_lookup_unlocked ns access_type type_arg method with
  | some _ =>
    some (ns, .error (connman_error .CONNMAN_ERROR_CALL_IN_PROGRESS
      ("another call in progress (" ++ fmt_s access_type ++ "/" ++ fmt_s type_arg ++ "/"
        ++ fmt_s method ++ ")")))
  | none =>
    match alloc_id_loop ns ALLOC_FUEL ns.next_cw_id with
    | none => none
    | some (id, next) =>
      let cw : call_work :=
        { addr := ns.heap_top, id := id, access_type := access_type, type_arg := type_arg,
          method := method, connman_method := connman_method, cpw := none,
          request_cb := none, request_user_data := none, agent_method := none,
          invocation := none }
      some ({ next_cw_id := next, cw_pending := cw :: ns.cw_pending,
              heap_top := ns.heap_top + 1 }, .ok cw)

/-- The function `call_work_create`: `call_work_create_unlocked` under the mutex. -/
def call_work_create (ns : connman_state)
    (access_type type_arg method connman_method : Option String) :
    Option (connman_state × CreateResult) :=
  call_work_create_unlocked ns access_type type_arg method connman_method

/-- The glib function `g_slist_remove(list, data)` on a list of entry pointers: the first
node whose pointer equals `data` is unlinked. -/
def g_slist_remove (list : List call_work) (data : call_work) : List call_work :=
  list.eraseP (fun cw => cw.addr == data.addr)

/-- The function `call_work_destroy_unlocked`: nothing happens unless the entry registered
under `cw->id` is `cw` itself; otherwise `cw` is unlinked. -/
def call_work_destroy_unlocked (ns : connman_state) (cw : call_work) : connman_state :=
  match call_work_lookup_by_id_unlocked ns cw.id with
  | some cw2 =>
    if cw2.addr ≠ cw.addr then ns
    else { ns with cw_pending := g_slist_remove ns.cw_pending cw }
  | none => ns

/-- The function `call_work_destroy`: `call_work_destroy_unlocked` under the mutex. -/
def call_work_destroy (ns : connman_state) (cw : call_work) : connman_state :=
  call_work_destroy_unlocked ns cw

/-! ## Values, effects and the bus -/

/-- What a `v` entry of a property map holds.  Values that are not a boolean or a string
(numbers, arrays, nested maps) are opaque. -/
inductive Value where
  | boolean (b : Bool)
  | string (s : String)
  | other (tag : Nat)
deriving DecidableEq, Repr

/-- The `GVariant` shapes that the code takes apart, named by their D-Bus signature. -/
inductive GVariant where
  /-- Signature `()`. -/
  | unit
  /-- A single value. -/
  | value (v : Value)
  /-- Signature `a{sv}`. -/
  | dict (entries : List (String × Value))
  /-- Signature `(a{sv})`: the flat bulk reply. -/
  | props (entries : List (String × Value))
  /-- Signature `(a(oa{sv}))`: the indexed bulk reply. -/
  | objects (entries : List (String × List (String × Value)))
  /-- Signature `(sv)`. -/
  | name_value (name : String) (v : Value)
  /-- Signature `o` or `(o)`. -/
  | object_path (path : String)
  /-- Signature `(oa{sv})`. -/
  | path_dict (path : String) (entries : List (String × Value))
  /-- Signature `(os)`. -/
  | path_string (path : String) (s : String)
  /-- Signature `(a(oa{sv})ao)`: the payload of ServicesChanged. -/
  | services_changed (changed : List (String × List (String × Value)))
      (removed : List String)
deriving DecidableEq, Repr

/-- The glib function `g_variant_get_string`: the string of a string value, `NULL` (after
a critical warning) for a value of another type. -/
def g_variant_get_string (v : Value) : Option String :=
  match v with
  | .string s => some s
  | _ => none

/-- The glib function `g_variant_get_boolean`: the boolean of a boolean value, `FALSE`
(after a critical warning) for a value of another type. -/
def g_variant_get_boolean (v : Value) : Bool :=
  match v with
  | .boolean b => b
  | _ => false

/-- The glib function `g_variant_iter_init` on a map: the number of items. -/
def g_variant_iter_init (value : List (String × Value)) : Nat := value.length

/-- The enumeration `connman_manager_event_t` of `connman-glib.h`. -/
inductive connman_manager_event_t where
  | CONNMAN_MANAGER_EVENT_TECHNOLOGY_ADD
  | CONNMAN_MANAGER_EVENT_TECHNOLOGY_REMOVE
  | CONNMAN_MANAGER_EVENT_SERVICE_CHANGE
  | CONNMAN_MANAGER_EVENT_SERVICE_REMOVE
  | CONNMAN_MANAGER_EVENT_PROPERTY_CHANGE
deriving DecidableEq, Repr

/-- The completion routines handed to `connman_call_async`. -/
inductive AsyncCallback where
  | connect_service_callback
deriving DecidableEq, Repr

/-- What the code does to the outside. -/
inductive Effect where
  /-- The call `g_dbus_connection_call_sync` on the service `net.connman`. -/
  | call_sync (path interface method : String) (params : Option GVariant)
  /-- The call `g_dbus_connection_call` on the service `net.connman`, with the completion
  routine, its user data and the address of the pending-work block. -/
  | call_async (path interface method : String) (params : Option GVariant)
      (callback : AsyncCallback) (user_data : Nat) (cpw : Nat)
  /-- The call `g_dbus_method_invocation_return_dbus_error`. -/
  | return_dbus_error (invocation : Nat) (error_name error_message : String)
  /-- The call `g_dbus_method_invocation_return_value`. -/
  | return_value (invocation : Nat) (parameters : Option GVariant)
  /-- A call of the agent event callback `(*agent_event_cb)(service, id, properties,
  agent_event_cb_data)`. -/
  | agent_event (cb : Nat) (service : Option String) (id : Int) (properties : GVariant)
      (user_data : Option Nat)
  /-- A call of the connect completion callback `(*cb)(service, status, error_string,
  cw->request_user_data)`. -/
  | connect_event (cb : Nat) (service : Option String) (status : Bool)
      (error_string : Option String) (user_data : Option Nat)
  /-- A call of a manager event callback `(*cb)(path, event, properties,
  entry->user_data)`. -/
  | manager_event (cb : Nat) (path : String) (event : connman_manager_event_t)
      (properties : Option GVariant) (user_data : Option Nat)
  /-- A call of a technology property callback `(*cb)(object, properties,
  entry->user_data)`. -/
  | technology_property_event (cb : Nat) (object : String) (properties : GVariant)
      (user_data : Option Nat)
  /-- A call of a service property callback `(*cb)(object, properties,
  entry->user_data)`. -/
  | service_property_event (cb : Nat) (object : String) (properties : GVariant)
      (user_data : Option Nat)
deriving DecidableEq, Repr

/-- What the bus answers to a synchronous call on (path, interface, method, params): the
reply, or the error that `g_dbus_connection_call_sync` sets when it returns `NULL`. -/
abbrev Bus := String → String → String → Option GVariant → Except GError GVariant

/-! ## String helpers of the C library -/

/-- The function `strstr` on byte lists: the tail of the haystack that starts at the first
occurrence of the needle, `none` when there is none. -/
def strstr : List Char → List Char → Option (List Char)
  | [], needle => if needle.isEmpty then some [] else none
  | c :: cs, needle =>
    if needle.isPrefixOf (c :: cs) then some (c :: cs) else strstr cs needle

/-- The function `strrchr` on byte lists for a character other than NUL: the tail that
starts at the last occurrence of the character, `none` when there is none. -/
def strrchr : List Char → Char → Option (List Char)
  | [], _ => none
  | c :: cs, ch =>
    match strrchr cs ch with
    | some tail => some tail
    | none => if c = ch then some (c :: cs) else none

/-- The function `snprintf(buf, size, ...)`: of the formatted text, at most `size - 1`
bytes are stored. -/
def snprintf (size : Nat) (formatted : String) : String :=
  String.mk (formatted.data.take (size - 1))

/-- The function `strlen`. -/
def strlen (s : String) : Nat := s.length

/-! ## Constants and path helpers of `connman-call.h` -/

def CONNMAN_SERVICE : String := "net.connman"
def CONNMAN_MANAGER_INTERFACE : String := CONNMAN_SERVICE ++ ".Manager"
def CONNMAN_TECHNOLOGY_INTERFACE : String := CONNMAN_SERVICE ++ ".Technology"
def CONNMAN_SERVICE_INTERFACE : String := CONNMAN_SERVICE ++ ".Service"
def CONNMAN_MANAGER_PATH : String := "/"
def CONNMAN_PATH : String := "/net/connman"
def CONNMAN_TECHNOLOGY_PREFIX : String := CONNMAN_PATH ++ "/technology"
def CONNMAN_SERVICE_PREFIX : String := CONNMAN_PATH ++ "/service"
def CONNMAN_AT_MANAGER : String := "manager"
def CONNMAN_AT_TECHNOLOGY : String := "technology"
def CONNMAN_AT_SERVICE : String := "service"

/-- The statement macro `CONNMAN_TECHNOLOGY_PATH(_t)` for a non-`NULL` argument. -/
def CONNMAN_TECHNOLOGY_PATH (t : String) : String :=
  let len := strlen CONNMAN_TECHNOLOGY_PREFIX + 1 + strlen t + 1
  snprintf (len + 1) (CONNMAN_TECHNOLOGY_PREFIX ++ "/" ++ t)

/-- The statement macro `CONNMAN_SERVICE_PATH(_s)` for a non-`NULL` argument. -/
def CONNMAN_SERVICE_PATH (t : String) : String :=
  let len := strlen CONNMAN_SERVICE_PREFIX + 1 + strlen t + 1
  snprintf (len + 1) (CONNMAN_SERVICE_PREFIX ++ "/" ++ t)

/-- The function `connman_strip_path`: what follows the last `/`, `NULL` when the path has
no `/` or nothing follows the last one. -/
def connman_strip_path (path : String) : Option String :=
  match strrchr path.data '/' with
  | none => none
  | some tail =>
    match tail.drop 1 with
    | [] => none
    | c :: cs => some (String.mk (c :: cs))

/-! ## The call gateways (`connman-call.c`) -/

/-- The text that marks an unknown-object error of the bus. -/
def UNKNOWN_OBJECT : String := "org.freedesktop.DBus.Error.UnknownObject"

/-- The function `connman_decode_call_error`, on the error `*error` (`none`: no error
set); the result is `*error` afterwards.  `method` is compared with `strcmp` and must
not be `NULL`. -/
def connman_decode_call_error (access_type type_arg : Option String) (method : String)
    (error : Option GError) : Option GError :=
  match error with
  | none => none
  | some e =>
    if (strstr e.message.data UNKNOWN_OBJECT.data).isSome then
      if method = "SetProperty" ∨ method = "GetProperty" ∨ method = "ClearProperty" then
        some (connman_error .CONNMAN_ERROR_UNKNOWN_PROPERTY
          ("unknown " ++ fmt_s access_type ++ " property on " ++ fmt_s type_arg))
      else if method = "Connect" ∨ method = "Disconnect" ∨ method = "Remove" ∨
          method = "ResetCounters" ∨ method = "MoveAfter" ∨ method = "MoveBefore" then
        some (connman_error .CONNMAN_ERROR_UNKNOWN_SERVICE
          ("unknown service " ++ fmt_s type_arg))
      else if method = "Scan" then
        some (connman_error .CONNMAN_ERROR_UNKNOWN_TECHNOLOGY
          ("unknown technology " ++ fmt_s type_arg))
      else some e
    else some e

/-- The glib function `g_dbus_error_strip_remote_error` on the message of an error: in a
message that starts with `GDBus.Error:` the first `:` after that prefix is looked up
(`end = strstr(begin, ":")`), and when a space follows it (`end[1] == 32`) the message
becomes what follows the space (`end + 2`); in every other case the message stays. -/
def g_dbus_error_strip_remote_error (e : GError) : GError :=
  if "GDBus.Error:".data.isPrefixOf e.message.data then
    match strstr (e.message.data.drop 12) ":".data with
    | some (_ :: c :: new_message) =>
      if c = ' ' then { e with message := String.mk new_message } else e
    | _ => e
  else e

/-- The function `connman_call`: the reply or the error set, and the effects.  The target
is `NULL`-checked before the path macros read it, and an error that is set stays set
through `connman_decode_call_error`. -/
def connman_call (bus : Bus) (access_type : String) (type_arg : Option String)
    (method : String) (params : Option GVariant) : Except GError GVariant × List Effect :=
  if type_arg = none ∧
      (access_type = CONNMAN_AT_TECHNOLOGY ∨ access_type = CONNMAN_AT_SERVICE) then
    (.error (connman_error .CONNMAN_ERROR_MISSING_ARGUMENT
      ("missing " ++ access_type ++ " argument")), [])
  else
    let target : Option (String × String) :=
      if access_type = CONNMAN_AT_MANAGER then
        some (CONNMAN_MANAGER_PATH, CONNMAN_MANAGER_INTERFACE)
      else if access_type = CONNMAN_AT_TECHNOLOGY then
        some (CONNMAN_TECHNOLOGY_PATH (type_arg.getD ""), CONNMAN_TECHNOLOGY_INTERFACE)
      else if access_type = CONNMAN_AT_SERVICE then
        some (CONNMAN_SERVICE_PATH (type_arg.getD ""), CONNMAN_SERVICE_INTERFACE)
      else none
    match target with
    | none =>
      (.error (connman_error .CONNMAN_ERROR_ILLEGAL_ARGUMENT
        ("illegal " ++ access_type ++ " argument")), [])
    | some (path, interface) =>
      let effects := [Effect.call_sync path interface method params]
      match bus path interface method params with
      | .ok reply => (.ok reply, effects)
      | .error e =>
        let decoded := connman_decode_call_error (some access_type) type_arg method (some e)
        (.error (g_dbus_error_strip_remote_error (decoded.getD e)), effects)

/-- The function `connman_call_async` with completion routine `callback` and user data
`user_data`: the new state (one block allocated for the pending work), the address of the
pending work or the error set, and the effects. -/
def connman_call_async (ns : connman_state) (access_type : String)
    (type_arg : Option String) (method : String) (params : Option GVariant)
    (callback : AsyncCallback) (user_data : Nat) :
    connman_state × Except GError Nat × List Effect :=
  if type_arg = none ∧
      (access_type = CONNMAN_AT_TECHNOLOGY ∨ access_type = CONNMAN_AT_SERVICE) then
    (ns, .error (connman_error .CONNMAN_ERROR_MISSING_ARGUMENT
      ("missing " ++ access_type ++ " argument")), [])
  else
    let target : Option (String × String) :=
      if access_type = CONNMAN_AT_MANAGER then
        some (CONNMAN_MANAGER_PATH, CONNMAN_MANAGER_INTERFACE)
      else if access_type = CONNMAN_AT_TECHNOLOGY then
        some (CONNMAN_TECHNOLOGY_PATH (type_arg.getD ""), CONNMAN_TECHNOLOGY_INTERFACE)
      else if access_type = CONNMAN_AT_SERVICE then
        some (CONNMAN_SERVICE_PATH (type_arg.getD ""), CONNMAN_SERVICE_INTERFACE)
      else none
    match target with
    | none =>
      (ns, .error (connman_error .CONNMAN_ERROR_ILLEGAL_ARGUMENT
        ("illegal " ++ access_type ++ " argument")), [])
    | some (path, interface) =>
      ({ ns with heap_top := ns.heap_top + 1 }, .ok ns.heap_top,
        [Effect.call_async path interface method params callback user_data ns.heap_top])

/-- The function `connman_get_properties`: the bulk fetch for a category, always a call on
the manager object.  When `connman_call` returns `NULL` the error is already set, and the
`g_set_error` that follows leaves a set error as it is. -/
def connman_get_properties (bus : Bus) (access_type : String) (type_arg : Option String) :
    Except GError GVariant × List Effect :=
  let method : Option String :=
    if access_type = CONNMAN_AT_MANAGER then some "GetProperties"
    else if access_type = CONNMAN_AT_TECHNOLOGY then some "GetTechnologies"
    else if access_type = CONNMAN_AT_SERVICE then some "GetServices"
    else none
  match method with
  | none =>
    (.error (connman_error .CONNMAN_ERROR_ILLEGAL_ARGUMENT
      ("illegal " ++ access_type ++ " argument")), [])
  | some m => connman_call bus CONNMAN_AT_MANAGER type_arg m none

/-- The text `%s%s%s` of (`access_type`, `type_arg ? "/" : ""`, `type_arg ? type_arg :
""`) in the messages of the property resolver. -/
def fmt_target (access_type : String) (type_arg : Option String) : String :=
  access_type ++ (if type_arg.isSome then "/" else "") ++ type_arg.getD ""

/-- The loop `while (g_variant_iter_loop(array, "{&sv}", &key, &val)) if (!g_strcmp0(name,
key)) break;`: `val` afterwards, which is `NULL` when the iterator ran out. -/
def scan_props (name : Option String) : List (String × Value) → Option Value
  | [] => none
  | (key, val) :: rest =>
    if g_strcmp0 name (some key) = 0 then some val else scan_props name rest

/-- The function `find_manager_property`: the value returned and the error set. -/
def find_manager_property (properties : GVariant) (access_type : String)
    (type_arg : Option String) (name : Option String) : Option Value × Option GError :=
  match properties with
  | .props array => (scan_props name array, none)
  | _ =>
    (none, some (connman_error .CONNMAN_ERROR_BAD_PROPERTY
      ("Unexpected reply querying property '" ++ fmt_s name ++ "' on "
        ++ fmt_target access_type type_arg)))

/-- The outer loop of `find_property`: entries whose path differs from `target_path` are
skipped; the first entry with that path is scanned for `name` and ends the loop. -/
def scan_objects (target_path : String) (name : Option String) :
    List (String × List (String × Value)) → Option Value
  | [] => none
  | (path, array2) :: rest =>
    if g_strcmp0 (some path) (some target_path) ≠ 0 then scan_objects target_path name rest
    else scan_props name array2

/-- The function `find_property`: the value returned and the error set.  `none`: the path
macro is applied to a `NULL` target. -/
def find_property (properties : GVariant) (access_type : String)
    (type_arg : Option String) (name : Option String) :
    Option (Option Value × Option GError) :=
  let target_path : Option (Option String) :=
    if g_strcmp0 (some access_type) (some CONNMAN_AT_TECHNOLOGY) = 0 then
      some (type_arg.map CONNMAN_TECHNOLOGY_PATH)
    else if g_strcmp0 (some access_type) (some CONNMAN_AT_SERVICE) = 0 then
      some (type_arg.map CONNMAN_SERVICE_PATH)
    else none
  match target_path with
  | none => some (none, none)
  | some none => none
  | some (some target_path) =>
    match properties with
    | .objects array => some (scan_objects target_path name array, none)
    | _ =>
      some (none, some (connman_error .CONNMAN_ERROR_BAD_PROPERTY
        ("Unexpected reply querying property '" ++ fmt_s name ++ "' on "
          ++ fmt_target access_type type_arg)))

/-- The function `connman_get_property_internal`: the value or the error set, and the
effects.  `none`: `find_property` reads a `NULL` target. -/
def connman_get_property_internal (bus : Bus) (access_type : String)
    (type_arg : Option String) (name : Option String) :
    Option (Except GError Value × List Effect) :=
  match connman_get_properties bus access_type type_arg with
  | (.error get_error, effects) => some (.error get_error, effects)
  | (.ok reply, effects) =>
    let found : Option (Option Value × Option GError) :=
      if g_strcmp0 (some access_type) (some CONNMAN_AT_MANAGER) = 0 then
        some (find_manager_property reply access_type type_arg name)
      else find_property reply access_type type_arg name
    match found with
    | none => none
    | some (some val, _) => some (.ok val, effects)
    | some (none, some e) => some (.error e, effects)
    | some (none, none) =>
      some (.error (connman_error .CONNMAN_ERROR_BAD_PROPERTY
        ("Bad property '" ++ fmt_s name ++ "' on " ++ fmt_target access_type type_arg)),
        effects)

/-! ## The agent (`connman-agent.c`) and the operations of `api.c` on the ledger -/

/-- The static variables `agent_event_cb` and `agent_event_cb_data` of `connman-agent.c`. -/
structure agent_event_state where
  agent_event_cb : Option Nat
  agent_event_cb_data : Option Nat
deriving DecidableEq, Repr

/-- The function `run_callback` of `connman-agent.c`. -/
def run_callback (ag : agent_event_state) (service : Option String) (id : Int)
    (properties : GVariant) : List Effect :=
  match ag.agent_event_cb with
  | some cb => [Effect.agent_event cb service id properties ag.agent_event_cb_data]
  | none => []

/-- A store through an entry pointer: the entry at address `addr` becomes `f` of itself. -/
def store (list : List call_work) (addr : Nat) (f : call_work → call_work) :
    List call_work :=
  list.map (fun cw => if cw.addr = addr then f cw else cw)

/-- The function `handle_method_call` for a call of `method_name` with `parameters` and
reply handle `invocation`.  `none`: the parameters do not have the shape the method takes
them apart with (GDBus checks the signature against the introspection data before it calls
the handler). -/
def handle_method_call (ag : agent_event_state) (ns : connman_state)
    (method_name : Option String) (parameters : GVariant) (invocation : Nat) :
    Option (connman_state × List Effect) :=
  if g_strcmp0 method_name (some "RequestInput") = 0 then
    match parameters with
    | .path_dict path var =>
      let service := connman_strip_path path
      match call_work_lookup_unlocked ns (some "service") service
          (some "connect_service") with
      | none =>
        some (ns, [Effect.return_dbus_error invocation "net.connman.Agent.Error.Canceled"
          "No connection pending"])
      | some cw =>
        let ns1 := { ns with cw_pending := store ns.cw_pending cw.addr (fun c =>
          { c with agent_method := some "RequestInput", invocation := some invocation }) }
        let id := cw.id
        some (ns1, run_callback ag service id (.dict var))
    | _ => none
  else if g_strcmp0 method_name (some "ReportError") = 0 then
    match parameters with
    | .path_string _ _ => some (ns, [Effect.return_value invocation none])
    | _ => none
  else
    some (ns, [Effect.return_dbus_error invocation
      "org.freedesktop.DBus.Error.UnknownMethod" "Unknown method"])

/-- The function `connman_agent_response`: the new state, the value returned and the
effects. -/
def connman_agent_response (ns : connman_state) (id : Int) (parameters : Option GVariant) :
    connman_state × Bool × List Effect :=
  match call_work_lookup_by_id_unlocked ns id with
  | none => (ns, false, [])
  | some cw =>
    match cw.invocation with
    | none => (ns, false, [])
    | some invocation =>
      let ns1 := { ns with cw_pending := store ns.cw_pending cw.addr (fun c =>
        { c with invocation := none }) }
      if g_strcmp0 cw.agent_method (some "RequestInput") ≠ 0 then
        (ns1, false, [Effect.return_dbus_error invocation
          "org.freedesktop.DBus.Error.UnknownMethod" "Unknown method"])
      else
        (ns1, true, [Effect.return_value invocation parameters])

/-- The function `connect_service_callback`, the completion routine of the Connect call,
on the entry `cw` (its user data), the reply and the error of the call.  `none`: a `NULL`
string is read (`strcmp` on the wire method, the path macro on the target). -/
def connect_service_callback (bus : Bus) (ns : connman_state) (cw : call_work)
    (result : Option GVariant) (error : Option GError) :
    Option (connman_state × List Effect) :=
  let _ := result
  match cw.connman_method with
  | none => none
  | some connman_method =>
    let error1 := connman_decode_call_error cw.access_type cw.type_arg connman_method error
    let outcome : Option (Bool × Option String × List Effect) :=
      match error1 with
      | none => some (true, none, [])
      | some e =>
        match connman_get_property_internal bus CONNMAN_AT_SERVICE cw.type_arg
            (some "Error") with
        | none => none
        | some (.ok err, effects) =>
          let clear := connman_call bus CONNMAN_AT_SERVICE cw.type_arg "ClearProperty" none
          some (false, g_variant_get_string err, effects ++ clear.2)
        | some (.error _, effects) => some (false, some e.message, effects)
    match outcome with
    | none => none
    | some (status, error_string, effects) =>
      let called : List Effect :=
        match cw.request_cb with
        | some cb =>
          [Effect.connect_event cb cw.type_arg status error_string cw.request_user_data]
        | none => []
      some (call_work_destroy ns cw, effects ++ called)

/-- The function `connman_service_connect`: the new state, the value returned and the
effects.  `none`: the id allocation of `call_work_create` does not terminate. -/
def connman_service_connect (ns : connman_state) (service : Option String)
    (cb : Option Nat) (user_data : Option Nat) :
    Option (connman_state × Bool × List Effect) :=
  match service with
  | none => some (ns, false, [])
  | some _ =>
    match call_work_create ns (some "service") service (some "connect_service")
        (some "Connect") with
    | none => none
    | some (ns1, .error _) => some (ns1, false, [])
    | some (ns1, .ok cw) =>
      let ns2 := { ns1 with cw_pending := store ns1.cw_pending cw.addr (fun c =>
        { c with request_cb := cb, request_user_data := user_data }) }
      let cw2 : call_work := { cw with request_cb := cb, request_user_data := user_data }
      match connman_call_async ns2 "service" service "Connect" none
          AsyncCallback.connect_service_callback cw.addr with
      | (ns3, .error _, effects) => some (call_work_destroy ns3 cw2, false, effects)
      | (ns3, .ok cpw, effects) =>
        some ({ ns3 with cw_pending := store ns3.cw_pending cw.addr (fun c =>
          { c with cpw := some cpw }) }, true, effects)

/-- One ledger operation: `call_work_create` with its four strings, or `call_work_destroy`
on an entry pointer. -/
inductive LedgerOp where
  | create (access_type type_arg method connman_method : Option String)
  | destroy (cw : call_work)
deriving DecidableEq, Repr

/-- The state after one ledger operation; `none` when the operation does not return. -/
def LedgerOp.apply (ns : connman_state) : LedgerOp → Option connman_state
  | .create access_type type_arg method connman_method =>
    (call_work_create ns access_type type_arg method connman_method).map (fun r => r.1)
  | .destroy cw => some (call_work_destroy ns cw)

/-- The state after a sequence of ledger operations, run from left to right. -/
def run_ops (ns : connman_state) : List LedgerOp → Option connman_state
  | [] => some ns
  | op :: ops =>
    match op.apply ns with
    | some ns1 => run_ops ns1 ops
    | none => none

/-- Two entries carry the same (category, target, logical method) triple. -/
def same_triple (a b : call_work) : Prop :=
  a.access_type = b.access_type ∧ a.type_arg = b.type_arg ∧ a.method = b.method

instance (a b : call_work) : Decidable (same_triple a b) := by
  unfold same_triple; infer_instance

/-- The function `connman_add_agent_event_callback`: the callback and its context are
taken only while no callback is set; otherwise an error is logged and nothing changes. -/
def connman_add_agent_event_callback (ag : agent_event_state) (cb : Option Nat)
    (user_data : Option Nat) : agent_event_state :=
  if ag.agent_event_cb = none then
    { agent_event_cb := cb, agent_event_cb_data := user_data }
  else ag

/-- The function `connman_set_property_internal`: the value returned, the error set in
`*error` and the effects.  The connection state `ns` is present. -/
def connman_set_property_internal (bus : Bus) (access_type type_arg name : Option String)
    (value : Option Value) : Bool × Option GError × List Effect :=
  match access_type, type_arg, name, value with
  | some a, some t, some n, some v =>
    let var := GVariant.name_value n v
    match connman_call bus a (some t) "SetProperty" (some var) with
    | (.ok _, effects) => (true, none, effects)
    | (.error e, effects) => (false, some e, effects)
  | _, _, _, _ => (false, none, [])

/-- The function `connman_technology_set_powered`: the value returned and the effects.
`none`: a `NULL` pointer is read (the path macro on a `NULL` technology, `error->message`
on an unset error). -/
def connman_technology_set_powered (bus : Bus) (technology : Option String)
    (powered : Bool) : Option (Bool × List Effect) :=
  match connman_get_property_internal bus CONNMAN_AT_TECHNOLOGY technology
      (some "Powered") with
  | none => none
  | some (.error _, effects) => some (false, effects)
  | some (.ok var, effects) =>
    let current_powered := g_variant_get_boolean var
    if current_powered = powered then some (true, effects)
    else
      match connman_set_property_internal bus (some CONNMAN_AT_TECHNOLOGY) technology
          (some "Powered") (some (Value.boolean powered)) with
      | (true, _, effects2) => some (true, effects ++ effects2)
      | (false, some _, effects2) => some (false, effects ++ effects2)
      | (false, none, _) => none

/-- The function `connman_technology_enable`. -/
def connman_technology_enable (bus : Bus) (technology : Option String) :
    Option (Bool × List Effect) :=
  connman_technology_set_powered bus technology true

/-- The function `connman_technology_disable`. -/
def connman_technology_disable (bus : Bus) (technology : Option String) :
    Option (Bool × List Effect) :=
  connman_technology_set_powered bus technology false

/-! ## The callback lists and the signal handlers (`api.c`) -/

/-- The record `callback_list_entry_t`: a callback pointer and its context, `none` for
`NULL`. -/
structure callback_list_entry_t where
  callback : Option Nat
  user_data : Option Nat
deriving DecidableEq, Repr

/-- The list of a `callback_list_t`; every node holds an entry block of its own. -/
abbrev callback_list_t := List callback_list_entry_t

/-- The function `callback_add`: a new entry goes to the end (`g_slist_append`). -/
def callback_add (callbacks : callback_list_t) (callback user_data : Option Nat) :
    callback_list_t :=
  callbacks ++ [{ callback := callback, user_data := user_data }]

/-- The search loop of `callback_remove`: the position of the first entry whose callback
pointer equals `callback`. -/
def callback_remove_find (callback : Option Nat) : callback_list_t → Option Nat
  | [] => none
  | entry :: rest =>
    if entry.callback = callback then some 0
    else (callback_remove_find callback rest).map (fun i => i + 1)

/-- The function `callback_remove`: the entry found by the search loop is unlinked
(`g_slist_remove` on its pointer unlinks the node that holds it). -/
def callback_remove (callbacks : callback_list_t) (callback : Option Nat) :
    callback_list_t :=
  match callback_remove_find callback callbacks with
  | some i => callbacks.eraseIdx i
  | none => callbacks

/-- The loop of `run_manager_callbacks` over the list, for a path that is not `NULL`. -/
def run_manager_callbacks_loop (path : String) (event : connman_manager_event_t)
    (properties : Option GVariant) : callback_list_t → List Effect
  | [] => []
  | entry :: rest =>
    match entry.callback with
    | some cb =>
      Effect.manager_event cb path event properties entry.user_data ::
        run_manager_callbacks_loop path event properties rest
    | none => run_manager_callbacks_loop path event properties rest

/-- The function `run_manager_callbacks`. -/
def run_manager_callbacks (callbacks : callback_list_t) (path : Option String)
    (event : connman_manager_event_t) (properties : Option GVariant) : List Effect :=
  match path with
  | none => []
  | some p => run_manager_callbacks_loop p event properties callbacks

/-- The function `run_property_callbacks`. -/
def run_property_callbacks (callbacks : callback_list_t) (object : String)
    (properties : GVariant) (technology : Bool) : List Effect :=
  match callbacks with
  | [] => []
  | entry :: rest =>
    match entry.callback with
    | some cb =>
      (if technology then Effect.technology_property_event cb object properties entry.user_data
        else Effect.service_property_event cb object properties entry.user_data) ::
        run_property_callbacks rest object properties technology
    | none => run_property_callbacks rest object properties technology

/-- The function `connman_add_manager_event_callback`, on the list
`connman_manager_callbacks`. -/
def connman_add_manager_event_callback (connman_manager_callbacks : callback_list_t)
    (cb user_data : Option Nat) : callback_list_t :=
  if cb = none then connman_manager_callbacks
  else callback_add connman_manager_callbacks cb user_data

/-- The function `connman_add_technology_property_event_callback`, on the list
`connman_technology_callbacks`. -/
def connman_add_technology_property_event_callback
    (connman_technology_callbacks : callback_list_t) (cb user_data : Option Nat) :
    callback_list_t :=
  if cb = none then connman_technology_callbacks
  else callback_add connman_technology_callbacks cb user_data

/-- The function `connman_add_service_property_event_callback`, on the list
`connman_service_callbacks`. -/
def connman_add_service_property_event_callback
    (connman_service_callbacks : callback_list_t) (cb user_data : Option Nat) :
    callback_list_t :=
  if cb = none then connman_service_callbacks
  else callback_add connman_service_callbacks cb user_data

/-- The glib function `g_str_has_prefix`; `FALSE` (after a critical warning) for a `NULL`
string. -/
def g_str_has_prefix (str : Option String) (pre : String) : Bool :=
  match str with
  | none => false
  | some s => pre.data.isPrefixOf s.data

/-- The first loop of the ServicesChanged branch, over the changed entries: an entry on
whose map `g_variant_iter_init` returns 0 is skipped; `none` when `g_assert(basename)`
fails. -/
def services_changed_loop (callbacks : callback_list_t) :
    List (String × List (String × Value)) → Option (List Effect)
  | [] => some []
  | (path, var) :: rest =>
    if g_variant_iter_init var = 0 then services_changed_loop callbacks rest
    else
      match connman_strip_path path with
      | none => none
      | some basename =>
        match services_changed_loop callbacks rest with
        | none => none
        | some effects =>
          some (run_manager_callbacks callbacks (some basename)
            .CONNMAN_MANAGER_EVENT_SERVICE_CHANGE (some (.dict var)) ++ effects)

/-- The second loop of the ServicesChanged branch, over the removed paths; `none` when
`g_assert(basename)` fails. -/
def services_removed_loop (callbacks : callback_list_t) :
    List String → Option (List Effect)
  | [] => some []
  | path :: rest =>
    match connman_strip_path path with
    | none => none
    | some basename =>
      match services_removed_loop callbacks rest with
      | none => none
      | some effects =>
        some (run_manager_callbacks callbacks (some basename)
          .CONNMAN_MANAGER_EVENT_SERVICE_REMOVE none ++ effects)

/-- The function `connman_manager_signal_callback` on the list
`connman_manager_callbacks`.  `none`: `g_assert(basename)` fails, or the parameters do not
have the shape the signal is taken apart with. -/
def connman_manager_signal_callback (connman_manager_callbacks : callback_list_t)
    (object_path interface_name signal_name : Option String) (parameters : GVariant) :
    Option (List Effect) :=
  if ¬ (g_strcmp0 object_path (some "/") = 0 ∧
      g_strcmp0 interface_name (some "net.connman.Manager") = 0) then some []
  else if g_strcmp0 signal_name (some "TechnologyAdded") = 0 then
    match parameters with
    | .path_dict path var =>
      match connman_strip_path path with
      | none => none
      | some basename =>
        some (run_manager_callbacks connman_manager_callbacks (some basename)
          .CONNMAN_MANAGER_EVENT_TECHNOLOGY_ADD (some (.dict var)))
    | _ => none
  else if g_strcmp0 signal_name (some "TechnologyRemoved") = 0 then
    match parameters with
    | .object_path path =>
      match connman_strip_path path with
      | none => none
      | some basename =>
        some (run_manager_callbacks connman_manager_callbacks (some basename)
          .CONNMAN_MANAGER_EVENT_TECHNOLOGY_REMOVE none)
    | _ => none
  else if g_strcmp0 signal_name (some "ServicesChanged") = 0 then
    match parameters with
    | .services_changed array1 array2 =>
      match services_changed_loop connman_manager_callbacks array1 with
      | none => none
      | some effects1 =>
        match services_removed_loop connman_manager_callbacks array2 with
        | none => none
        | some effects2 => some (effects1 ++ effects2)
    | _ => none
  else if g_strcmp0 signal_name (some "PropertyChanged") = 0 then
    match parameters with
    | .name_value key var =>
      some (run_manager_callbacks connman_manager_callbacks (some key)
        .CONNMAN_MANAGER_EVENT_PROPERTY_CHANGE (some (.value var)))
    | _ => none
  else some []

/-- The function `connman_technology_signal_callback` on the list
`connman_technology_callbacks`.  `none`: `g_assert(basename)` fails. -/
def connman_technology_signal_callback (connman_technology_callbacks : callback_list_t)
    (object_path interface_name signal_name : Option String) (parameters : GVariant) :
    Option (List Effect) :=
  if ¬ ( g_str_has_prefix object_path "/net/connman/technology/" = true ∧
      g_strcmp0 interface_name (some "net.connman.Technology") = 0) then some []
  else
    match object_path.bind connman_strip_path with
    | none => none
    | some basename =>
      if g_strcmp0 signal_name (some "PropertyChanged") = 0 then
        some (run_property_callbacks connman_technology_callbacks basename parameters true)
      else some []

/-- The function `connman_service_signal_callback` on the list
`connman_service_callbacks`.  `none`: `g_assert(basename)` fails. -/
def connman_service_signal_callback (connman_service_callbacks : callback_list_t)
    (object_path interface_name signal_name : Option String) (parameters : GVariant) :
    Option (List Effect) :=
  if ¬ ( g_str_has_prefix object_path "/net/connman/service/" = true ∧
      g_strcmp0 interface_name (some "net.connman.Service") = 0) then some []
  else
    match object_path.bind connman_strip_path with
    | none => none
    | some basename =>
      if g_strcmp0 signal_name (some "PropertyChanged") = 0 then
        some (run_property_callbacks connman_service_callbacks basename parameters false)
      else some []

/-! ## The public property setters and the start of the library (`api.c`) -/

/-- The enumeration `connman_property_type_t` of `connman-glib.h`; `other` stands for an
integer outside the enumeration, which takes the `default` label of the switch. -/
inductive connman_property_type_t where
  | CONNMAN_PROPERTY_MANAGER
  | CONNMAN_PROPERTY_TECHNOLOGY
  | CONNMAN_PROPERTY_SERVICE
  | other (value : Int)
deriving DecidableEq, Repr

/-- The function `connman_set_property`: the effects, and the value returned.  The value
is `none` when the function does not return: after a `FALSE` of
`connman_set_property_internal` the function reads `error->message`, and `error` is still
`NULL` when the argument check of `connman_set_property_internal` refused the call. -/
def connman_set_property (bus : Bus) (prop_type : connman_property_type_t)
    (path name : Option String) (value : Option Value) : List Effect × Option Bool :=
  if name = none ∨ value = none then ([], some false)
  else
    let resolved : Option (String × Option String) :=
      match prop_type with
      | .CONNMAN_PROPERTY_MANAGER => some (CONNMAN_AT_MANAGER, none)
      | .CONNMAN_PROPERTY_TECHNOLOGY => some (CONNMAN_AT_TECHNOLOGY, path)
      | .CONNMAN_PROPERTY_SERVICE => some (CONNMAN_AT_SERVICE, path)
      | .other _ => none
    match resolved with
    | none => ([], some false)
    | some (access_type, type_arg) =>
      match connman_set_property_internal bus (some access_type) type_arg name value with
      | (true, _, effects) => (effects, some true)
      | (false, some _, effects) => (effects, some false)
      | (false, none, effects) => (effects, none)

/-- The function `connman_manager_set_offline`: the effects, and the value returned
(`none`: `error->message` is read on an `error` that is `NULL`).  The value
`g_variant_new_boolean` is never `NULL`. -/
def connman_manager_set_offline (bus : Bus) (state : Bool) : List Effect × Option Bool :=
  match connman_set_property_internal bus (some CONNMAN_AT_MANAGER) none
      (some "OfflineMode") (some (Value.boolean state)) with
  | (true, _, effects) => (effects, some true)
  | (false, some _, effects) => (effects, some false)
  | (false, none, effects) => (effects, none)

/-- The function `connman_manager_get_state`, called with a `state` pointer that is not
`NULL`, on the value of the static variable `g_connman_state` (`none`: `NULL`): the value
returned, the string stored in `*state`, and the effects.  The result is `none` when the
property is not a string: the reply is then released twice. -/
def connman_manager_get_state (bus : Bus) (g_connman_state : Option connman_state) :
    Option (Bool × Option String × List Effect) :=
  match g_connman_state with
  | none => some (false, none, [])
  | some _ =>
    match connman_get_property_internal bus CONNMAN_AT_MANAGER none (some "State") with
    | none => none
    | some (.error _, effects) => some (false, none, effects)
    | some (.ok prop, effects) =>
      match g_variant_get_string prop with
      | none => none
      | some val => some (true, some val, effects)

/-- The variables that the caller of `connman_init` and the thread of
`connman_handler_func` share: the fields `init_done` and `rc` of `struct init_data`, and
the static variable `g_connman_state`. -/
structure init_shared where
  init_done : Bool
  rc : Bool
  g_connman_state : Option connman_state
deriving DecidableEq, Repr

/-- The shared variables when `connman_init` starts the thread: `init_data` is cleared
with `memset`, the static pointer is `NULL`. -/
def init_shared_start : init_shared :=
  { init_done := false, rc := false, g_connman_state := none }

/-- The function `signal_init_done`. -/
def signal_init_done (w : init_shared) (rc : Bool) : init_shared :=
  { w with init_done := true, rc := rc }

/-- The function `connman_set_state`. -/
def connman_set_state (w : init_shared) (ns : Option connman_state) : init_shared :=
  { w with g_connman_state := ns }

/-- The writes of `connman_handler_func` to the shared variables, in program order, on
the path where `g_main_loop_new`, `connman_dbus_init` and (with `register_agent`)
`connman_register_agent` succeed.  Without `register_agent` the thread calls
`signal_init_done(id, TRUE)` and then `connman_set_state(ns)`; with it the thread calls
`connman_set_state(ns)`, and `on_bus_acquired` signals from inside `g_main_loop_run`. -/
def connman_handler_func (register_agent : Bool) : List (init_shared → init_shared) :=
  if register_agent then
    [fun w => connman_set_state w (some connman_dbus_init),
     fun w => signal_init_done w true]
  else
    [fun w => signal_init_done w true,
     fun w => connman_set_state w (some connman_dbus_init)]

/-- The shared variables after the thread of `connman_handler_func` has made its first
`k` writes. -/
def handler_progress (register_agent : Bool) (k : Nat) : init_shared :=
  ((connman_handler_func register_agent).take k).foldl (fun w f => f w) init_shared_start

/-- The end of `connman_init`, after its wait on the condition is over with the shared
variables at `w`: `FALSE` when `init_done` is not set (the wait timed out), otherwise
`id->rc`. -/
def connman_init (w : init_shared) : Bool :=
  if ¬ w.init_done then false else w.rc

/-- An operation of the library on the ledger of pending calls: a call of
`connman_service_connect`, a method call that reaches `handle_method_call`, a call of
`connman_agent_response`, or the completion `connect_service_callback` of a Connect. -/
inductive ApiOp where
  | service_connect (service : Option String) (cb user_data : Option Nat)
  | method_call (method_name : Option String) (parameters : GVariant) (invocation : Nat)
  | agent_response (id : Int) (parameters : Option GVariant)
  | connect_completion (cw : call_work) (result : Option GVariant) (error : Option GError)

/-- The ledger after one operation (`none`: the operation does not return). -/
def ApiOp.apply (ag : agent_event_state) (bus : Bus) (ns : connman_state) :
    ApiOp → Option connman_state
  | .service_connect service cb user_data =>
    (connman_service_connect ns service cb user_data).map (fun r => r.1)
  | .method_call method_name parameters invocation =>
    (handle_method_call ag ns method_name parameters invocation).map (fun r => r.1)
  | .agent_response id parameters => some (connman_agent_response ns id parameters).1
  | .connect_completion cw result error =>
    (connect_service_callback bus ns cw result error).map (fun r => r.1)

/-- The ledger after a run of operations. -/
def run_api (ag : agent_event_state) (bus : Bus) (ns : connman_state) :
    List ApiOp → Option connman_state
  | [] => some ns
  | op :: ops => (op.apply ag bus ns).bind (fun ns1 => run_api ag bus ns1 ops)

/-! ## Invariants and specification-level definitions -/

/-- Invariant of the ledger under create and destroy: no two entries with the same
triple. -/
def triples_distinct (ns : connman_state) : Prop :=
  ns.cw_pending.Pairwise (fun a b => ¬ same_triple a b)

/-- Invariant of the ledger under create and destroy: the counter is in `1 .. 2^31-1`,
the ids of the entries are positive and pairwise different. -/
def ids_wf (ns : connman_state) : Prop :=
  (1 ≤ ns.next_cw_id ∧ ns.next_cw_id ≤ 2147483647) ∧
  (∀ cw ∈ ns.cw_pending, 0 < cw.id) ∧
  ns.cw_pending.Pairwise (fun a b => a.id ≠ b.id)

/-- The value of the counter after `k` rounds of the allocation loop. -/
def counter_after (n : Int) : Nat → Int
  | 0 => n
  | k + 1 => counter_after (next_cw_id_step n) k

/-- Well-formed ledger: the entries have addresses of their own, below the allocation
counter, and ids of their own. -/
def ledger_wf (ns : connman_state) : Prop :=
  ns.cw_pending.Pairwise (fun a b => a.addr ≠ b.addr) ∧
  ns.cw_pending.Pairwise (fun a b => a.id ≠ b.id) ∧
  (∀ cw ∈ ns.cw_pending, cw.addr < ns.heap_top)

instance (ns : connman_state) : Decidable (ledger_wf ns) := by
  unfold ledger_wf; infer_instance

instance (ns : connman_state) : Decidable (triples_distinct ns) := by
  unfold triples_distinct; infer_instance

/-- The error kinds the specification names for a decoded call error, and "unchanged". -/
inductive DecodedError where
  | UnknownProperty (category target : Option String)
  | UnknownService (target : Option String)
  | UnknownTechnology (target : Option String)
  | Unchanged (error : Option GError)
deriving DecidableEq, Repr

/-- The error decoding as the specification words it: when the error text contains the
unknown-object marker, remap by method; any other error passes through unchanged. -/
def spec_decode_call_error (category target : Option String) (method : String)
    (error : Option GError) : DecodedError :=
  match error with
  | none => .Unchanged none
  | some e =>
    if UNKNOWN_OBJECT.data <:+: e.message.data then
      if method ∈ ["SetProperty", "GetProperty", "ClearProperty"] then
        .UnknownProperty category target
      else if method ∈ ["Connect", "Disconnect", "Remove", "ResetCounters", "MoveAfter",
          "MoveBefore"] then
        .UnknownService target
      else if method = "Scan" then .UnknownTechnology target
      else .Unchanged (some e)
    else .Unchanged (some e)

/-- The `GError` that stands for a decoded error: the kind as the code of the domain
`CONNMAN_ERROR`, the category and target named in the message. -/
def DecodedError.toGError : DecodedError → Option GError
  | .UnknownProperty category target =>
    some { domain := GQuark.CONNMAN_ERROR,
           code := NBError.CONNMAN_ERROR_UNKNOWN_PROPERTY.code,
           message := "unknown " ++ fmt_s category ++ " property on " ++ fmt_s target }
  | .UnknownService target =>
    some { domain := GQuark.CONNMAN_ERROR,
           code := NBError.CONNMAN_ERROR_UNKNOWN_SERVICE.code,
           message := "unknown service " ++ fmt_s target }
  | .UnknownTechnology target =>
    some { domain := GQuark.CONNMAN_ERROR,
           code := NBError.CONNMAN_ERROR_UNKNOWN_TECHNOLOGY.code,
           message := "unknown technology " ++ fmt_s target }
  | .Unchanged error => error

/-- The transport calls among a list of effects. -/
def transport_calls (effects : List Effect) : List Effect :=
  effects.filter (fun e =>
    match e with
    | .call_sync _ _ _ _ => true
    | .call_async _ _ _ _ _ _ _ => true
    | _ => false)

/-- The application callbacks among a list of effects. -/
def callbacks (effects : List Effect) : List Effect :=
  effects.filter (fun e =>
    match e with
    | .agent_event _ _ _ _ _ => true
    | .connect_event _ _ _ _ _ => true
    | .manager_event _ _ _ _ _ => true
    | .technology_property_event _ _ _ _ => true
    | .service_property_event _ _ _ _ => true
    | _ => false)

/-- The replies to a method invocation among a list of effects. -/
def replies (effects : List Effect) : List Effect :=
  effects.filter (fun e =>
    match e with
    | .return_dbus_error _ _ _ => true
    | .return_value _ _ => true
    | _ => false)

/-- A bus that answers every call with the empty reply. -/
def bus_ok : Bus := fun _ _ _ _ => .ok GVariant.unit

/-- The lookup in an indexed bulk reply as the specification words it: find the entry whose
path equals the object path, then, inside its flat map, the first pair with the name. -/
def spec_get_named_indexed (path name : String)
    (reply : List (String × List (String × Value))) : Option Value :=
  match reply.find? (fun entry => entry.1 = path) with
  | none => none
  | some entry => (entry.2.find? (fun pair => pair.1 = name)).map (fun pair => pair.2)

/-- The bulk-fetch method of a category other than manager. -/
def bulk_method (access_type : String) : String :=
  if access_type = CONNMAN_AT_TECHNOLOGY then "GetTechnologies" else "GetServices"

/-- The lookup in a flat bulk reply as the specification words it: the first pair in reply
order with the name. -/
def spec_get_named_flat (name : String) (reply : List (String × Value)) : Option Value :=
  (reply.find? (fun pair => pair.1 = name)).map (fun pair => pair.2)

/-- The resolution of (category, target) to an object path and an interface as the
specification words it, with the error kind for the inputs that are rejected. -/
def spec_resolve (category : String) (target : Option String) :
    Except NBError (String × String) :=
  if category = "manager" then .ok ("/", "net.connman.Manager")
  else if category = "technology" then
    match target with
    | some t => .ok ("/net/connman/technology/" ++ t, "net.connman.Technology")
    | none => .error .CONNMAN_ERROR_MISSING_ARGUMENT
  else if category = "service" then
    match target with
    | some t => .ok ("/net/connman/service/" ++ t, "net.connman.Service")
    | none => .error .CONNMAN_ERROR_MISSING_ARGUMENT
  else .error .CONNMAN_ERROR_ILLEGAL_ARGUMENT

/-- The subscribers of a callback list: the entries whose callback is not `NULL`, in list
order, each with its context. -/
def subscribers (callbacks : callback_list_t) : List (Nat × Option Nat) :=
  callbacks.filterMap (fun entry => entry.callback.map (fun cb => (cb, entry.user_data)))

/-- One manager event emitted to every subscriber, in order. -/
def spec_emit_manager (subs : List (Nat × Option Nat)) (path : String)
    (event : connman_manager_event_t) (properties : Option GVariant) : List Effect :=
  subs.map (fun sub => Effect.manager_event sub.1 path event properties sub.2)

/-- One technology property event emitted to every subscriber, in order. -/
def spec_emit_technology (subs : List (Nat × Option Nat)) (object : String)
    (properties : GVariant) : List Effect :=
  subs.map (fun sub => Effect.technology_property_event sub.1 object properties sub.2)

/-- One service property event emitted to every subscriber, in order. -/
def spec_emit_service (subs : List (Nat × Option Nat)) (object : String)
    (properties : GVariant) : List Effect :=
  subs.map (fun sub => Effect.service_property_event sub.1 object properties sub.2)

/-- The SetProperty calls among a list of effects. -/
def set_property_calls (effects : List Effect) : List Effect :=
  effects.filter (fun e =>
    match e with
    | .call_sync _ _ method _ => method = "SetProperty"
    | _ => false)

/-- The value at position `k` of the cyclic sequence `n, n+1, ..., 2^31-1, 1, 2, ...`. -/
def cyclic_seq (n : Int) (k : Nat) : Int := (n - 1 + k) % 2147483647 + 1

/-- The cyclic successor of an id: `2^31-1` is followed by 1. -/
def cyclic_succ (id : Int) : Int := if id = 2147483647 then 1 else id + 1

/-- Invariant of the ledger: an entry that holds a reply handle holds the agent method
RequestInput. -/
def reply_handles_wf (ns : connman_state) : Prop :=
  ∀ cw ∈ ns.cw_pending, cw.invocation ≠ none → cw.agent_method = some "RequestInput"

instance (ns : connman_state) : Decidable (reply_handles_wf ns) := by
  unfold reply_handles_wf; infer_instance

/-! ## Sample states -/

/-- The entry that `connman_service_connect` reserves for service `svc0` in the initial
ledger, with completion callback 7 and context 9. -/
def cw_svc0 : call_work :=
  { addr := 0, id := 1, access_type := some "service", type_arg := some "svc0",
    method := some "connect_service", connman_method := some "Connect", cpw := some 1,
    request_cb := some 7, request_user_data := some 9, agent_method := none,
    invocation := none }

/-- The ledger after `connman_service_connect` for `svc0` in the initial ledger. -/
def ns_connecting : connman_state :=
  { next_cw_id := 2, cw_pending := [cw_svc0], heap_top := 2 }

/-- The entry `cw_svc0` after a RequestInput with reply handle 5. -/
def cw_svc0_asked : call_work :=
  { cw_svc0 with agent_method := some "RequestInput", invocation := some 5 }

/-- The ledger `ns_connecting` after a RequestInput for `svc0` with reply handle 5. -/
def ns_asked : connman_state :=
  { next_cw_id := 2, cw_pending := [cw_svc0_asked], heap_top := 2 }

/-- An agent callback registration: callback 3 with context 4. -/
def ag_registered : agent_event_state :=
  { agent_event_cb := some 3, agent_event_cb_data := some 4 }

/-- A run of ledger operations: connect to `a`, connect to `a` again (refused), connect
to `b`, and the destruction of the entry for `a`. -/
def ops_sample : List LedgerOp :=
  [ .create (some "service") (some "a") (some "connect_service") (some "Connect"),
    .create (some "service") (some "a") (some "connect_service") (some "Connect"),
    .create (some "service") (some "b") (some "connect_service") (some "Connect"),
    .destroy { addr := 0, id := 1, access_type := some "service", type_arg := some "a",
               method := some "connect_service", connman_method := some "Connect",
               cpw := none, request_cb := none, request_user_data := none,
               agent_method := none, invocation := none } ]

/-- The ledger after `ops_sample` from the initial ledger. -/
def ns_sample : connman_state :=
  { next_cw_id := 3,
    cw_pending := [{ addr := 1, id := 2, access_type := some "service",
                     type_arg := some "b", method := some "connect_service",
                     connman_method := some "Connect", cpw := none, request_cb := none,
                     request_user_data := none, agent_method := none, invocation := none }],
    heap_top := 2 }

/-- An empty ledger whose counter has reached the largest `int`. -/
def ns_at_max : connman_state :=
  { next_cw_id := 2147483647, cw_pending := [], heap_top := 0 }

/-- Two creates in a row. -/
def ops_two_creates : List LedgerOp :=
  [ .create (some "service") (some "a") (some "connect_service") (some "Connect"),
    .create (some "service") (some "b") (some "connect_service") (some "Connect") ]

/-- The ledger after `ops_two_creates` from `ns_at_max`: ids `2^31-1` and, after the
wrap, 1. -/
def ns_wrapped : connman_state :=
  { next_cw_id := 2,
    cw_pending := [{ addr := 1, id := 1, access_type := some "service",
                     type_arg := some "b", method := some "connect_service",
                     connman_method := some "Connect", cpw := none, request_cb := none,
                     request_user_data := none, agent_method := none, invocation := none },
                   { addr := 0, id := 2147483647, access_type := some "service",
                     type_arg := some "a", method := some "connect_service",
                     connman_method := some "Connect", cpw := none, request_cb := none,
                     request_user_data := none, agent_method := none, invocation := none }],
    heap_top := 2 }

/-- An indexed bulk reply: service `svc1`, then service `svc0` with two pairs named
Error. -/
def services_svc0 : List (String × List (String × Value)) :=
  [("/net/connman/service/svc1", [("Error", .string "other")]),
   ("/net/connman/service/svc0",
     [("State", .string "failure"), ("Error", .string "invalid-key"),
      ("Error", .string "second")])]

/-- A bus that answers GetServices with `services_svc0` and every other call with the
empty reply. -/
def bus_svc0 : Bus := fun _ _ method _ =>
  if method = "GetServices" then .ok (.objects services_svc0) else .ok .unit

/-- An error as the bus reports it for a failed Connect. -/
def err_failed : GError :=
  { domain := .transport 0, code := 0,
    message := "GDBus.Error:net.connman.Error.Failed: Input/output error" }

/-- A flat bulk reply with two pairs named State. -/
def props_sample : List (String × Value) :=
  [("OfflineMode", .boolean false), ("State", .string "online"), ("State", .string "idle")]

/-- A bus that answers GetProperties with `props_sample`, GetTechnologies with one
technology `wifi` that is not powered, and every other call with the empty reply. -/
def bus_sample : Bus := fun _ _ method _ =>
  if method = "GetProperties" then .ok (.props props_sample)
  else if method = "GetTechnologies" then
    .ok (.objects [("/net/connman/technology/wifi",
      [("Name", .string "WiFi"), ("Powered", .boolean false)])])
  else .ok .unit

/-- A bus that answers GetTechnologies with one technology `wifi` that is powered, and
every other call with the empty reply. -/
def bus_powered : Bus := fun _ _ method _ =>
  if method = "GetTechnologies" then
    .ok (.objects [("/net/connman/technology/wifi",
      [("Name", .string "WiFi"), ("Powered", .boolean true)])])
  else .ok .unit

/-- A bus that fails every call. -/
def bus_down : Bus := fun _ _ _ _ =>
  .error { domain := .transport 0, code := 0, message := "no reply" }

/-- A callback list with two registrations of callback 1 and one of callback 2. -/
def callbacks_sample : callback_list_t :=
  [{ callback := some 1, user_data := some 10 }, { callback := some 2, user_data := none },
   { callback := some 1, user_data := some 11 }]

/-- A ledger with one entry whose target is absent. -/
def ns_absent : connman_state :=
  { next_cw_id := 2,
    cw_pending := [{ addr := 0, id := 1, access_type := some "technology", type_arg := none,
                     method := some "scan", connman_method := some "Scan", cpw := none,
                     request_cb := none, request_user_data := none, agent_method := none,
                     invocation := none }],
    heap_top := 1 }

/-- A ledger with one entry whose target is the empty string. -/
def ns_empty : connman_state :=
  { next_cw_id := 2,
    cw_pending := [{ addr := 0, id := 1, access_type := some "technology",
                     type_arg := some "", method := some "scan",
                     connman_method := some "Scan", cpw := none, request_cb := none,
                     request_user_data := none, agent_method := none,
                     invocation := none }],
    heap_top := 1 }

/-- A run of library operations: a connect to `svc0` with callback 7 and context 9, then
the RequestInput of the daemon for the object path of `svc0` with reply handle 5. -/
def api_ops_sample : List ApiOp :=
  [ .service_connect (some "svc0") (some 7) (some 9),
    .method_call (some "RequestInput") (.path_dict "/net/connman/service/svc0" []) 5 ]

/-! ## Lemmas on the ledger -/

theorem strcmp_eq_zero (a : List Char) : ∀ b : List Char, strcmp a b = 0 ↔ a = b := by
  induction a with
  | nil => intro b; cases b <;> simp [strcmp]
  | cons x xs ih =>
    intro b
    cases b with
    | nil => simp [strcmp]
    | cons y ys =>
      unfold strcmp
      by_cases hxy : x = y
      · rw [if_pos hxy, ih ys]; simp [hxy]
      · rw [if_neg hxy]
        split_ifs <;> simp [hxy]

theorem g_strcmp0_eq_zero (a b : Option String) : g_strcmp0 a b = 0 ↔ a = b := by
  cases a <;> cases b <;> simp [g_strcmp0]
  rw [strcmp_eq_zero]
  exact String.ext_iff.symm

theorem next_cw_id_step_of_range (n : Int) (h1 : 1 ≤ n) (h2 : n ≤ 2147483647) :
    next_cw_id_step n = if n = 2147483647 then 1 else n + 1 := by
  unfold next_cw_id_step wrap_int
  split_ifs <;> omega

theorem next_cw_id_step_range (n : Int) (h1 : 1 ≤ n) (h2 : n ≤ 2147483647) :
    1 ≤ next_cw_id_step n ∧ next_cw_id_step n ≤ 2147483647 := by
  rw [next_cw_id_step_of_range n h1 h2]
  split_ifs <;> omega

theorem lookup_none_iff (ns : connman_state) (a t m : Option String) :
    call_work_lookup_unlocked ns a t m = none ↔
      ∀ cw ∈ ns.cw_pending, ¬ (a = cw.access_type ∧ t = cw.type_arg ∧ m = cw.method) := by
  unfold call_work_lookup_unlocked
  rw [List.find?_eq_none]
  constructor
  · intro h cw hcw hc
    have := h cw hcw
    simp [g_strcmp0_eq_zero, hc.1, hc.2.1, hc.2.2] at this
  · intro h cw hcw
    have := h cw hcw
    simp only [Bool.and_eq_true, beq_iff_eq, g_strcmp0_eq_zero]
    tauto

theorem lookup_by_id_none_iff (ns : connman_state) (id : Int) :
    call_work_lookup_by_id_unlocked ns id = none ↔ ∀ cw ∈ ns.cw_pending, cw.id ≠ id := by
  unfold call_work_lookup_by_id_unlocked
  rw [List.find?_eq_none]
  simp

theorem alloc_id_loop_spec (ns : connman_state) (fuel : Nat) :
    ∀ (n id next : Int), 1 ≤ n → n ≤ 2147483647 →
      alloc_id_loop ns fuel n = some (id, next) →
      1 ≤ id ∧ id ≤ 2147483647 ∧ 1 ≤ next ∧ next ≤ 2147483647 ∧
        call_work_lookup_by_id_unlocked ns id = none := by
  induction fuel with
  | zero => intro n id next _ _ h; simp [alloc_id_loop] at h
  | succ k ih =>
    intro n id next h1 h2 h
    unfold alloc_id_loop at h
    cases hl : call_work_lookup_by_id_unlocked ns n with
    | none =>
      rw [hl] at h
      simp only [Option.some.injEq, Prod.mk.injEq] at h
      obtain ⟨rfl, rfl⟩ := h
      have := next_cw_id_step_range n h1 h2
      exact ⟨h1, h2, this.1, this.2, hl⟩
    | some c =>
      rw [hl] at h
      have := next_cw_id_step_range n h1 h2
      exact ih _ id next this.1 this.2 h

theorem g_slist_remove_sublist (l : List call_work) (cw : call_work) :
    (g_slist_remove l cw).Sublist l := by
  unfold g_slist_remove
  exact List.eraseP_sublist l

theorem destroy_sublist (ns : connman_state) (cw : call_work) :
    (call_work_destroy ns cw).cw_pending.Sublist ns.cw_pending := by
  unfold call_work_destroy call_work_destroy_unlocked
  split
  · split_ifs
    · exact List.Sublist.refl _
    · exact g_slist_remove_sublist _ _
  · exact List.Sublist.refl _

theorem destroy_next_cw_id (ns : connman_state) (cw : call_work) :
    (call_work_destroy ns cw).next_cw_id = ns.next_cw_id := by
  unfold call_work_destroy call_work_destroy_unlocked
  split
  · split_ifs <;> rfl
  · rfl

/-- What `call_work_create` returns, case by case. -/
theorem create_cases (ns : connman_state) (a t m c : Option String)
    (r : connman_state × CreateResult) (h : call_work_create ns a t m c = some r) :
    (call_work_lookup_unlocked ns a t m ≠ none ∧ r.1 = ns ∧ ∃ e, r.2 = .error e) ∨
    (call_work_lookup_unlocked ns a t m = none ∧
      ∃ id next, alloc_id_loop ns ALLOC_FUEL ns.next_cw_id = some (id, next) ∧
        ∃ cw : call_work, cw.addr = ns.heap_top ∧ cw.id = id ∧ cw.access_type = a ∧
          cw.type_arg = t ∧ cw.method = m ∧ cw.connman_method = c ∧ cw.cpw = none ∧
          cw.request_cb = none ∧ cw.request_user_data = none ∧ cw.agent_method = none ∧
          cw.invocation = none ∧ r.2 = .ok cw ∧
          r.1 = { next_cw_id := next, cw_pending := cw :: ns.cw_pending,
                  heap_top := ns.heap_top + 1 }) := by
  unfold call_work_create call_work_create_unlocked at h
  cases hl : call_work_lookup_unlocked ns a t m with
  | some x =>
    rw [hl] at h
    simp only [Option.some.injEq] at h
    subst h
    exact Or.inl ⟨by simp, rfl, _, rfl⟩
  | none =>
    rw [hl] at h
    cases ha : alloc_id_loop ns ALLOC_FUEL ns.next_cw_id with
    | none => rw [ha] at h; simp at h
    | some p =>
      obtain ⟨id, next⟩ := p
      rw [ha] at h
      simp only [Option.some.injEq] at h
      subst h
      exact Or.inr ⟨rfl, id, next, rfl, _, rfl, rfl, rfl, rfl, rfl, rfl, rfl, rfl, rfl, rfl,
        rfl, rfl, rfl⟩

theorem triples_distinct_apply (ns ns1 : connman_state) (op : LedgerOp)
    (hinv : triples_distinct ns) (h : op.apply ns = some ns1) : triples_distinct ns1 := by
  cases op with
  | create a t m c =>
    simp only [LedgerOp.apply] at h
    cases hr : call_work_create ns a t m c with
    | none => rw [hr] at h; simp at h
    | some r =>
    rw [hr] at h
    simp only [Option.map_some', Option.some.injEq] at h
    subst h
    rcases create_cases ns a t m c r hr with ⟨_, h1, _⟩ | ⟨hl, id, next, _, cw, hcw⟩
    · rw [h1]; exact hinv
    · obtain ⟨_, _, ha, ht, hm, _, _, _, _, _, _, _, hs⟩ := hcw
      rw [hs]
      unfold triples_distinct
      simp only [List.pairwise_cons]
      refine ⟨?_, hinv⟩
      intro b hb hsame
      rw [lookup_none_iff] at hl
      apply hl b hb
      unfold same_triple at hsame
      rw [← ha, ← ht, ← hm]
      exact hsame
  | destroy cw =>
    simp only [LedgerOp.apply, Option.some.injEq] at h
    subst h
    exact List.Pairwise.sublist (destroy_sublist ns cw) hinv

theorem triples_distinct_run (ops : List LedgerOp) :
    ∀ (ns ns1 : connman_state), triples_distinct ns → run_ops ns ops = some ns1 →
      triples_distinct ns1 := by
  induction ops with
  | nil => intro ns ns1 hinv h; simp only [run_ops, Option.some.injEq] at h; subst h; exact hinv
  | cons op ops ih =>
    intro ns ns1 hinv h
    unfold run_ops at h
    cases ho : op.apply ns with
    | none => rw [ho] at h; simp at h
    | some ns2 =>
      rw [ho] at h
      exact ih ns2 ns1 (triples_distinct_apply ns ns2 op hinv ho) h

theorem ids_wf_apply (ns ns1 : connman_state) (op : LedgerOp)
    (hinv : ids_wf ns) (h : op.apply ns = some ns1) : ids_wf ns1 := by
  obtain ⟨hc, hpos, hpw⟩ := hinv
  cases op with
  | create a t m c =>
    simp only [LedgerOp.apply] at h
    cases hr : call_work_create ns a t m c with
    | none => rw [hr] at h; simp at h
    | some r =>
    rw [hr] at h
    simp only [Option.map_some', Option.some.injEq] at h
    subst h
    rcases create_cases ns a t m c r hr with ⟨_, h1, _⟩ | ⟨_, id, next, hal, cw, hcw⟩
    · rw [h1]; exact ⟨hc, hpos, hpw⟩
    · obtain ⟨_, hid, _, _, _, _, _, _, _, _, _, _, hs⟩ := hcw
      obtain ⟨i1, _, n1, n2, hfree⟩ := alloc_id_loop_spec ns _ _ id next hc.1 hc.2 hal
      rw [hs]
      refine ⟨⟨n1, n2⟩, ?_, ?_⟩
      · intro b hb
        simp only [List.mem_cons] at hb
        rcases hb with rfl | hb
        · omega
        · exact hpos b hb
      · simp only [List.pairwise_cons]
        refine ⟨?_, hpw⟩
        intro b hb heq
        rw [lookup_by_id_none_iff] at hfree
        exact hfree b hb (by rw [← heq, hid])
  | destroy cw =>
    simp only [LedgerOp.apply, Option.some.injEq] at h
    subst h
    refine ⟨?_, ?_, ?_⟩
    · rw [destroy_next_cw_id]; exact hc
    · intro b hb
      exact hpos b ((destroy_sublist ns cw).subset hb)
    · exact List.Pairwise.sublist (destroy_sublist ns cw) hpw

theorem ids_wf_run (ops : List LedgerOp) :
    ∀ (ns ns1 : connman_state), ids_wf ns → run_ops ns ops = some ns1 → ids_wf ns1 := by
  induction ops with
  | nil => intro ns ns1 hinv h; simp only [run_ops, Option.some.injEq] at h; subst h; exact hinv
  | cons op ops ih =>
    intro ns ns1 hinv h
    unfold run_ops at h
    cases ho : op.apply ns with
    | none => rw [ho] at h; simp at h
    | some ns2 =>
      rw [ho] at h
      exact ih ns2 ns1 (ids_wf_apply ns ns2 op hinv ho) h

theorem destroy_heap_top (ns : connman_state) (cw : call_work) :
    (call_work_destroy ns cw).heap_top = ns.heap_top := by
  unfold call_work_destroy call_work_destroy_unlocked
  split
  · split_ifs <;> rfl
  · rfl

/-- Create and destroy keep the ledger well-formed. -/
theorem ledger_wf_apply (ns ns1 : connman_state) (op : LedgerOp)
    (hwf : ledger_wf ns) (hids : ids_wf ns) (h : op.apply ns = some ns1) : ledger_wf ns1 := by
  have hids1 := ids_wf_apply ns ns1 op hids h
  obtain ⟨haddr, _, htop⟩ := hwf
  cases op with
  | create a t m c =>
    simp only [LedgerOp.apply] at h
    cases hr : call_work_create ns a t m c with
    | none => rw [hr] at h; simp at h
    | some r =>
    rw [hr] at h
    simp only [Option.map_some', Option.some.injEq] at h
    subst h
    rcases create_cases ns a t m c r hr with ⟨_, h1, _⟩ | ⟨_, id, next, _, cw, hcw⟩
    · rw [h1] at hids1 ⊢; exact ⟨haddr, hids1.2.2, htop⟩
    · obtain ⟨hca, _, _, _, _, _, _, _, _, _, _, _, hs⟩ := hcw
      refine ⟨?_, hids1.2.2, ?_⟩
      · rw [hs]
        simp only [List.pairwise_cons]
        refine ⟨?_, haddr⟩
        intro b hb
        have := htop b hb
        omega
      · rw [hs]
        intro b hb
        simp only [List.mem_cons] at hb
        simp only
        rcases hb with rfl | hb
        · omega
        · have := htop b hb
          omega
  | destroy cw =>
    simp only [LedgerOp.apply, Option.some.injEq] at h
    subst h
    refine ⟨List.Pairwise.sublist (destroy_sublist ns cw) haddr, hids1.2.2, ?_⟩
    intro b hb
    rw [destroy_heap_top]
    exact htop b ((destroy_sublist ns cw).subset hb)

/-- Every state that create and destroy reach from a well-formed ledger with the counter
in range is well-formed. -/
theorem ledger_wf_run (ops : List LedgerOp) :
    ∀ (ns ns1 : connman_state), ledger_wf ns → ids_wf ns → run_ops ns ops = some ns1 →
      ledger_wf ns1 ∧ ids_wf ns1 := by
  induction ops with
  | nil =>
    intro ns ns1 hwf hids h
    simp only [run_ops, Option.some.injEq] at h
    subst h
    exact ⟨hwf, hids⟩
  | cons op ops ih =>
    intro ns ns1 hwf hids h
    unfold run_ops at h
    cases ho : op.apply ns with
    | none => rw [ho] at h; simp at h
    | some ns2 =>
      rw [ho] at h
      exact ih ns2 ns1 (ledger_wf_apply ns ns2 op hwf hids ho) (ids_wf_apply ns ns2 op hids ho) h

/-! ### Termination of the allocation loop -/

theorem counter_after_closed (k : Nat) :
    ∀ n : Int, 1 ≤ n → n ≤ 2147483647 →
      counter_after n k = (n - 1 + k) % 2147483647 + 1 := by
  induction k with
  | zero => intro n h1 h2; simp only [counter_after]; omega
  | succ k ih =>
    intro n h1 h2
    simp only [counter_after]
    have hr := next_cw_id_step_range n h1 h2
    rw [ih _ hr.1 hr.2, next_cw_id_step_of_range n h1 h2]
    split_ifs <;> push_cast <;> omega

theorem alloc_id_loop_none (ns : connman_state) (fuel : Nat) :
    ∀ n : Int, alloc_id_loop ns fuel n = none →
      ∀ k, k < fuel → call_work_lookup_by_id_unlocked ns (counter_after n k) ≠ none := by
  induction fuel with
  | zero => intro n _ k hk; omega
  | succ f ih =>
    intro n h k hk
    unfold alloc_id_loop at h
    cases hl : call_work_lookup_by_id_unlocked ns n with
    | none => rw [hl] at h; simp at h
    | some c =>
      rw [hl] at h
      cases k with
      | zero => simp [counter_after, hl]
      | succ j =>
        simp only [counter_after]
        exact ih _ h j (by omega)

/-- The allocation loop finds an id when the counter is in range and fewer than `2^31-1`
entries are pending: among `length + 1` successive counter values one is unused. -/
theorem alloc_id_loop_terminates (ns : connman_state) (fuel : Nat)
    (h1 : 1 ≤ ns.next_cw_id) (h2 : ns.next_cw_id ≤ 2147483647)
    (hlen : ns.cw_pending.length < 2147483647) (hfuel : ns.cw_pending.length < fuel) :
    ∃ p, alloc_id_loop ns fuel ns.next_cw_id = some p := by
  cases h : alloc_id_loop ns fuel ns.next_cw_id with
  | some p => exact ⟨p, rfl⟩
  | none =>
    exfalso
    have hused := alloc_id_loop_none ns fuel _ h
    have hcard : (Finset.range (ns.cw_pending.length + 1)).card ≤
        ((ns.cw_pending.map (fun cw => cw.id)).toFinset).card := by
      apply Finset.card_le_card_of_injOn (fun k => counter_after ns.next_cw_id k)
      · intro k hk
        have hk1 : k < ns.cw_pending.length + 1 := by simpa using hk
        have := hused k (by omega)
        rw [Ne, lookup_by_id_none_iff] at this
        push_neg at this
        obtain ⟨cw, hcw, hid⟩ := this
        simp only [List.mem_toFinset, List.mem_map]
        exact ⟨cw, hcw, hid⟩
      · intro a ha b hb hab
        have ha1 : a < ns.cw_pending.length + 1 := by simpa using ha
        have hb1 : b < ns.cw_pending.length + 1 := by simpa using hb
        simp only [counter_after_closed _ _ h1 h2] at hab
        omega
    have hle := List.toFinset_card_le (ns.cw_pending.map (fun cw => cw.id))
    simp only [Finset.card_range, List.length_map] at hcard hle
    omega

theorem alloc_id_loop_none_iff (ns : connman_state) (fuel : Nat) :
    ∀ n : Int, alloc_id_loop ns fuel n = none ↔
      ∀ k, k < fuel → call_work_lookup_by_id_unlocked ns (counter_after n k) ≠ none := by
  intro n
  refine ⟨alloc_id_loop_none ns fuel n, ?_⟩
  induction fuel generalizing n with
  | zero => intro _; rfl
  | succ f ih =>
    intro h
    unfold alloc_id_loop
    have h0 := h 0 (by omega)
    simp only [counter_after] at h0
    cases hl : call_work_lookup_by_id_unlocked ns n with
    | none => exact absurd hl h0
    | some c =>
      apply ih
      intro k hk
      have := h (k + 1) (by omega)
      simpa only [counter_after] using this

theorem counter_after_add (j : Nat) :
    ∀ (n : Int) (k : Nat), counter_after n (j + k) = counter_after (counter_after n j) k := by
  induction j with
  | zero => intro n k; simp [counter_after]
  | succ j ih =>
    intro n k
    have : j + 1 + k = (j + k) + 1 := by omega
    rw [this]
    simp only [counter_after]
    exact ih _ k

theorem counter_after_periodic (n : Int) (k : Nat) (h1 : 1 ≤ n) (h2 : n ≤ 2147483647) :
    counter_after n k = counter_after n (k % 2147483647) := by
  rw [counter_after_closed k n h1 h2, counter_after_closed _ n h1 h2]
  push_cast
  omega

theorem counter_after_two_range (n : Int) :
    1 ≤ counter_after n 2 ∧ counter_after n 2 ≤ 2147483647 := by
  simp only [counter_after, next_cw_id_step, wrap_int]
  split_ifs <;> omega

/-- The bound `ALLOC_FUEL` loses nothing: when the allocation loop has not found an id
within `ALLOC_FUEL` rounds, it finds none within any number of rounds, every value the
counter takes later having been tried already. -/
theorem alloc_id_loop_fuel_enough (ns : connman_state) (n : Int)
    (h : alloc_id_loop ns ALLOC_FUEL n = none) :
    ∀ fuel, alloc_id_loop ns fuel n = none := by
  intro fuel
  rw [alloc_id_loop_none_iff] at h ⊢
  intro k _
  by_cases hk : k < 2
  · exact h k (by unfold ALLOC_FUEL; omega)
  · obtain ⟨r1, r2⟩ := counter_after_two_range n
    have e1 : k = 2 + (k - 2) := by omega
    have hlt : (k - 2) % 2147483647 < 2147483647 := Nat.mod_lt _ (by omega)
    rw [e1, counter_after_add 2 n (k - 2), counter_after_periodic _ _ r1 r2,
      ← counter_after_add 2 n]
    exact h _ (by unfold ALLOC_FUEL; omega)

/-- With the counter in range and fewer than `2^31-1` entries pending, `call_work_create`
returns. -/
theorem create_returns (ns : connman_state) (a t m c : Option String)
    (h1 : 1 ≤ ns.next_cw_id) (h2 : ns.next_cw_id ≤ 2147483647)
    (hlen : ns.cw_pending.length < 2147483647) :
    ∃ r, call_work_create ns a t m c = some r := by
  unfold call_work_create call_work_create_unlocked
  cases call_work_lookup_unlocked ns a t m with
  | some x => exact ⟨_, rfl⟩
  | none =>
    obtain ⟨p, hp⟩ := alloc_id_loop_terminates ns ALLOC_FUEL h1 h2 hlen
      (by unfold ALLOC_FUEL; omega)
    obtain ⟨id, next⟩ := p
    show ∃ r, (match alloc_id_loop ns ALLOC_FUEL ns.next_cw_id with
      | none => none
      | some (id, next) => _) = some r
    rw [hp]
    exact ⟨_, rfl⟩

/-! ### Strings -/

theorem strstr_isSome_iff (hay needle : List Char) :
    (strstr hay needle).isSome = true ↔ needle <:+: hay := by
  induction hay with
  | nil =>
    cases needle with
    | nil => simp [strstr]
    | cons c cs => simp [strstr]
  | cons c cs ih =>
    unfold strstr
    rw [List.infix_cons_iff]
    by_cases hp : needle.isPrefixOf (c :: cs) = true
    · rw [if_pos hp]
      simp only [Option.isSome_some, true_iff]
      exact Or.inl (List.isPrefixOf_iff_prefix.mp hp)
    · rw [if_neg hp, ih]
      constructor
      · exact Or.inr
      · rintro (h | h)
        · exact absurd (List.isPrefixOf_iff_prefix.mpr h) hp
        · exact h

theorem strip_remote_error_samples :
    (g_dbus_error_strip_remote_error err_failed).message = "Input/output error" ∧
    g_dbus_error_strip_remote_error
        { domain := .transport 0, code := 0, message := "GDBus.Error:a:b: c" } =
      { domain := .transport 0, code := 0, message := "GDBus.Error:a:b: c" } ∧
    g_dbus_error_strip_remote_error
        { domain := .transport 0, code := 0, message := "no reply" } =
      { domain := .transport 0, code := 0, message := "no reply" } := by
  refine ⟨by decide, by decide, by decide⟩

/-! ### Entries, stores and lookups -/

theorem lookup_some (ns : connman_state) (a t m : Option String) (cw : call_work)
    (h : call_work_lookup_unlocked ns a t m = some cw) :
    cw ∈ ns.cw_pending ∧ cw.access_type = a ∧ cw.type_arg = t ∧ cw.method = m := by
  unfold call_work_lookup_unlocked at h
  have hm := List.mem_of_find?_eq_some h
  have hp := List.find?_some h
  simp only [Bool.and_eq_true, beq_iff_eq, g_strcmp0_eq_zero] at hp
  exact ⟨hm, hp.1.1.symm, hp.1.2.symm, hp.2.symm⟩

theorem lookup_by_id_some (ns : connman_state) (id : Int) (cw : call_work)
    (h : call_work_lookup_by_id_unlocked ns id = some cw) :
    cw ∈ ns.cw_pending ∧ cw.id = id := by
  unfold call_work_lookup_by_id_unlocked at h
  have hm := List.mem_of_find?_eq_some h
  have hp := List.find?_some h
  simp only [beq_iff_eq] at hp
  exact ⟨hm, hp⟩

theorem find_id_of_mem (l : List call_work) (cw : call_work)
    (hids : l.Pairwise (fun a b => a.id ≠ b.id)) (hmem : cw ∈ l) :
    l.find? (fun c => c.id == cw.id) = some cw := by
  induction l with
  | nil => simp at hmem
  | cons x xs ih =>
    rw [List.pairwise_cons] at hids
    rw [List.find?_cons]
    rcases List.mem_cons.mp hmem with rfl | hx
    · simp
    · have hne : x.id ≠ cw.id := hids.1 cw hx
      have : (x.id == cw.id) = false := by simpa using hne
      rw [this]
      exact ih hids.2 hx

theorem lookup_by_id_of_mem (ns : connman_state) (cw : call_work)
    (hids : ns.cw_pending.Pairwise (fun a b => a.id ≠ b.id)) (hmem : cw ∈ ns.cw_pending) :
    call_work_lookup_by_id_unlocked ns cw.id = some cw :=
  find_id_of_mem ns.cw_pending cw hids hmem

theorem store_eq_map (l : List call_work) (cw : call_work) (f : call_work → call_work)
    (haddr : l.Pairwise (fun a b => a.addr ≠ b.addr)) (hmem : cw ∈ l) :
    store l cw.addr f = l.map (fun c => if c = cw then f c else c) := by
  unfold store
  apply List.map_congr_left
  intro c hc
  by_cases hcc : c = cw
  · subst hcc; simp
  · have hsymm : Symmetric (fun a b : call_work => a.addr ≠ b.addr) :=
      fun x y hxy => Ne.symm hxy
    have hne : c.addr ≠ cw.addr := List.Pairwise.forall hsymm haddr hc hmem hcc
    rw [if_neg hne, if_neg hcc]

theorem store_of_fresh (l : List call_work) (addr : Nat) (f : call_work → call_work)
    (hfresh : ∀ c ∈ l, c.addr ≠ addr) : store l addr f = l := by
  unfold store
  conv_rhs => rw [← List.map_id l]
  apply List.map_congr_left
  intro c hc
  rw [if_neg (hfresh c hc)]
  rfl

theorem eraseP_addr_eq_erase (l : List call_work) (cw : call_work)
    (haddr : l.Pairwise (fun a b => a.addr ≠ b.addr)) (hmem : cw ∈ l) :
    g_slist_remove l cw = l.erase cw := by
  unfold g_slist_remove
  induction l with
  | nil => simp at hmem
  | cons x xs ih =>
    rw [List.pairwise_cons] at haddr
    rcases List.mem_cons.mp hmem with rfl | hx
    · simp
    · have hne : x.addr ≠ cw.addr := haddr.1 cw hx
      have hne2 : x ≠ cw := fun h => hne (by rw [h])
      rw [List.eraseP_cons, List.erase_cons]
      have h1 : (x.addr == cw.addr) = false := by simpa using hne
      have h2 : (x == cw) = false := by simpa using hne2
      rw [h1, h2]
      simp only [Bool.false_eq_true, if_false, cond_false]
      rw [ih haddr.2 hx]

/-- Destroying an entry of a well-formed ledger removes that entry and nothing else. -/
theorem destroy_live (ns : connman_state) (cw : call_work) (hwf : ledger_wf ns)
    (hmem : cw ∈ ns.cw_pending) :
    call_work_destroy ns cw = { ns with cw_pending := ns.cw_pending.erase cw } := by
  unfold call_work_destroy call_work_destroy_unlocked
  rw [lookup_by_id_of_mem ns cw hwf.2.1 hmem]
  simp only [ne_eq, not_true_eq_false, if_false]
  rw [eraseP_addr_eq_erase _ _ hwf.1 hmem]

theorem ledger_wf_nodup (ns : connman_state) (hwf : ledger_wf ns) : ns.cw_pending.Nodup :=
  List.Pairwise.imp (fun {a b} (h : a.addr ≠ b.addr) => fun hab => h (by rw [hab])) hwf.1

theorem CONNMAN_SERVICE_PATH_eq (t : String) :
    CONNMAN_SERVICE_PATH t = "/net/connman/service/" ++ t := by
  unfold CONNMAN_SERVICE_PATH snprintf strlen
  simp only [Nat.add_sub_cancel]
  rw [List.take_of_length_le]
  · apply String.ext
    simp only [String.data_append]
    rfl
  · simp only [String.data_append, List.length_append, String.length, List.length_cons,
      List.length_nil]
    have : ("/" : String).data.length = 1 := rfl
    omega

theorem CONNMAN_TECHNOLOGY_PATH_eq (t : String) :
    CONNMAN_TECHNOLOGY_PATH t = "/net/connman/technology/" ++ t := by
  unfold CONNMAN_TECHNOLOGY_PATH snprintf strlen
  simp only [Nat.add_sub_cancel]
  rw [List.take_of_length_le]
  · apply String.ext
    simp only [String.data_append]
    rfl
  · simp only [String.data_append, List.length_append, String.length, List.length_cons,
      List.length_nil]
    have : ("/" : String).data.length = 1 := rfl
    omega

theorem find_id_store (l : List call_work) (addr : Nat) (f : call_work → call_work)
    (id : Int) (hf : ∀ c, (f c).id = c.id) :
    (store l addr f).find? (fun c => c.id == id) =
      (l.find? (fun c => c.id == id)).map (fun c => if c.addr = addr then f c else c) := by
  induction l with
  | nil => rfl
  | cons x xs ih =>
    have hx : (if x.addr = addr then f x else x).id = x.id := by
      split_ifs
      · exact hf x
      · rfl
    unfold store at ih ⊢
    rw [List.map_cons, List.find?_cons, List.find?_cons, hx]
    cases hxi : (x.id == id) with
    | true => rfl
    | false => exact ih

theorem store_cons_self (x : call_work) (xs : List call_work) (f : call_work → call_work)
    (hfresh : ∀ c ∈ xs, c.addr ≠ x.addr) : store (x :: xs) x.addr f = f x :: xs := by
  have h := store_of_fresh xs x.addr f hfresh
  unfold store at h ⊢
  rw [List.map_cons, h, if_pos rfl]

theorem connman_call_async_service (ns : connman_state) (name method : String)
    (params : Option GVariant) (callback : AsyncCallback) (user_data : Nat) :
    connman_call_async ns "service" (some name) method params callback user_data =
      ({ ns with heap_top := ns.heap_top + 1 }, .ok ns.heap_top,
        [Effect.call_async ("/net/connman/service/" ++ name) "net.connman.Service" method
          params callback user_data ns.heap_top]) := by
  have h1 : ("service" : String) ≠ CONNMAN_AT_MANAGER := by decide
  have h2 : ("service" : String) ≠ CONNMAN_AT_TECHNOLOGY := by decide
  have h3 : ("service" : String) = CONNMAN_AT_SERVICE := by decide
  have h4 : CONNMAN_SERVICE_INTERFACE = "net.connman.Service" := by decide
  simp only [connman_call_async, if_neg h1, if_neg h2, if_pos h3, reduceCtorEq, false_and,
    if_false, Option.getD_some, CONNMAN_SERVICE_PATH_eq, h4]

/-! ### Effects of the synchronous operations -/

theorem connman_call_effects (bus : Bus) (a : String) (t : Option String) (m : String)
    (q : Option GVariant) :
    (connman_call bus a t m q).2 = [] ∨
      ∃ path interface, (connman_call bus a t m q).2 = [Effect.call_sync path interface m q] := by
  unfold connman_call
  simp only
  repeat' split
  all_goals first
    | exact Or.inl rfl
    | exact Or.inr ⟨_, _, rfl⟩

theorem callbacks_connman_call (bus : Bus) (a : String) (t : Option String) (m : String)
    (q : Option GVariant) : callbacks (connman_call bus a t m q).2 = [] := by
  rcases connman_call_effects bus a t m q with h | ⟨path, interface, h⟩ <;> rw [h] <;> rfl

theorem callbacks_connman_get_properties (bus : Bus) (a : String) (t : Option String) :
    callbacks (connman_get_properties bus a t).2 = [] := by
  unfold connman_get_properties
  simp only
  repeat' split
  all_goals first
    | rfl
    | exact callbacks_connman_call _ _ _ _ _

theorem get_property_internal_effects (bus : Bus) (a : String) (t n : Option String)
    (x : Except GError Value) (fx : List Effect)
    (h : connman_get_property_internal bus a t n = some (x, fx)) :
    fx = (connman_get_properties bus a t).2 := by
  unfold connman_get_property_internal at h
  split at h
  · rename_i e effects heq
    simp only [Option.some.injEq, Prod.mk.injEq] at h
    rw [heq, ← h.2]
  · rename_i reply effects heq
    rw [heq]
    simp only
    revert h
    split
    · generalize find_manager_property reply a t n = found
      rcases found with ⟨_ | v, _ | e⟩ <;> intro h <;>
        simp only [Option.some.injEq, Prod.mk.injEq] at h <;> exact h.2.symm
    · generalize find_property reply a t n = found
      rcases found with _ | ⟨_ | v, _ | e⟩ <;> intro h
      · simp at h
      all_goals
        simp only [Option.some.injEq, Prod.mk.injEq] at h
        exact h.2.symm

theorem find_property_service (reply : GVariant) (t : String) (n : Option String) :
    ∃ r, find_property reply CONNMAN_AT_SERVICE (some t) n = some r := by
  have h1 : g_strcmp0 (some CONNMAN_AT_SERVICE) (some CONNMAN_AT_TECHNOLOGY) ≠ 0 := by decide
  have h2 : g_strcmp0 (some CONNMAN_AT_SERVICE) (some CONNMAN_AT_SERVICE) = 0 := by decide
  simp only [find_property, if_neg h1, if_pos h2, Option.map_some']
  split <;> exact ⟨_, rfl⟩

theorem get_property_internal_service (bus : Bus) (t : String) (n : Option String) :
    ∃ r, connman_get_property_internal bus CONNMAN_AT_SERVICE (some t) n = some r := by
  have h0 : g_strcmp0 (some CONNMAN_AT_SERVICE) (some CONNMAN_AT_MANAGER) ≠ 0 := by decide
  unfold connman_get_property_internal
  split
  · exact ⟨_, rfl⟩
  · rename_i reply effects heq
    obtain ⟨r, hr⟩ := find_property_service reply t n
    simp only [if_neg h0, hr]
    split
    · rename_i hcontra; simp at hcontra
    all_goals exact ⟨_, rfl⟩

theorem lookup_after_destroy (ns : connman_state) (cw : call_work) (hwf : ledger_wf ns)
    (htr : triples_distinct ns) (hmem : cw ∈ ns.cw_pending) :
    call_work_lookup_unlocked (call_work_destroy ns cw) cw.access_type cw.type_arg cw.method
      = none := by
  rw [destroy_live ns cw hwf hmem, lookup_none_iff]
  intro c hc hsame
  simp only at hc
  rw [(ledger_wf_nodup ns hwf).mem_erase_iff] at hc
  have hsymm : Symmetric (fun a b : call_work => ¬ same_triple a b) := by
    intro x y hxy hyx
    exact hxy ⟨hyx.1.symm, hyx.2.1.symm, hyx.2.2.symm⟩
  exact List.Pairwise.forall hsymm htr hmem hc.2 (Ne.symm hc.1) hsame

/-! ### The property resolver -/

theorem scan_props_eq (name : String) (l : List (String × Value)) :
    scan_props (some name) l = (l.find? (fun pair => pair.1 = name)).map (fun pair => pair.2) := by
  induction l with
  | nil => rfl
  | cons x xs ih =>
    obtain ⟨key, val⟩ := x
    unfold scan_props
    rw [List.find?_cons]
    by_cases h : key = name
    · have h0 : g_strcmp0 (some name) (some key) = 0 := by rw [g_strcmp0_eq_zero, h]
      rw [if_pos h0]
      simp [h]
    · have h0 : g_strcmp0 (some name) (some key) ≠ 0 := by
        rw [Ne, g_strcmp0_eq_zero]
        intro hc
        exact h (Option.some.inj hc).symm
      rw [if_neg h0, ih]
      simp [h]

theorem scan_objects_eq (path name : String) (l : List (String × List (String × Value))) :
    scan_objects path (some name) l = spec_get_named_indexed path name l := by
  induction l with
  | nil => rfl
  | cons x xs ih =>
    obtain ⟨p, array2⟩ := x
    unfold scan_objects spec_get_named_indexed
    rw [List.find?_cons]
    by_cases h : p = path
    · have h0 : ¬ g_strcmp0 (some p) (some path) ≠ 0 := by
        rw [not_not, g_strcmp0_eq_zero, h]
      rw [if_neg h0, scan_props_eq]
      simp [h]
    · have h0 : g_strcmp0 (some p) (some path) ≠ 0 := by
        rw [Ne, g_strcmp0_eq_zero]
        intro hc
        exact h (Option.some.inj hc)
      rw [if_pos h0, ih]
      unfold spec_get_named_indexed
      simp [h]

theorem connman_call_manager_ok (bus : Bus) (t : Option String) (m : String)
    (q : Option GVariant) (reply : GVariant)
    (hbus : bus "/" "net.connman.Manager" m q = .ok reply) :
    connman_call bus CONNMAN_AT_MANAGER t m q =
      (.ok reply, [Effect.call_sync "/" "net.connman.Manager" m q]) := by
  have h1 : CONNMAN_AT_MANAGER ≠ CONNMAN_AT_TECHNOLOGY := by decide
  have h2 : CONNMAN_AT_MANAGER ≠ CONNMAN_AT_SERVICE := by decide
  have h3 : CONNMAN_MANAGER_PATH = "/" := rfl
  have h4 : CONNMAN_MANAGER_INTERFACE = "net.connman.Manager" := by decide
  simp only [connman_call, h1, h2, or_self, and_false, if_false, if_true, h3, h4, hbus]

theorem connman_call_manager_error (bus : Bus) (t : Option String) (m : String)
    (q : Option GVariant) (e : GError)
    (hbus : bus "/" "net.connman.Manager" m q = .error e) :
    ∃ e1, connman_call bus CONNMAN_AT_MANAGER t m q =
      (.error e1, [Effect.call_sync "/" "net.connman.Manager" m q]) := by
  have h1 : CONNMAN_AT_MANAGER ≠ CONNMAN_AT_TECHNOLOGY := by decide
  have h2 : CONNMAN_AT_MANAGER ≠ CONNMAN_AT_SERVICE := by decide
  have h3 : CONNMAN_MANAGER_PATH = "/" := rfl
  have h4 : CONNMAN_MANAGER_INTERFACE = "net.connman.Manager" := by decide
  simp only [connman_call, h1, h2, or_self, and_false, if_false, if_true, h3, h4, hbus]
  exact ⟨_, rfl⟩

/-- What `connman_call` does on a (category, target) that resolves: one call on the
resolved object, and the reply of the bus or a decoded error. -/
theorem connman_call_of_resolve (bus : Bus) (a : String) (t : Option String) (m : String)
    (q : Option GVariant) (path interface : String)
    (h : spec_resolve a t = .ok (path, interface)) :
    (connman_call bus a t m q).2 = [Effect.call_sync path interface m q] ∧
    (∀ reply, bus path interface m q = .ok reply → (connman_call bus a t m q).1 = .ok reply) ∧
    (∀ e, bus path interface m q = .error e → ∃ e1, (connman_call bus a t m q).1 = .error e1) := by
  have hm : CONNMAN_AT_MANAGER = "manager" := rfl
  have ht : CONNMAN_AT_TECHNOLOGY = "technology" := rfl
  have hs : CONNMAN_AT_SERVICE = "service" := rfl
  have hmi : CONNMAN_MANAGER_INTERFACE = "net.connman.Manager" := by decide
  have hti : CONNMAN_TECHNOLOGY_INTERFACE = "net.connman.Technology" := by decide
  have hsi : CONNMAN_SERVICE_INTERFACE = "net.connman.Service" := by decide
  have hmp : CONNMAN_MANAGER_PATH = "/" := rfl
  unfold spec_resolve at h
  unfold connman_call
  rw [hm, ht, hs, hmi, hti, hsi, hmp]
  by_cases c1 : a = "manager"
  · subst c1
    simp only [if_true, Except.ok.injEq, Prod.mk.injEq] at h
    obtain ⟨rfl, rfl⟩ := h
    have n1 : ("manager" : String) ≠ "technology" := by decide
    have n2 : ("manager" : String) ≠ "service" := by decide
    simp only [n1, n2, or_self, and_false, if_false, if_true]
    refine ⟨?_, ?_, ?_⟩
    · split <;> rfl
    · intro reply hr; rw [hr]
    · intro e he; rw [he]; exact ⟨_, rfl⟩
  · rw [if_neg c1] at h
    by_cases c2 : a = "technology"
    · subst c2
      cases t with
      | none => simp at h
      | some tv =>
        simp only [if_true, Except.ok.injEq, Prod.mk.injEq] at h
        obtain ⟨rfl, rfl⟩ := h
        simp only [reduceCtorEq, false_and, if_false, if_neg c1, if_true, Option.getD_some,
          CONNMAN_TECHNOLOGY_PATH_eq]
        refine ⟨?_, ?_, ?_⟩
        · split <;> rfl
        · intro reply hr; rw [hr]
        · intro e he; rw [he]; exact ⟨_, rfl⟩
    · rw [if_neg c2] at h
      by_cases c3 : a = "service"
      · subst c3
        cases t with
        | none => simp at h
        | some tv =>
          simp only [if_true, Except.ok.injEq, Prod.mk.injEq] at h
          obtain ⟨rfl, rfl⟩ := h
          simp only [reduceCtorEq, false_and, if_false, if_neg c1, if_neg c2, if_true,
            Option.getD_some, CONNMAN_SERVICE_PATH_eq]
          refine ⟨?_, ?_, ?_⟩
          · split <;> rfl
          · intro reply hr; rw [hr]
          · intro e he; rw [he]; exact ⟨_, rfl⟩
      · rw [if_neg c3] at h
        simp at h

/-- What the two gateways do on a (category, target) that does not resolve: the same
error of that kind, no effect, the state as it was. -/
theorem gateways_of_reject (bus : Bus) (ns : connman_state) (a : String) (t : Option String)
    (m : String) (q : Option GVariant) (callback : AsyncCallback) (user_data : Nat)
    (kind : NBError) (h : spec_resolve a t = .error kind) :
    ∃ e, connman_call bus a t m q = (.error e, []) ∧
      connman_call_async ns a t m q callback user_data = (ns, .error e, []) ∧
      e.domain = GQuark.CONNMAN_ERROR ∧ e.code = kind.code := by
  have hm : CONNMAN_AT_MANAGER = "manager" := rfl
  have ht : CONNMAN_AT_TECHNOLOGY = "technology" := rfl
  have hs : CONNMAN_AT_SERVICE = "service" := rfl
  unfold spec_resolve at h
  unfold connman_call connman_call_async
  rw [hm, ht, hs]
  by_cases c1 : a = "manager"
  · rw [if_pos c1] at h; simp at h
  · rw [if_neg c1] at h
    by_cases c2 : a = "technology"
    · subst c2
      cases t with
      | some tv => simp at h
      | none =>
        simp only [if_true, Except.error.injEq] at h
        subst h
        simp only [true_or, and_self, if_true]
        exact ⟨_, rfl, rfl, rfl, rfl⟩
    · rw [if_neg c2] at h
      by_cases c3 : a = "service"
      · subst c3
        cases t with
        | some tv => simp at h
        | none =>
          simp only [if_true, Except.error.injEq] at h
          subst h
          simp only [or_true, and_self, if_true]
          exact ⟨_, rfl, rfl, rfl, rfl⟩
      · rw [if_neg c3] at h
        simp only [Except.error.injEq] at h
        subst h
        simp only [c1, c2, c3, or_self, and_false, if_false]
        exact ⟨_, rfl, rfl, rfl, rfl⟩

/-- What `connman_call_async` does on a (category, target) that resolves. -/
theorem connman_call_async_of_resolve (ns : connman_state) (a : String) (t : Option String)
    (m : String) (q : Option GVariant) (callback : AsyncCallback) (user_data : Nat)
    (path interface : String) (h : spec_resolve a t = .ok (path, interface)) :
    connman_call_async ns a t m q callback user_data =
      ({ ns with heap_top := ns.heap_top + 1 }, .ok ns.heap_top,
        [Effect.call_async path interface m q callback user_data ns.heap_top]) := by
  have hm : CONNMAN_AT_MANAGER = "manager" := rfl
  have ht : CONNMAN_AT_TECHNOLOGY = "technology" := rfl
  have hs : CONNMAN_AT_SERVICE = "service" := rfl
  have hmi : CONNMAN_MANAGER_INTERFACE = "net.connman.Manager" := by decide
  have hti : CONNMAN_TECHNOLOGY_INTERFACE = "net.connman.Technology" := by decide
  have hsi : CONNMAN_SERVICE_INTERFACE = "net.connman.Service" := by decide
  have hmp : CONNMAN_MANAGER_PATH = "/" := rfl
  unfold spec_resolve at h
  unfold connman_call_async
  rw [hm, ht, hs, hmi, hti, hsi, hmp]
  by_cases c1 : a = "manager"
  · subst c1
    simp only [if_true, Except.ok.injEq, Prod.mk.injEq] at h
    obtain ⟨rfl, rfl⟩ := h
    have n1 : ("manager" : String) ≠ "technology" := by decide
    have n2 : ("manager" : String) ≠ "service" := by decide
    simp only [n1, n2, or_self, and_false, if_false, if_true]
  · rw [if_neg c1] at h
    by_cases c2 : a = "technology"
    · subst c2
      cases t with
      | none => simp at h
      | some tv =>
        simp only [if_true, Except.ok.injEq, Prod.mk.injEq] at h
        obtain ⟨rfl, rfl⟩ := h
        simp only [reduceCtorEq, false_and, if_false, if_neg c1, if_true, Option.getD_some,
          CONNMAN_TECHNOLOGY_PATH_eq]
    · rw [if_neg c2] at h
      by_cases c3 : a = "service"
      · subst c3
        cases t with
        | none => simp at h
        | some tv =>
          simp only [if_true, Except.ok.injEq, Prod.mk.injEq] at h
          obtain ⟨rfl, rfl⟩ := h
          simp only [reduceCtorEq, false_and, if_false, if_neg c1, if_neg c2, if_true,
            Option.getD_some, CONNMAN_SERVICE_PATH_eq]
      · rw [if_neg c3] at h
        simp at h

/-! ### Callback lists and signal dispatch -/

theorem run_manager_callbacks_loop_eq (path : String) (event : connman_manager_event_t)
    (properties : Option GVariant) (l : callback_list_t) :
    run_manager_callbacks_loop path event properties l =
      spec_emit_manager (subscribers l) path event properties := by
  induction l with
  | nil => rfl
  | cons entry rest ih =>
    unfold run_manager_callbacks_loop
    unfold spec_emit_manager subscribers at ih ⊢
    cases hc : entry.callback with
    | none => simp only [List.filterMap_cons, hc, Option.map_none']; exact ih
    | some cb => simp only [List.filterMap_cons, hc, Option.map_some', List.map_cons, ih]

theorem run_manager_callbacks_eq (l : callback_list_t) (path : String)
    (event : connman_manager_event_t) (properties : Option GVariant) :
    run_manager_callbacks l (some path) event properties =
      spec_emit_manager (subscribers l) path event properties := by
  unfold run_manager_callbacks
  exact run_manager_callbacks_loop_eq path event properties l

theorem run_property_callbacks_technology (l : callback_list_t) (object : String)
    (properties : GVariant) :
    run_property_callbacks l object properties true =
      spec_emit_technology (subscribers l) object properties := by
  induction l with
  | nil => rfl
  | cons entry rest ih =>
    unfold run_property_callbacks
    unfold spec_emit_technology subscribers at ih ⊢
    cases hc : entry.callback with
    | none => simp only [List.filterMap_cons, hc, Option.map_none']; exact ih
    | some cb =>
      simp only [List.filterMap_cons, hc, Option.map_some', List.map_cons, ih, if_true]

theorem run_property_callbacks_service (l : callback_list_t) (object : String)
    (properties : GVariant) :
    run_property_callbacks l object properties false =
      spec_emit_service (subscribers l) object properties := by
  induction l with
  | nil => rfl
  | cons entry rest ih =>
    unfold run_property_callbacks
    unfold spec_emit_service subscribers at ih ⊢
    cases hc : entry.callback with
    | none => simp only [List.filterMap_cons, hc, Option.map_none']; exact ih
    | some cb =>
      simp only [List.filterMap_cons, hc, Option.map_some', List.map_cons, ih,
        Bool.false_eq_true, if_false]

theorem services_changed_loop_eq (callbacks : callback_list_t) (base : String → String)
    (changed : List (String × List (String × Value)))
    (hchanged : ∀ e ∈ changed, e.2 ≠ [] → connman_strip_path e.1 = some (base e.1)) :
    services_changed_loop callbacks changed =
      some ((changed.filter (fun e => !e.2.isEmpty)).flatMap (fun e =>
        spec_emit_manager (subscribers callbacks) (base e.1)
          .CONNMAN_MANAGER_EVENT_SERVICE_CHANGE (some (.dict e.2)))) := by
  induction changed with
  | nil => rfl
  | cons x xs ih =>
    obtain ⟨path, var⟩ := x
    have ih1 := ih (fun e he => hchanged e (List.mem_cons_of_mem _ he))
    unfold services_changed_loop
    cases var with
    | nil =>
      have h0 : g_variant_iter_init ([] : List (String × Value)) = 0 := rfl
      rw [if_pos h0, ih1]
      rfl
    | cons v vs =>
      have h0 : ¬ g_variant_iter_init (v :: vs) = 0 := by
        unfold g_variant_iter_init; simp
      have hb := hchanged (path, v :: vs) (List.mem_cons_self _ _) (by simp)
      simp only at hb
      rw [if_neg h0, hb, ih1]
      simp only [run_manager_callbacks_eq]
      rfl

theorem services_removed_loop_eq (callbacks : callback_list_t) (base : String → String)
    (removed : List String)
    (hremoved : ∀ p ∈ removed, connman_strip_path p = some (base p)) :
    services_removed_loop callbacks removed =
      some (removed.flatMap (fun p =>
        spec_emit_manager (subscribers callbacks) (base p)
          .CONNMAN_MANAGER_EVENT_SERVICE_REMOVE none)) := by
  induction removed with
  | nil => rfl
  | cons x xs ih =>
    have ih1 := ih (fun p hp => hremoved p (List.mem_cons_of_mem _ hp))
    unfold services_removed_loop
    rw [hremoved x (List.mem_cons_self _ _), ih1]
    simp only [run_manager_callbacks_eq]
    rfl

theorem has_prefix_iff (str : Option String) (pre : String) :
    g_str_has_prefix str pre = true ↔ ∃ path, str = some path ∧ pre.data <+: path.data := by
  cases str with
  | none => simp [ g_str_has_prefix]
  | some s =>
    simp only [ g_str_has_prefix, Option.some.injEq, exists_eq_left']
    exact List.isPrefixOf_iff_prefix

theorem callback_remove_find_none (callback : Option Nat) (l : callback_list_t)
    (h : ∀ x ∈ l, x.callback ≠ callback) : callback_remove_find callback l = none := by
  induction l with
  | nil => rfl
  | cons x xs ih =>
    unfold callback_remove_find
    rw [if_neg (h x (List.mem_cons_self _ _)), ih (fun y hy => h y (List.mem_cons_of_mem _ hy))]
    rfl

theorem callback_remove_find_first (callback : Option Nat) (e : callback_list_entry_t)
    (after : callback_list_t) (he : e.callback = callback) :
    ∀ before : callback_list_t, (∀ x ∈ before, x.callback ≠ callback) →
      callback_remove_find callback (before ++ e :: after) = some before.length := by
  intro before
  induction before with
  | nil =>
    intro _
    simp only [List.nil_append, List.length_nil]
    unfold callback_remove_find
    rw [if_pos he]
  | cons x xs ih =>
    intro h
    simp only [List.cons_append, List.length_cons]
    unfold callback_remove_find
    rw [if_neg (h x (List.mem_cons_self _ _)), ih (fun y hy => h y (List.mem_cons_of_mem _ hy))]
    rfl

theorem eraseIdx_middle (e : callback_list_entry_t) (after : callback_list_t) :
    ∀ before : callback_list_t,
      (before ++ e :: after).eraseIdx before.length = before ++ after := by
  intro before
  induction before with
  | nil => rfl
  | cons x xs ih =>
    simp only [List.cons_append, List.length_cons, List.eraseIdx_cons_succ, ih]

theorem callback_remove_first (callback : Option Nat) (before : callback_list_t)
    (e : callback_list_entry_t) (after : callback_list_t) (he : e.callback = callback)
    (hbefore : ∀ x ∈ before, x.callback ≠ callback) :
    callback_remove (before ++ e :: after) callback = before ++ after := by
  unfold callback_remove
  rw [callback_remove_find_first callback e after he before hbefore]
  exact eraseIdx_middle e after before

theorem subscribers_append (l1 l2 : callback_list_t) :
    subscribers (l1 ++ l2) = subscribers l1 ++ subscribers l2 := by
  unfold subscribers
  exact List.filterMap_append _ _ _

theorem set_property_calls_get_properties (bus : Bus) (a : String) (t : Option String) :
    set_property_calls (connman_get_properties bus a t).2 = [] := by
  have key : ∀ m : String, m ≠ "SetProperty" →
      set_property_calls (connman_call bus CONNMAN_AT_MANAGER t m none).2 = [] := by
    intro m hm
    rcases connman_call_effects bus CONNMAN_AT_MANAGER t m none with h | ⟨path, i, h⟩
    · rw [h]; rfl
    · rw [h]
      unfold set_property_calls
      simp [hm]
  unfold connman_get_properties
  by_cases c1 : a = CONNMAN_AT_MANAGER
  · simp only [if_pos c1]
    exact key _ (by decide)
  · by_cases c2 : a = CONNMAN_AT_TECHNOLOGY
    · simp only [if_neg c1, if_pos c2]
      exact key _ (by decide)
    · by_cases c3 : a = CONNMAN_AT_SERVICE
      · simp only [if_neg c1, if_neg c2, if_pos c3]
        exact key _ (by decide)
      · simp only [if_neg c1, if_neg c2, if_neg c3]
        rfl

theorem resolve_technology (name : String) :
    spec_resolve "technology" (some name) =
      .ok ("/net/connman/technology/" ++ name, "net.connman.Technology") := by
  have n1 : ("technology" : String) ≠ "manager" := by decide
  simp only [spec_resolve, if_neg n1, if_true]

/-- What `connman_set_property_internal` does for a technology that is named: one
SetProperty call on its object; success exactly when the bus replies, and an error set
when it does not. -/
theorem set_property_internal_technology (bus : Bus) (name n : String) (v : Value) :
    ∃ r err, connman_set_property_internal bus (some CONNMAN_AT_TECHNOLOGY) (some name)
        (some n) (some v) =
      (r, err, [Effect.call_sync ("/net/connman/technology/" ++ name)
        "net.connman.Technology" "SetProperty" (some (.name_value n v))]) ∧
      (r = true ↔ ∃ reply, bus ("/net/connman/technology/" ++ name)
        "net.connman.Technology" "SetProperty" (some (.name_value n v)) = .ok reply) ∧
      (r = false → err ≠ none) := by
  obtain ⟨heff, hok, herr⟩ := connman_call_of_resolve bus "technology" (some name)
    "SetProperty" (some (.name_value n v)) _ _ (resolve_technology name)
  have ht : CONNMAN_AT_TECHNOLOGY = "technology" := rfl
  unfold connman_set_property_internal
  simp only [ht]
  cases hc : connman_call bus "technology" (some name) "SetProperty"
      (some (GVariant.name_value n v)) with
  | mk res effects =>
    rw [hc] at heff hok herr
    simp only at heff hok herr
    subst heff
    cases res with
    | ok reply =>
      refine ⟨true, none, rfl, ?_, by simp⟩
      simp only [true_iff]
      cases hb : bus ("/net/connman/technology/" ++ name) "net.connman.Technology"
          "SetProperty" (some (GVariant.name_value n v)) with
      | ok r => exact ⟨r, rfl⟩
      | error e =>
        obtain ⟨e1, he1⟩ := herr e hb
        simp at he1
    | error e =>
      refine ⟨false, some e, rfl, ?_, by simp⟩
      simp only [Bool.false_eq_true, false_iff, not_exists]
      intro r hr
      have := hok r hr
      simp at this

/-! ### The basename of a path -/

theorem strrchr_none_iff (l : List Char) (c : Char) : strrchr l c = none ↔ c ∉ l := by
  induction l with
  | nil => simp [strrchr]
  | cons x xs ih =>
    unfold strrchr
    cases h : strrchr xs c with
    | some tail =>
      have : c ∈ xs := by
        by_contra hc
        rw [ih.mpr hc] at h
        simp at h
      simp [this]
    | none =>
      have hc : c ∉ xs := ih.mp h
      by_cases hx : x = c
      · simp [hx]
      · simp only [if_neg hx, List.mem_cons, not_or, true_iff]
        exact ⟨fun h' => hx h'.symm, hc⟩

theorem strrchr_append (c : Char) (suf : List Char) (hsuf : c ∉ suf) :
    ∀ before : List Char, strrchr (before ++ c :: suf) c = some (c :: suf) := by
  have hnone := (strrchr_none_iff suf c).mpr hsuf
  intro before
  induction before with
  | nil =>
    simp only [List.nil_append]
    unfold strrchr
    rw [hnone]
    simp
  | cons x xs ih =>
    simp only [List.cons_append]
    unfold strrchr
    rw [ih]

theorem strrchr_some (l : List Char) (c : Char) (tail : List Char)
    (h : strrchr l c = some tail) :
    ∃ before suf, l = before ++ c :: suf ∧ c ∉ suf ∧ tail = c :: suf := by
  induction l with
  | nil => simp [strrchr] at h
  | cons x xs ih =>
    unfold strrchr at h
    cases hx : strrchr xs c with
    | some t =>
      rw [hx] at h
      simp only [Option.some.injEq] at h
      subst h
      obtain ⟨before, suf, h1, h2, h3⟩ := ih hx
      exact ⟨x :: before, suf, by rw [h1]; rfl, h2, h3⟩
    | none =>
      rw [hx] at h
      simp only at h
      split_ifs at h with hc
      simp only [Option.some.injEq] at h
      subst h
      exact ⟨[], xs, by rw [hc]; rfl, (strrchr_none_iff xs c).mp hx, by rw [hc]⟩

/-! ### First free id, round trips and reply handles -/

theorem alloc_id_loop_first (ns : connman_state) (fuel : Nat) :
    ∀ (n id next : Int), alloc_id_loop ns fuel n = some (id, next) →
      ∃ k, k < fuel ∧ id = counter_after n k ∧
        call_work_lookup_by_id_unlocked ns id = none ∧
        (∀ j, j < k → call_work_lookup_by_id_unlocked ns (counter_after n j) ≠ none) ∧
        next = next_cw_id_step id := by
  induction fuel with
  | zero => intro n id next h; simp [alloc_id_loop] at h
  | succ f ih =>
    intro n id next h
    unfold alloc_id_loop at h
    cases hl : call_work_lookup_by_id_unlocked ns n with
    | none =>
      rw [hl] at h
      simp only [Option.some.injEq, Prod.mk.injEq] at h
      obtain ⟨h1, h2⟩ := h
      subst h1
      exact ⟨0, by omega, rfl, hl, by intro j hj; omega, h2.symm⟩
    | some c =>
      rw [hl] at h
      obtain ⟨k, hk, hid, hfree, hused, hnext⟩ := ih _ _ _ h
      refine ⟨k + 1, by omega, by simpa only [counter_after] using hid, hfree, ?_, hnext⟩
      intro j hj
      cases j with
      | zero => simp [counter_after, hl]
      | succ j => simpa only [counter_after] using hused j (by omega)

theorem alloc_id_loop_mono (ns : connman_state) (fuel : Nat) :
    ∀ (n : Int) (p : Int × Int) (fuel2 : Nat), fuel ≤ fuel2 →
      alloc_id_loop ns fuel n = some p → alloc_id_loop ns fuel2 n = some p := by
  induction fuel with
  | zero => intro n p fuel2 _ h; simp [alloc_id_loop] at h
  | succ f ih =>
    intro n p fuel2 hle h
    obtain ⟨g, rfl⟩ : ∃ g, fuel2 = g + 1 := ⟨fuel2 - 1, by omega⟩
    unfold alloc_id_loop at h ⊢
    cases hl : call_work_lookup_by_id_unlocked ns n with
    | none => rw [hl] at h; simpa using h
    | some c =>
      rw [hl] at h
      exact ih _ _ g (by omega) h

theorem create_of_alloc (ns : connman_state) (a t m c : Option String) (id next : Int)
    (hl : call_work_lookup_unlocked ns a t m = none)
    (ha : alloc_id_loop ns ALLOC_FUEL ns.next_cw_id = some (id, next)) :
    call_work_create ns a t m c =
      some ({ next_cw_id := next,
              cw_pending :=
                { addr := ns.heap_top, id := id, access_type := a, type_arg := t,
                  method := m, connman_method := c, cpw := none, request_cb := none,
                  request_user_data := none, agent_method := none, invocation := none }
                  :: ns.cw_pending,
              heap_top := ns.heap_top + 1 },
            .ok { addr := ns.heap_top, id := id, access_type := a, type_arg := t,
                  method := m, connman_method := c, cpw := none, request_cb := none,
                  request_user_data := none, agent_method := none, invocation := none }) := by
  unfold call_work_create call_work_create_unlocked
  rw [hl, ha]

theorem create_ok_cases (ns ns1 : connman_state) (a t m c : Option String) (cw : call_work)
    (h : call_work_create ns a t m c = some (ns1, .ok cw)) :
    call_work_lookup_unlocked ns a t m = none ∧
    alloc_id_loop ns ALLOC_FUEL ns.next_cw_id = some (cw.id, ns1.next_cw_id) ∧
    ns1.cw_pending = cw :: ns.cw_pending ∧ ns1.heap_top = ns.heap_top + 1 ∧
    cw.addr = ns.heap_top ∧ cw.access_type = a ∧ cw.type_arg = t ∧ cw.method = m := by
  rcases create_cases ns a t m c _ h with ⟨_, _, e, he⟩ | ⟨hl, id, next, ha, cw1, h1, h2, h3,
    h4, h5, _, _, _, _, _, _, hok, hst⟩
  · simp at he
  · simp only [Except.ok.injEq] at hok
    subst hok
    simp only at hst
    subst hst
    subst h2
    exact ⟨hl, ha, rfl, rfl, h1, h3, h4, h5⟩

theorem destroy_head (ns : connman_state) (cw : call_work) (rest : List call_work)
    (h : ns.cw_pending = cw :: rest) :
    call_work_destroy ns cw = { ns with cw_pending := rest } := by
  unfold call_work_destroy call_work_destroy_unlocked call_work_lookup_by_id_unlocked
    g_slist_remove
  rw [h]
  simp

theorem alloc_id_loop_congr (ns ns1 : connman_state) (h : ns1.cw_pending = ns.cw_pending)
    (fuel : Nat) : ∀ n : Int, alloc_id_loop ns1 fuel n = alloc_id_loop ns fuel n := by
  induction fuel with
  | zero => intro n; rfl
  | succ f ih =>
    intro n
    unfold alloc_id_loop
    have hl : call_work_lookup_by_id_unlocked ns1 n = call_work_lookup_by_id_unlocked ns n := by
      unfold call_work_lookup_by_id_unlocked; rw [h]
    rw [hl, ih]

theorem lookup_congr (ns ns1 : connman_state) (h : ns1.cw_pending = ns.cw_pending)
    (a t m : Option String) :
    call_work_lookup_unlocked ns1 a t m = call_work_lookup_unlocked ns a t m := by
  unfold call_work_lookup_unlocked; rw [h]

theorem alloc_id_loop_terminates_pos (ns : connman_state)
    (h1 : 1 ≤ ns.next_cw_id) (h2 : ns.next_cw_id ≤ 2147483647)
    (hpos : (ns.cw_pending.filter (fun cw => decide (0 < cw.id))).length < 2147483647) :
    ∃ p, alloc_id_loop ns
      ((ns.cw_pending.filter (fun cw => decide (0 < cw.id))).length + 1) ns.next_cw_id
        = some p := by
  cases h : alloc_id_loop ns
      ((ns.cw_pending.filter (fun cw => decide (0 < cw.id))).length + 1) ns.next_cw_id with
  | some p => exact ⟨p, rfl⟩
  | none =>
    exfalso
    have hused := alloc_id_loop_none ns _ _ h
    have hcard : (Finset.range
        ((ns.cw_pending.filter (fun cw => decide (0 < cw.id))).length + 1)).card ≤
        (((ns.cw_pending.filter (fun cw => decide (0 < cw.id))).map
          (fun cw => cw.id)).toFinset).card := by
      apply Finset.card_le_card_of_injOn (fun k => counter_after ns.next_cw_id k)
      · intro k hk
        have hk1 : k < (ns.cw_pending.filter (fun cw => decide (0 < cw.id))).length + 1 := by
          simpa using hk
        have := hused k hk1
        rw [Ne, lookup_by_id_none_iff] at this
        push_neg at this
        obtain ⟨cw, hcw, hid⟩ := this
        have hc := counter_after_closed k _ h1 h2
        simp only [List.mem_toFinset, List.mem_map, List.mem_filter, decide_eq_true_eq]
        refine ⟨cw, ⟨hcw, ?_⟩, hid⟩
        omega
      · intro a ha b hb hab
        have ha1 : a < (ns.cw_pending.filter (fun cw => decide (0 < cw.id))).length + 1 := by
          simpa using ha
        have hb1 : b < (ns.cw_pending.filter (fun cw => decide (0 < cw.id))).length + 1 := by
          simpa using hb
        simp only [counter_after_closed _ _ h1 h2] at hab
        omega
    have hle := List.toFinset_card_le
      ((ns.cw_pending.filter (fun cw => decide (0 < cw.id))).map (fun cw => cw.id))
    simp only [Finset.card_range, List.length_map] at hcard hle
    omega

theorem counter_after_back (id : Int) (h1 : 1 ≤ id) (h2 : id ≤ 2147483647) :
    counter_after (next_cw_id_step id) 2147483646 = id := by
  have hr := next_cw_id_step_range id h1 h2
  rw [counter_after_closed _ _ hr.1 hr.2, next_cw_id_step_of_range id h1 h2]
  split <;> omega

theorem decode_fixed (a t : Option String) (method : String) (e : GError) :
    connman_decode_call_error a t method (connman_decode_call_error a t method (some e)) =
      connman_decode_call_error a t method (some e) := by
  simp only [connman_decode_call_error]
  split_ifs <;> simp only [connman_decode_call_error] <;> split_ifs <;> rfl

theorem strip_path_some (path b : String) (h : connman_strip_path path = some b) :
    ∃ before, path.data = before ++ '/' :: b.data ∧ '/' ∉ b.data ∧ b.data ≠ [] := by
  unfold connman_strip_path at h
  cases hs : strrchr path.data '/' with
  | none => rw [hs] at h; simp at h
  | some tail =>
    rw [hs] at h
    obtain ⟨before, suf, h1, h2, h3⟩ := strrchr_some _ _ _ hs
    subst h3
    cases suf with
    | nil => simp at h
    | cons c cs =>
      simp only [List.drop_succ_cons, List.drop_zero, Option.some.injEq] at h
      subst h
      exact ⟨before, h1, h2, by simp⟩

theorem strip_path_append (pre s : String) (hs : s.data ≠ []) (hslash : '/' ∉ s.data) :
    connman_strip_path (pre ++ "/" ++ s) = some s := by
  unfold connman_strip_path
  have hd : (pre ++ "/" ++ s).data = pre.data ++ '/' :: s.data := by
    simp only [String.data_append, List.append_assoc]
    rfl
  rw [hd, strrchr_append '/' s.data hslash pre.data]
  cases hsd : s.data with
  | nil => exact absurd hsd hs
  | cons c cs =>
    simp only [List.drop_succ_cons, List.drop_zero]
    rw [← hsd]

theorem strip_path_round_trip (pre s : String) :
    connman_strip_path (pre ++ "/" ++ s) = some s ↔ (s ≠ "" ∧ '/' ∉ s.data) := by
  constructor
  · intro h
    obtain ⟨_, _, h2, h3⟩ := strip_path_some _ _ h
    refine ⟨?_, h2⟩
    intro he
    rw [he] at h3
    exact h3 rfl
  · rintro ⟨h1, h2⟩
    apply strip_path_append _ _ _ h2
    intro hd
    apply h1
    cases s
    simp only at hd
    subst hd
    rfl

theorem service_path_split (s : String) :
    CONNMAN_SERVICE_PATH s = "/net/connman/service" ++ "/" ++ s := by
  rw [CONNMAN_SERVICE_PATH_eq]; rfl

theorem technology_path_split (s : String) :
    CONNMAN_TECHNOLOGY_PATH s = "/net/connman/technology" ++ "/" ++ s := by
  rw [CONNMAN_TECHNOLOGY_PATH_eq]; rfl

theorem lookup_of_mem (ns : connman_state) (cw : call_work) (htr : triples_distinct ns)
    (hmem : cw ∈ ns.cw_pending) :
    call_work_lookup_unlocked ns cw.access_type cw.type_arg cw.method = some cw := by
  cases h : call_work_lookup_unlocked ns cw.access_type cw.type_arg cw.method with
  | none =>
    exact absurd ⟨rfl, rfl, rfl⟩ ((lookup_none_iff ns _ _ _).1 h cw hmem)
  | some x =>
    obtain ⟨hx, h1, h2, h3⟩ := lookup_some ns _ _ _ x h
    by_contra hne
    have hne2 : x ≠ cw := fun he => hne (by rw [he])
    have hsymm : Symmetric (fun a b : call_work => ¬ same_triple a b) := by
      intro a b hab hba
      exact hab ⟨hba.1.symm, hba.2.1.symm, hba.2.2.symm⟩
    exact (List.Pairwise.forall hsymm htr) hx hmem hne2 ⟨h1, h2, h3⟩

theorem handles_store (l : List call_work) (addr : Nat) (f : call_work → call_work)
    (hf : ∀ c, (c.invocation ≠ none → c.agent_method = some "RequestInput") →
      (f c).invocation ≠ none → (f c).agent_method = some "RequestInput")
    (h : ∀ cw ∈ l, cw.invocation ≠ none → cw.agent_method = some "RequestInput") :
    ∀ cw ∈ store l addr f, cw.invocation ≠ none → cw.agent_method = some "RequestInput" := by
  intro cw hcw
  unfold store at hcw
  rw [List.mem_map] at hcw
  obtain ⟨c, hc, hceq⟩ := hcw
  by_cases ha : c.addr = addr
  · rw [if_pos ha] at hceq
    subst hceq
    exact hf c (h c hc)
  · rw [if_neg ha] at hceq
    subst hceq
    exact h c hc

theorem handles_destroy (ns : connman_state) (cw : call_work) (h : reply_handles_wf ns) :
    reply_handles_wf (call_work_destroy ns cw) := by
  intro x hx
  exact h x ((destroy_sublist ns cw).subset hx)

theorem connman_call_async_pending (ns : connman_state) (access_type : String)
    (type_arg : Option String) (method : String) (params : Option GVariant)
    (callback : AsyncCallback) (user_data : Nat) :
    (connman_call_async ns access_type type_arg method params callback user_data).1.cw_pending
      = ns.cw_pending := by
  unfold connman_call_async
  split_ifs <;> rfl

theorem handles_service_connect (ns ns1 : connman_state) (service : Option String)
    (cb user_data : Option Nat) (b : Bool) (effects : List Effect)
    (h : reply_handles_wf ns)
    (hr : connman_service_connect ns service cb user_data = some (ns1, b, effects)) :
    reply_handles_wf ns1 := by
  unfold connman_service_connect at hr
  cases service with
  | none =>
    simp only [Option.some.injEq, Prod.mk.injEq] at hr
    rw [← hr.1]; exact h
  | some s =>
    simp only at hr
    cases hc : call_work_create ns (some "service") (some s) (some "connect_service")
        (some "Connect") with
    | none => rw [hc] at hr; simp at hr
    | some r =>
      obtain ⟨nsa, res⟩ := r
      rw [hc] at hr
      cases res with
      | error e =>
        simp only [Option.some.injEq, Prod.mk.injEq] at hr
        rcases create_cases ns _ _ _ _ _ hc with ⟨_, hst, _⟩ | ⟨_, _, _, _, cw, _, _, _, _, _,
          _, _, _, _, _, _, hok, _⟩
        · simp only at hst
          rw [← hr.1, hst]; exact h
        · simp at hok
      | ok cw =>
        rcases create_cases ns _ _ _ _ _ hc with ⟨_, _, e, he⟩ | ⟨_, _, _, _, cw1, _, _, _,
          _, _, _, _, _, _, _, hinv, hok, hst⟩
        · simp at he
        · simp only [Except.ok.injEq] at hok
          subst hok
          simp only at hst
          have hnsa : reply_handles_wf nsa := by
            intro x hx
            rw [hst] at hx
            simp only [List.mem_cons] at hx
            rcases hx with hx | hx
            · subst hx; intro hne; exact absurd hinv hne
            · exact h x hx
          simp only at hr
          generalize hca : connman_call_async
            { nsa with cw_pending := store nsa.cw_pending cw.addr (fun c =>
                { c with request_cb := cb, request_user_data := user_data }) }
            "service" (some s) "Connect" none AsyncCallback.connect_service_callback cw.addr
            = res at hr
          have hpend := connman_call_async_pending
            { nsa with cw_pending := store nsa.cw_pending cw.addr (fun c =>
                { c with request_cb := cb, request_user_data := user_data }) }
            "service" (some s) "Connect" none AsyncCallback.connect_service_callback cw.addr
          rw [hca] at hpend
          simp only at hpend
          have hres : reply_handles_wf res.1 := by
            intro x hx
            rw [hpend] at hx
            refine handles_store _ _ _ ?_ hnsa x hx
            intro c hc; exact hc
          obtain ⟨ns3, r3, fx⟩ := res
          cases r3 with
          | error e =>
            simp only [Option.some.injEq, Prod.mk.injEq] at hr
            rw [← hr.1]
            exact handles_destroy _ _ hres
          | ok cpw =>
            simp only [Option.some.injEq, Prod.mk.injEq] at hr
            rw [← hr.1]
            intro x hx
            refine handles_store _ _ _ ?_ hres x hx
            intro c hc; exact hc

theorem handles_method_call (ag : agent_event_state) (ns ns1 : connman_state)
    (method_name : Option String) (parameters : GVariant) (invocation : Nat)
    (effects : List Effect) (h : reply_handles_wf ns)
    (hr : handle_method_call ag ns method_name parameters invocation = some (ns1, effects)) :
    reply_handles_wf ns1 := by
  unfold handle_method_call at hr
  split at hr
  · split at hr
    · simp only at hr
      split at hr
      · simp only [Option.some.injEq, Prod.mk.injEq] at hr
        rw [← hr.1]; exact h
      · simp only [Option.some.injEq, Prod.mk.injEq] at hr
        rw [← hr.1]
        intro x hx
        refine handles_store _ _ _ ?_ h x hx
        intro c _ _; rfl
    · simp at hr
  · split at hr
    · split at hr
      · simp only [Option.some.injEq, Prod.mk.injEq] at hr
        rw [← hr.1]; exact h
      · simp at hr
    · simp only [Option.some.injEq, Prod.mk.injEq] at hr
      rw [← hr.1]; exact h

theorem handles_agent_response (ns : connman_state) (id : Int)
    (parameters : Option GVariant) (h : reply_handles_wf ns) :
    reply_handles_wf (connman_agent_response ns id parameters).1 := by
  unfold connman_agent_response
  split
  · exact h
  · split
    · exact h
    · split <;>
      · intro x hx
        refine handles_store _ _ _ ?_ h x hx
        intro c _ hne; exact absurd rfl hne

theorem handles_connect_completion (bus : Bus) (ns ns1 : connman_state) (cw : call_work)
    (result : Option GVariant) (error : Option GError) (effects : List Effect)
    (h : reply_handles_wf ns)
    (hr : connect_service_callback bus ns cw result error = some (ns1, effects)) :
    reply_handles_wf ns1 := by
  unfold connect_service_callback at hr
  split at hr
  · simp at hr
  · simp only at hr
    split at hr
    · simp at hr
    · simp only [Option.some.injEq, Prod.mk.injEq] at hr
      rw [← hr.1]
      exact handles_destroy _ _ h

theorem handles_apply (ag : agent_event_state) (bus : Bus) (ns ns1 : connman_state)
    (op : ApiOp) (h : reply_handles_wf ns) (hr : op.apply ag bus ns = some ns1) :
    reply_handles_wf ns1 := by
  cases op with
  | service_connect service cb user_data =>
    simp only [ApiOp.apply, Option.map_eq_some'] at hr
    obtain ⟨⟨nsa, b, fx⟩, hr1, hr2⟩ := hr
    simp only at hr2
    subst hr2
    exact handles_service_connect ns _ service cb user_data b fx h hr1
  | method_call method_name parameters invocation =>
    simp only [ApiOp.apply, Option.map_eq_some'] at hr
    obtain ⟨⟨nsa, fx⟩, hr1, hr2⟩ := hr
    simp only at hr2
    subst hr2
    exact handles_method_call ag ns _ method_name parameters invocation fx h hr1
  | agent_response id parameters =>
    simp only [ApiOp.apply, Option.some.injEq] at hr
    rw [← hr]
    exact handles_agent_response ns id parameters h
  | connect_completion cw result error =>
    simp only [ApiOp.apply, Option.map_eq_some'] at hr
    obtain ⟨⟨nsa, fx⟩, hr1, hr2⟩ := hr
    simp only at hr2
    subst hr2
    exact handles_connect_completion bus ns _ cw result error fx h hr1

theorem handles_run (ag : agent_event_state) (bus : Bus) (ops : List ApiOp) :
    ∀ ns ns1 : connman_state, reply_handles_wf ns → run_api ag bus ns ops = some ns1 →
      reply_handles_wf ns1 := by
  induction ops with
  | nil =>
    intro ns ns1 h hr
    simp only [run_api, Option.some.injEq] at hr
    rw [← hr]; exact h
  | cons op ops ih =>
    intro ns ns1 h hr
    simp only [run_api] at hr
    cases ha : op.apply ag bus ns with
    | none => rw [ha] at hr; simp at hr
    | some nsa =>
      rw [ha] at hr
      simp only [Option.some_bind] at hr
      exact ih nsa ns1 (handles_apply ag bus ns nsa op h ha) hr

theorem agent_response_cases (ns : connman_state) (id : Int) (parameters : Option GVariant)
    (h : reply_handles_wf ns) :
    connman_agent_response ns id parameters = (ns, false, []) ∨
    ∃ cw invocation, call_work_lookup_by_id_unlocked ns id = some cw ∧
      cw.invocation = some invocation ∧
      connman_agent_response ns id parameters =
        ({ ns with cw_pending := store ns.cw_pending cw.addr (fun c =>
            { c with invocation := none }) }, true,
          [Effect.return_value invocation parameters]) := by
  unfold connman_agent_response
  cases hl : call_work_lookup_by_id_unlocked ns id with
  | none => exact Or.inl rfl
  | some cw =>
    cases hi : cw.invocation with
    | none => simp [hi]
    | some invocation =>
      right
      have hm := h cw (lookup_by_id_some ns id cw hl).1 (by simp [hi])
      have hz : g_strcmp0 cw.agent_method (some "RequestInput") = 0 := by
        rw [hm]; decide
      refine ⟨cw, invocation, rfl, hi, ?_⟩
      simp [hi, hz]

/-! ## Claims -/

/-- C1. In every ledger state reached from an empty ledger by a sequence of
`call_work_create` and `call_work_destroy` operations, no two live entries have the same
(category, target, logical method) triple. -/
theorem C1_single_entry_per_triple (s0 ns : connman_state) (ops : List LedgerOp)
    (h0 : s0.cw_pending = []) (h : run_ops s0 ops = some ns) :
    ns.cw_pending.Pairwise (fun a b =>
      ¬ (a.access_type = b.access_type ∧ a.type_arg = b.type_arg ∧ a.method = b.method)) :=
  triples_distinct_run ops s0 ns (by unfold triples_distinct; rw [h0]; exact List.Pairwise.nil) h

/-- C1, witness: the run `ops_sample` from the initial ledger. -/
theorem C1_single_entry_per_triple_witness :
    run_ops connman_dbus_init ops_sample = some ns_sample ∧
    ns_sample.cw_pending.Pairwise (fun a b =>
      ¬ (a.access_type = b.access_type ∧ a.type_arg = b.type_arg ∧ a.method = b.method)) :=
  ⟨by decide,
   C1_single_entry_per_triple connman_dbus_init ns_sample ops_sample rfl (by decide)⟩

/-- C2. `call_work_create_unlocked` fails with `CONNMAN_ERROR_CALL_IN_PROGRESS` exactly
when `call_work_lookup_unlocked` finds an entry for the triple, and a failing create
leaves the entries and the id counter (the whole state) as they were. -/
theorem C2_create_fails_iff_found (ns : connman_state)
    (access_type type_arg method connman_method : Option String) :
    ((∃ ns1 e, call_work_create_unlocked ns access_type type_arg method connman_method
          = some (ns1, .error e) ∧ e.domain = GQuark.CONNMAN_ERROR ∧
          e.code = NBError.CONNMAN_ERROR_CALL_IN_PROGRESS.code) ↔
      (call_work_lookup_unlocked ns access_type type_arg method).isSome = true) ∧
    (∀ ns1 e, call_work_create_unlocked ns access_type type_arg method connman_method
        = some (ns1, .error e) →
      e.code = NBError.CONNMAN_ERROR_CALL_IN_PROGRESS.code ∧ ns1 = ns ∧
      ns1.cw_pending = ns.cw_pending ∧ ns1.next_cw_id = ns.next_cw_id) := by
  unfold call_work_create_unlocked
  cases hl : call_work_lookup_unlocked ns access_type type_arg method with
  | some x =>
    refine ⟨⟨fun _ => rfl, fun _ => ⟨ns, _, rfl, rfl, rfl⟩⟩, ?_⟩
    intro ns1 e h
    simp only [Option.some.injEq, Prod.mk.injEq, Except.error.injEq] at h
    obtain ⟨rfl, rfl⟩ := h
    exact ⟨rfl, rfl, rfl, rfl⟩
  | none =>
    cases ha : alloc_id_loop ns ALLOC_FUEL ns.next_cw_id with
    | none => simp
    | some p => simp

/-- C2, witness: a second create for the triple of the entry pending in
`ns_connecting`. -/
theorem C2_create_fails_iff_found_witness :
    ∃ ns1 e, call_work_create_unlocked ns_connecting (some "service") (some "svc0")
        (some "connect_service") (some "Connect") = some (ns1, .error e) ∧
      e.domain = GQuark.CONNMAN_ERROR ∧
      e.code = NBError.CONNMAN_ERROR_CALL_IN_PROGRESS.code :=
  (C2_create_fails_iff_found ns_connecting (some "service") (some "svc0")
    (some "connect_service") (some "Connect")).1.mpr (by decide)

/-- C3. In every state reached from an empty ledger whose counter is in `1 .. 2^31-1`
(`connman_dbus_init` sets it to 1; the other values stand for the counter after earlier
traffic, the wrap past `2^31-1` included) by a sequence of create and destroy operations,
every live id is strictly positive and no two live entries share an id. -/
theorem C3_ids_positive_unique (s0 ns : connman_state) (ops : List LedgerOp)
    (h0 : s0.cw_pending = []) (hc : 1 ≤ s0.next_cw_id ∧ s0.next_cw_id ≤ 2147483647)
    (h : run_ops s0 ops = some ns) :
    (∀ cw ∈ ns.cw_pending, 0 < cw.id) ∧ ns.cw_pending.Pairwise (fun a b => a.id ≠ b.id) :=
  (ids_wf_run ops s0 ns ⟨hc, by rw [h0]; simp, by rw [h0]; exact List.Pairwise.nil⟩ h).2

/-- C3, witness: two creates from an empty ledger whose counter is `2^31-1`; the ids are
`2^31-1` and 1. -/
theorem C3_ids_positive_unique_witness :
    run_ops ns_at_max ops_two_creates = some ns_wrapped ∧
    (∀ cw ∈ ns_wrapped.cw_pending, 0 < cw.id) ∧
    ns_wrapped.cw_pending.Pairwise (fun a b => a.id ≠ b.id) :=
  ⟨by decide,
   C3_ids_positive_unique ns_at_max ns_wrapped ops_two_creates rfl (by decide) (by decide)⟩

/-- C4. `connman_decode_call_error` equals the mapping of the specification for every
error, category, target and method: with the unknown-object marker in the error text,
SetProperty/GetProperty/ClearProperty give UnknownProperty naming category and target,
Connect/Disconnect/Remove/ResetCounters/MoveAfter/MoveBefore give UnknownService naming
the target, Scan gives UnknownTechnology naming the target; in every other case (marker
absent, other method, no error) the error is returned unchanged. -/
theorem C4_decode_refines_spec (access_type type_arg : Option String) (method : String)
    (error : Option GError) :
    connman_decode_call_error access_type type_arg method error =
      (spec_decode_call_error access_type type_arg method error).toGError := by
  cases error with
  | none => rfl
  | some e =>
    simp only [connman_decode_call_error, spec_decode_call_error, strstr_isSome_iff,
      List.mem_cons, List.mem_singleton, List.not_mem_nil, or_false]
    split_ifs <;> rfl

/-- C5 (amended). For category technology or service and every method and parameters,
`connman_call` and `connman_call_async` with an absent (`NULL`) target fail with
`CONNMAN_ERROR_MISSING_ARGUMENT` and perform no transport call, the state being left as it
was; an empty-string target passes the check, and the call goes out on the prefix path
followed by `/`. -/
theorem C5_absent_target_rejected (bus : Bus) (ns : connman_state) (access_type method : String)
    (params : Option GVariant) (callback : AsyncCallback) (user_data : Nat)
    (hcat : access_type = CONNMAN_AT_TECHNOLOGY ∨ access_type = CONNMAN_AT_SERVICE) :
    (connman_call bus access_type none method params =
        (.error (connman_error .CONNMAN_ERROR_MISSING_ARGUMENT
          ("missing " ++ access_type ++ " argument")), []) ∧
      connman_call_async ns access_type none method params callback user_data =
        (ns, .error (connman_error .CONNMAN_ERROR_MISSING_ARGUMENT
          ("missing " ++ access_type ++ " argument")), [])) ∧
    ((connman_call bus access_type (some "") method params).2 =
        [Effect.call_sync ("/net/connman/" ++ access_type ++ "/")
          (if access_type = CONNMAN_AT_TECHNOLOGY then "net.connman.Technology"
            else "net.connman.Service") method params] ∧
      (connman_call_async ns access_type (some "") method params callback user_data).2.2 =
        [Effect.call_async ("/net/connman/" ++ access_type ++ "/")
          (if access_type = CONNMAN_AT_TECHNOLOGY then "net.connman.Technology"
            else "net.connman.Service") method params callback user_data ns.heap_top]) := by
  refine ⟨⟨?_, ?_⟩, ?_, ?_⟩
  · unfold connman_call
    rw [if_pos ⟨rfl, hcat⟩]
  · unfold connman_call_async
    rw [if_pos ⟨rfl, hcat⟩]
  · rcases hcat with rfl | rfl
    · have hp : CONNMAN_TECHNOLOGY_PATH ("" : String) = "/net/connman/technology/" := by decide
      have h1 : CONNMAN_AT_TECHNOLOGY ≠ CONNMAN_AT_MANAGER := by decide
      simp only [connman_call, if_neg h1, reduceCtorEq, false_and, if_false, if_true,
        Option.getD_some, hp]
      split <;> rfl
    · have hp : CONNMAN_SERVICE_PATH ("" : String) = "/net/connman/service/" := by decide
      have h1 : CONNMAN_AT_SERVICE ≠ CONNMAN_AT_MANAGER := by decide
      have h2 : CONNMAN_AT_SERVICE ≠ CONNMAN_AT_TECHNOLOGY := by decide
      simp only [connman_call, if_neg h1, if_neg h2, reduceCtorEq, false_and, if_false,
        if_true, Option.getD_some, hp]
      split <;> rfl
  · rcases hcat with rfl | rfl
    · have hp : CONNMAN_TECHNOLOGY_PATH ("" : String) = "/net/connman/technology/" := by decide
      have h1 : CONNMAN_AT_TECHNOLOGY ≠ CONNMAN_AT_MANAGER := by decide
      simp only [connman_call_async, if_neg h1, reduceCtorEq, false_and, if_false, if_true,
        Option.getD_some, hp]
      rfl
    · have hp : CONNMAN_SERVICE_PATH ("" : String) = "/net/connman/service/" := by decide
      have h1 : CONNMAN_AT_SERVICE ≠ CONNMAN_AT_MANAGER := by decide
      have h2 : CONNMAN_AT_SERVICE ≠ CONNMAN_AT_TECHNOLOGY := by decide
      simp only [connman_call_async, if_neg h1, if_neg h2, reduceCtorEq, false_and, if_false,
        if_true, Option.getD_some, hp]
      rfl

/-- C5, witness: the technology category with method Scan. -/
theorem C5_absent_target_rejected_witness :
    (connman_call bus_ok "technology" none "Scan" none =
        (.error (connman_error .CONNMAN_ERROR_MISSING_ARGUMENT
          ("missing " ++ "technology" ++ " argument")), []) ∧
      connman_call_async connman_dbus_init "technology" none "Scan" none
          AsyncCallback.connect_service_callback 0 =
        (connman_dbus_init, .error (connman_error .CONNMAN_ERROR_MISSING_ARGUMENT
          ("missing " ++ "technology" ++ " argument")), [])) :=
  (C5_absent_target_rejected bus_ok connman_dbus_init "technology" "Scan" none
    AsyncCallback.connect_service_callback 0 (Or.inl rfl)).1

/-- C5, counterexample to the claim as stated: with the empty string as target the
gateways do not fail with MissingArgument; the Scan call on technology `""` and the
Connect call on service `""` are handed to the transport. -/
theorem C5_empty_target_counterexample :
    connman_call bus_ok "technology" (some "") "Scan" none =
      (.ok GVariant.unit,
        [Effect.call_sync "/net/connman/technology/" "net.connman.Technology" "Scan" none]) ∧
    connman_call_async connman_dbus_init "service" (some "") "Connect" none
        AsyncCallback.connect_service_callback 0 =
      ({ next_cw_id := 1, cw_pending := [], heap_top := 1 }, .ok 0,
        [Effect.call_async "/net/connman/service/" "net.connman.Service" "Connect" none
          AsyncCallback.connect_service_callback 0 0]) := by
  decide

/-- C6. An inbound RequestInput(path, fields) with reply handle `invocation`, on a
well-formed ledger: without an entry for (service, basename(path), "connect_service") the
handler replies with the Canceled error, calls no application callback and leaves the
ledger as it was; with such an entry it sends no reply, stores the reply handle and the
agent method "RequestInput" on that entry only, and calls the registered agent callback
once, with (basename(path), the id of the entry, fields). -/
theorem C6_request_input (ag : agent_event_state) (ns : connman_state) (path : String)
    (fields : List (String × Value)) (invocation : Nat) (hwf : ledger_wf ns) :
    (call_work_lookup_unlocked ns (some "service") (connman_strip_path path)
        (some "connect_service") = none →
      handle_method_call ag ns (some "RequestInput") (.path_dict path fields) invocation =
        some (ns, [Effect.return_dbus_error invocation "net.connman.Agent.Error.Canceled"
          "No connection pending"])) ∧
    (∀ cw, call_work_lookup_unlocked ns (some "service") (connman_strip_path path)
        (some "connect_service") = some cw →
      ∃ ns1 effects,
        handle_method_call ag ns (some "RequestInput") (.path_dict path fields) invocation
          = some (ns1, effects) ∧
        replies effects = [] ∧
        (∀ cb, ag.agent_event_cb = some cb →
          effects = [Effect.agent_event cb (connman_strip_path path) cw.id (.dict fields)
            ag.agent_event_cb_data]) ∧
        (ag.agent_event_cb = none → effects = []) ∧
        ns1.next_cw_id = ns.next_cw_id ∧ ns1.heap_top = ns.heap_top ∧
        ns1.cw_pending = ns.cw_pending.map (fun c =>
          if c = cw then
            { c with agent_method := some "RequestInput", invocation := some invocation }
          else c)) := by
  have hm : g_strcmp0 (some "RequestInput") (some "RequestInput") = 0 := by decide
  constructor
  · intro hnone
    simp only [handle_method_call, hm, if_true, hnone]
  · intro cw hsome
    have hmem := (lookup_some ns _ _ _ cw hsome).1
    refine ⟨{ ns with cw_pending := store ns.cw_pending cw.addr (fun c =>
        { c with agent_method := some "RequestInput", invocation := some invocation }) },
      run_callback ag (connman_strip_path path) cw.id (.dict fields),
      ?_, ?_, ?_, ?_, rfl, rfl, ?_⟩
    · simp only [handle_method_call, hm, if_true, hsome]
    · unfold run_callback replies
      cases ag.agent_event_cb <;> rfl
    · intro cb hcb
      simp only [run_callback, hcb]
    · intro hcb
      simp only [run_callback, hcb]
    · exact store_eq_map ns.cw_pending cw _ hwf.1 hmem

/-- C6, witness: RequestInput for `/net/connman/service/svc0` on the initial ledger (no
entry) and on the ledger with a pending connect for `svc0`. -/
theorem C6_request_input_witness :
    handle_method_call ag_registered connman_dbus_init (some "RequestInput")
        (.path_dict "/net/connman/service/svc0" [("Passphrase", Value.other 0)]) 5 =
      some (connman_dbus_init, [Effect.return_dbus_error 5
        "net.connman.Agent.Error.Canceled" "No connection pending"]) ∧
    ∃ ns1 effects,
      handle_method_call ag_registered ns_connecting (some "RequestInput")
        (.path_dict "/net/connman/service/svc0" [("Passphrase", Value.other 0)]) 5
          = some (ns1, effects) ∧
      replies effects = [] ∧
      effects = [Effect.agent_event 3 (some "svc0") 1
        (.dict [("Passphrase", Value.other 0)]) (some 4)] ∧
      ns1 = ns_asked :=
  ⟨(C6_request_input ag_registered connman_dbus_init "/net/connman/service/svc0"
      [("Passphrase", Value.other 0)] 5 (by decide)).1 (by decide),
   by
    obtain ⟨ns1, effects, h1, h2, h3, _, h5, h6, h7⟩ :=
      (C6_request_input ag_registered ns_connecting "/net/connman/service/svc0"
        [("Passphrase", Value.other 0)] 5 (by decide)).2 cw_svc0 (by decide)
    refine ⟨ns1, effects, h1, h2, h3 3 rfl, ?_⟩
    cases ns1
    simp only at h5 h6 h7
    subst h5 h6 h7
    decide⟩

/-- C7. On a well-formed ledger, for an entry that holds a reply handle stored by
RequestInput, `connman_agent_response` with the id of the entry replies to the stored
handle with the value, once, clears the handle (on that entry only) and returns success;
a second `connman_agent_response` with the same id then fails and sends no reply.  With an
id that matches no entry, or an entry without stored handle, it fails, sends no reply and
leaves the ledger as it was. -/
theorem C7_agent_response (ns : connman_state) (id : Int) (value value2 : Option GVariant) :
    (∀ cw h, ledger_wf ns → cw ∈ ns.cw_pending → cw.id = id → cw.invocation = some h →
      cw.agent_method = some "RequestInput" →
      ∃ ns1, connman_agent_response ns id value = (ns1, true, [Effect.return_value h value]) ∧
        ns1.cw_pending = ns.cw_pending.map (fun c =>
          if c = cw then { c with invocation := none } else c) ∧
        ns1.next_cw_id = ns.next_cw_id ∧ ns1.heap_top = ns.heap_top ∧
        connman_agent_response ns1 id value2 = (ns1, false, [])) ∧
    ((∀ c ∈ ns.cw_pending, c.id = id → c.invocation = none) →
      connman_agent_response ns id value = (ns, false, [])) := by
  constructor
  · intro cw h hwf hmem hid hinv ham
    subst hid
    have hl := lookup_by_id_of_mem ns cw hwf.2.1 hmem
    have hrq : g_strcmp0 cw.agent_method (some "RequestInput") = 0 := by
      rw [g_strcmp0_eq_zero]; exact ham
    refine ⟨{ ns with cw_pending := store ns.cw_pending cw.addr (fun c =>
        { c with invocation := none }) }, ?_, ?_, rfl, rfl, ?_⟩
    · simp only [connman_agent_response, hl, hinv, hrq, ne_eq, not_true_eq_false, if_false]
    · exact store_eq_map ns.cw_pending cw _ hwf.1 hmem
    · have hl2 : call_work_lookup_by_id_unlocked
          { ns with cw_pending := store ns.cw_pending cw.addr (fun c =>
            { c with invocation := none }) } cw.id
          = some { cw with invocation := none } := by
        unfold call_work_lookup_by_id_unlocked
        simp only
        rw [find_id_store ns.cw_pending cw.addr (fun c => { c with invocation := none })
          cw.id (fun c => rfl)]
        unfold call_work_lookup_by_id_unlocked at hl
        rw [hl]
        simp
      simp only [connman_agent_response, hl2]
  · intro hnone
    unfold connman_agent_response
    cases hl : call_work_lookup_by_id_unlocked ns id with
    | none => rfl
    | some c =>
      obtain ⟨hc, hcid⟩ := lookup_by_id_some ns id c hl
      simp only [hnone c hc hcid]

/-- C7, witness: the response to the RequestInput stored in `ns_asked` (handle 5, id 1),
and a response with id 1 on the ledger `ns_connecting`, whose entry holds no handle. -/
theorem C7_agent_response_witness :
    (∃ ns1, connman_agent_response ns_asked 1 (some (.props [("Passphrase", .string "pw")]))
        = (ns1, true, [Effect.return_value 5 (some (.props [("Passphrase", .string "pw")]))]) ∧
      ns1.cw_pending = ns_asked.cw_pending.map (fun c =>
        if c = cw_svc0_asked then { c with invocation := none } else c) ∧
      ns1.next_cw_id = ns_asked.next_cw_id ∧ ns1.heap_top = ns_asked.heap_top ∧
      connman_agent_response ns1 1 none = (ns1, false, [])) ∧
    connman_agent_response ns_connecting 1 none = (ns_connecting, false, []) :=
  ⟨(C7_agent_response ns_asked 1 (some (.props [("Passphrase", .string "pw")])) none).1
      cw_svc0_asked 5 (by decide) (by decide) rfl rfl rfl,
   (C7_agent_response ns_connecting 1 none none).2 (by decide)⟩

/-- C8. `connman_service_connect` for a service name: while the ledger holds an entry for
(service, name, "connect_service") it returns failure, issues no Connect call and leaves
the ledger as it was; without such an entry (on a well-formed ledger with the counter in
range and room for an id) it reserves one new entry for that triple, with wire
method Connect and the supplied callback and context, placed in front of the previous
entries, and issues one asynchronous Connect call whose user data is that entry. -/
theorem C8_service_connect (ns : connman_state) (name : String) (cb user_data : Option Nat) :
    ((call_work_lookup_unlocked ns (some "service") (some name)
        (some "connect_service")).isSome = true →
      connman_service_connect ns (some name) cb user_data = some (ns, false, [])) ∧
    (call_work_lookup_unlocked ns (some "service") (some name) (some "connect_service")
        = none →
      ledger_wf ns → 1 ≤ ns.next_cw_id → ns.next_cw_id ≤ 2147483647 →
      ns.cw_pending.length < 2147483647 →
      ∃ ns1 cw cpw,
        connman_service_connect ns (some name) cb user_data =
          some (ns1, true,
            [Effect.call_async ("/net/connman/service/" ++ name) "net.connman.Service"
              "Connect" none AsyncCallback.connect_service_callback cw.addr cpw]) ∧
        ns1.cw_pending = cw :: ns.cw_pending ∧
        cw.access_type = some "service" ∧ cw.type_arg = some name ∧
        cw.method = some "connect_service" ∧ cw.connman_method = some "Connect" ∧
        cw.request_cb = cb ∧ cw.request_user_data = user_data ∧ cw.cpw = some cpw ∧
        cw.agent_method = none ∧ cw.invocation = none ∧ 0 < cw.id ∧
        (∀ c ∈ ns.cw_pending, c.addr ≠ cw.addr ∧ c.id ≠ cw.id)) := by
  constructor
  · intro hsome
    obtain ⟨x, hx⟩ := Option.isSome_iff_exists.mp hsome
    simp only [connman_service_connect, call_work_create, call_work_create_unlocked, hx]
  · intro hnone hwf h1 h2 hlen
    obtain ⟨r, hr⟩ := create_returns ns (some "service") (some name) (some "connect_service")
      (some "Connect") h1 h2 hlen
    rcases create_cases ns _ _ _ _ r hr with ⟨hcontra, _⟩ | ⟨_, id, next, hal, cw, hcw⟩
    · exact absurd hnone hcontra
    · obtain ⟨haddr, hid, ha, ht, hm, hc, _, _, _, ham, hinv, hr2, hr1⟩ := hcw
      obtain ⟨hid1, _, _, _, hfree⟩ := alloc_id_loop_spec ns _ _ id next h1 h2 hal
      have hfresh : ∀ c ∈ ns.cw_pending, c.addr ≠ cw.addr := by
        intro c hc'
        have := hwf.2.2 c hc'
        omega
      have hr' : call_work_create ns (some "service") (some name) (some "connect_service")
          (some "Connect") = some (r.1, .ok cw) := by
        rw [hr, ← hr2]
      rw [hr1] at hr'
      refine ⟨⟨next, store (store (cw :: ns.cw_pending) cw.addr (fun c =>
          { c with request_cb := cb, request_user_data := user_data })) cw.addr (fun c =>
          { c with cpw := some (ns.heap_top + 1) }), ns.heap_top + 1 + 1⟩,
        { cw with
          request_cb := cb
          request_user_data := user_data
          cpw := some (ns.heap_top + 1) },
        ns.heap_top + 1, ?_, ?_,
        ha, ht, hm, hc, rfl, rfl, rfl, ham, hinv, by simp only; omega, ?_⟩
      · simp only [connman_service_connect, hr', connman_call_async_service]
      · simp only
        rw [store_cons_self cw ns.cw_pending _ hfresh]
        have := store_cons_self { cw with request_cb := cb, request_user_data := user_data }
          ns.cw_pending (fun c => { c with cpw := some (ns.heap_top + 1) }) hfresh
        simp only at this
        rw [this]
      · intro c hc'
        rw [lookup_by_id_none_iff] at hfree
        exact ⟨hfresh c hc', by simp only; rw [hid]; exact hfree c hc'⟩

/-- C8, witness: a connect to `svc0` while `ns_connecting` holds its entry, and a connect
to `svc0` on the initial ledger. -/
theorem C8_service_connect_witness :
    connman_service_connect ns_connecting (some "svc0") (some 7) (some 9)
      = some (ns_connecting, false, []) ∧
    ∃ ns1 cw cpw,
      connman_service_connect connman_dbus_init (some "svc0") (some 7) (some 9) =
        some (ns1, true,
          [Effect.call_async ("/net/connman/service/" ++ "svc0") "net.connman.Service"
            "Connect" none AsyncCallback.connect_service_callback cw.addr cpw]) ∧
      ns1.cw_pending = cw :: connman_dbus_init.cw_pending ∧
      cw.access_type = some "service" ∧ cw.type_arg = some "svc0" ∧
      cw.method = some "connect_service" ∧ cw.connman_method = some "Connect" ∧
      cw.request_cb = some 7 ∧ cw.request_user_data = some 9 ∧ cw.cpw = some cpw ∧
      cw.agent_method = none ∧ cw.invocation = none ∧ 0 < cw.id ∧
      (∀ c ∈ connman_dbus_init.cw_pending, c.addr ≠ cw.addr ∧ c.id ≠ cw.id) :=
  ⟨(C8_service_connect ns_connecting "svc0" (some 7) (some 9)).1 (by decide),
   (C8_service_connect connman_dbus_init "svc0" (some 7) (some 9)).2 (by decide)
     (by decide) (by decide) (by decide) (by decide)⟩

/-- C9. The completion of a pending Connect call, success or error, for a live entry of a
well-formed ledger reserved for (service, target, "connect_service") with completion
callback `cb`: `connect_service_callback` calls `cb` once, with (target, success, message),
success being true exactly when the decoded result carries no error, the message on error
being the string of the remote "Error" property when that property can be fetched and the
message of the decoded error otherwise; afterwards the entry is gone, so the lookup of
(service, target, "connect_service") finds nothing, and every other entry is as before. -/
theorem C9_connect_completion (bus : Bus) (ns : connman_state) (cw : call_work)
    (target : String) (cb : Nat) (result : Option GVariant) (error : Option GError)
    (hwf : ledger_wf ns) (htr : triples_distinct ns) (hmem : cw ∈ ns.cw_pending)
    (ha : cw.access_type = some "service") (ht : cw.type_arg = some target)
    (hm : cw.method = some "connect_service") (hc : cw.connman_method = some "Connect")
    (hcb : cw.request_cb = some cb) :
    ∃ ns1 effects status message,
      connect_service_callback bus ns cw result error = some (ns1, effects) ∧
      callbacks effects =
        [Effect.connect_event cb (some target) status message cw.request_user_data] ∧
      (status = true ↔
        connman_decode_call_error (some "service") (some target) "Connect" error = none) ∧
      (connman_decode_call_error (some "service") (some target) "Connect" error = none →
        message = none) ∧
      (∀ e, connman_decode_call_error (some "service") (some target) "Connect" error = some e →
        (∀ v fx, connman_get_property_internal bus CONNMAN_AT_SERVICE (some target)
            (some "Error") = some (.ok v, fx) → message = g_variant_get_string v) ∧
        (∀ e2 fx, connman_get_property_internal bus CONNMAN_AT_SERVICE (some target)
            (some "Error") = some (.error e2, fx) → message = some e.message)) ∧
      call_work_lookup_unlocked ns1 (some "service") (some target) (some "connect_service")
        = none ∧
      ns1.cw_pending = ns.cw_pending.erase cw ∧ ns1.next_cw_id = ns.next_cw_id ∧
      ns1.heap_top = ns.heap_top := by
  have hl := lookup_after_destroy ns cw hwf htr hmem
  rw [ha, ht, hm] at hl
  have hd := destroy_live ns cw hwf hmem
  have hpend : (call_work_destroy ns cw).cw_pending = ns.cw_pending.erase cw := by rw [hd]
  have hnext : (call_work_destroy ns cw).next_cw_id = ns.next_cw_id := by rw [hd]
  have htop : (call_work_destroy ns cw).heap_top = ns.heap_top := by rw [hd]
  cases hdec : connman_decode_call_error (some "service") (some target) "Connect" error with
  | none =>
    refine ⟨call_work_destroy ns cw,
      [] ++ [Effect.connect_event cb (some target) true none cw.request_user_data],
      true, none, ?_, ?_, ?_, ?_, ?_, hl, hpend, hnext, htop⟩
    · simp only [connect_service_callback, hc, ha, ht, hcb, hdec]
    · rfl
    · simp
    · intro _; rfl
    · intro e he; simp at he
  | some e =>
    obtain ⟨r, hr⟩ := get_property_internal_service bus target (some "Error")
    obtain ⟨x, fx⟩ := r
    have hfx : callbacks fx = [] := by
      rw [get_property_internal_effects _ _ _ _ x fx hr]
      exact callbacks_connman_get_properties _ _ _
    cases x with
    | ok v =>
      refine ⟨call_work_destroy ns cw,
        fx ++ (connman_call bus CONNMAN_AT_SERVICE (some target) "ClearProperty" none).2 ++
          [Effect.connect_event cb (some target) false (g_variant_get_string v)
            cw.request_user_data],
        false, g_variant_get_string v, ?_, ?_, ?_, ?_, ?_, hl, hpend, hnext, htop⟩
      · simp only [connect_service_callback, hc, ha, ht, hcb, hdec, hr]
      · unfold callbacks at hfx ⊢
        rw [List.filter_append, List.filter_append, hfx]
        have := callbacks_connman_call bus CONNMAN_AT_SERVICE (some target) "ClearProperty" none
        unfold callbacks at this
        rw [this]
        rfl
      · simp
      · intro h; simp at h
      · intro e1 _
        refine ⟨?_, ?_⟩
        · intro v1 fx1 h1
          rw [hr] at h1
          simp only [Option.some.injEq, Prod.mk.injEq, Except.ok.injEq] at h1
          rw [h1.1]
        · intro e2 fx1 h1
          rw [hr] at h1
          simp at h1
    | error e2 =>
      refine ⟨call_work_destroy ns cw,
        fx ++ [Effect.connect_event cb (some target) false (some e.message)
          cw.request_user_data],
        false, some e.message, ?_, ?_, ?_, ?_, ?_, hl, hpend, hnext, htop⟩
      · simp only [connect_service_callback, hc, ha, ht, hcb, hdec, hr]
      · unfold callbacks at hfx ⊢
        rw [List.filter_append, hfx]
        rfl
      · simp
      · intro h; simp at h
      · intro e1 he1
        simp only [Option.some.injEq] at he1
        subst he1
        refine ⟨?_, ?_⟩
        · intro v1 fx1 h1
          rw [hr] at h1
          simp at h1
        · intro e3 fx1 _
          rfl

/-- C9, witness: the failed Connect for `svc0` on the ledger `ns_connecting`, on a bus
where `svc0` carries the Error property `invalid-key`; the run itself is spelled out. -/
theorem C9_connect_completion_witness :
    (∃ ns1 effects status message,
      connect_service_callback bus_svc0 ns_connecting cw_svc0 none (some err_failed)
        = some (ns1, effects) ∧
      callbacks effects =
        [Effect.connect_event 7 (some "svc0") status message cw_svc0.request_user_data] ∧
      (status = true ↔
        connman_decode_call_error (some "service") (some "svc0") "Connect" (some err_failed)
          = none) ∧
      (connman_decode_call_error (some "service") (some "svc0") "Connect" (some err_failed)
          = none → message = none) ∧
      (∀ e, connman_decode_call_error (some "service") (some "svc0") "Connect"
          (some err_failed) = some e →
        (∀ v fx, connman_get_property_internal bus_svc0 CONNMAN_AT_SERVICE (some "svc0")
            (some "Error") = some (.ok v, fx) → message = g_variant_get_string v) ∧
        (∀ e2 fx, connman_get_property_internal bus_svc0 CONNMAN_AT_SERVICE (some "svc0")
            (some "Error") = some (.error e2, fx) → message = some e.message)) ∧
      call_work_lookup_unlocked ns1 (some "service") (some "svc0") (some "connect_service")
        = none ∧
      ns1.cw_pending = ns_connecting.cw_pending.erase cw_svc0 ∧
      ns1.next_cw_id = ns_connecting.next_cw_id ∧ ns1.heap_top = ns_connecting.heap_top) ∧
    connect_service_callback bus_svc0 ns_connecting cw_svc0 none (some err_failed) =
      some ({ next_cw_id := 2, cw_pending := [], heap_top := 2 },
        [Effect.call_sync "/" "net.connman.Manager" "GetServices" none,
         Effect.call_sync "/net/connman/service/svc0" "net.connman.Service" "ClearProperty"
           none,
         Effect.connect_event 7 (some "svc0") false (some "invalid-key") (some 9)]) :=
  ⟨C9_connect_completion bus_svc0 ns_connecting cw_svc0 "svc0" 7 none (some err_failed)
      (by decide) (by decide) (by decide) rfl rfl rfl rfl rfl,
   by decide⟩

/-- C10. For category technology or service, every target, every property name and every
indexed bulk reply of the bus: `connman_get_property_internal` returns the value of the
first (name, value) pair with that name inside the flat map of the first reply entry whose
path equals the object path of (category, target), and fails with
`CONNMAN_ERROR_BAD_PROPERTY` when no reply entry has that path and when that entry has no
pair with that name; the bulk fetch is the one call made. -/
theorem C10_get_named_indexed (bus : Bus) (access_type target name : String)
    (reply : List (String × List (String × Value)))
    (hcat : access_type = CONNMAN_AT_TECHNOLOGY ∨ access_type = CONNMAN_AT_SERVICE)
    (hbus : bus "/" "net.connman.Manager" (bulk_method access_type) none
      = .ok (.objects reply)) :
    connman_get_property_internal bus access_type (some target) (some name) =
      some (
        match spec_get_named_indexed ("/net/connman/" ++ access_type ++ "/" ++ target) name
            reply with
        | some v => .ok v
        | none => .error (connman_error .CONNMAN_ERROR_BAD_PROPERTY
            ("Bad property '" ++ name ++ "' on " ++ (access_type ++ "/" ++ target))),
        [Effect.call_sync "/" "net.connman.Manager" (bulk_method access_type) none]) := by
  rcases hcat with rfl | rfl
  · have hb : bulk_method CONNMAN_AT_TECHNOLOGY = "GetTechnologies" := by decide
    rw [hb] at hbus ⊢
    have hprops : connman_get_properties bus CONNMAN_AT_TECHNOLOGY (some target) =
        (.ok (.objects reply),
          [Effect.call_sync "/" "net.connman.Manager" "GetTechnologies" none]) := by
      have h1 : CONNMAN_AT_TECHNOLOGY ≠ CONNMAN_AT_MANAGER := by decide
      simp only [connman_get_properties, if_neg h1, if_true]
      exact connman_call_manager_ok bus _ _ _ _ hbus
    have h0 : g_strcmp0 (some CONNMAN_AT_TECHNOLOGY) (some CONNMAN_AT_MANAGER) ≠ 0 := by decide
    have h2 : g_strcmp0 (some CONNMAN_AT_TECHNOLOGY) (some CONNMAN_AT_TECHNOLOGY) = 0 := by
      decide
    have hpath : "/net/connman/" ++ CONNMAN_AT_TECHNOLOGY ++ "/" ++ target =
        "/net/connman/technology/" ++ target := by
      apply String.ext; simp only [String.data_append]; rfl
    simp only [connman_get_property_internal, hprops, if_neg h0, find_property, if_pos h2,
      Option.map_some', CONNMAN_TECHNOLOGY_PATH_eq, scan_objects_eq, hpath, fmt_s, fmt_target,
      Option.isSome_some, if_true, Option.getD_some]
    cases spec_get_named_indexed ("/net/connman/technology/" ++ target) name reply <;> rfl
  · have hb : bulk_method CONNMAN_AT_SERVICE = "GetServices" := by decide
    rw [hb] at hbus ⊢
    have hprops : connman_get_properties bus CONNMAN_AT_SERVICE (some target) =
        (.ok (.objects reply),
          [Effect.call_sync "/" "net.connman.Manager" "GetServices" none]) := by
      have h1 : CONNMAN_AT_SERVICE ≠ CONNMAN_AT_MANAGER := by decide
      have h3 : CONNMAN_AT_SERVICE ≠ CONNMAN_AT_TECHNOLOGY := by decide
      simp only [connman_get_properties, if_neg h1, if_neg h3, if_true]
      exact connman_call_manager_ok bus _ _ _ _ hbus
    have h0 : g_strcmp0 (some CONNMAN_AT_SERVICE) (some CONNMAN_AT_MANAGER) ≠ 0 := by decide
    have h4 : g_strcmp0 (some CONNMAN_AT_SERVICE) (some CONNMAN_AT_TECHNOLOGY) ≠ 0 := by
      decide
    have h2 : g_strcmp0 (some CONNMAN_AT_SERVICE) (some CONNMAN_AT_SERVICE) = 0 := by decide
    have hpath : "/net/connman/" ++ CONNMAN_AT_SERVICE ++ "/" ++ target =
        "/net/connman/service/" ++ target := by
      apply String.ext; simp only [String.data_append]; rfl
    simp only [connman_get_property_internal, hprops, if_neg h0, find_property, if_neg h4,
      if_pos h2, Option.map_some', CONNMAN_SERVICE_PATH_eq, scan_objects_eq, hpath, fmt_s,
      fmt_target, Option.isSome_some, if_true, Option.getD_some]
    cases spec_get_named_indexed ("/net/connman/service/" ++ target) name reply <;> rfl

/-- C10, witness: the property Error of service `svc0` on the bus `bus_svc0`, whose reply
lists another service first and carries two pairs named Error for `svc0`. -/
theorem C10_get_named_indexed_witness :
    connman_get_property_internal bus_svc0 "service" (some "svc0") (some "Error") =
      some (.ok (.string "invalid-key"),
        [Effect.call_sync "/" "net.connman.Manager" "GetServices" none]) :=
  C10_get_named_indexed bus_svc0 "service" "svc0" "Error" services_svc0 (Or.inr rfl)
    (by decide)

/-- C11. For category manager, every property name and every flat bulk reply of the bus:
`connman_get_property_internal` returns the value of the first pair in reply order whose
name equals the requested name, later pairs with that name being ignored, and fails with
`CONNMAN_ERROR_BAD_PROPERTY` when no pair has that name; the bulk fetch is the one call
made. -/
theorem C11_get_named_flat (bus : Bus) (type_arg : Option String) (name : String)
    (reply : List (String × Value))
    (hbus : bus "/" "net.connman.Manager" "GetProperties" none = .ok (.props reply)) :
    connman_get_property_internal bus CONNMAN_AT_MANAGER type_arg (some name) =
      some (
        match spec_get_named_flat name reply with
        | some v => .ok v
        | none => .error (connman_error .CONNMAN_ERROR_BAD_PROPERTY
            ("Bad property '" ++ name ++ "' on " ++ fmt_target CONNMAN_AT_MANAGER type_arg)),
        [Effect.call_sync "/" "net.connman.Manager" "GetProperties" none]) ∧
    (∀ before v after, reply = before ++ (name, v) :: after →
      (∀ pair ∈ before, pair.1 ≠ name) → spec_get_named_flat name reply = some v) ∧
    ((∀ pair ∈ reply, pair.1 ≠ name) → spec_get_named_flat name reply = none) := by
  refine ⟨?_, ?_, ?_⟩
  · have hprops : connman_get_properties bus CONNMAN_AT_MANAGER type_arg =
        (.ok (.props reply), [Effect.call_sync "/" "net.connman.Manager" "GetProperties" none]) := by
      simp only [connman_get_properties, if_true]
      exact connman_call_manager_ok bus _ _ _ _ hbus
    have h0 : g_strcmp0 (some CONNMAN_AT_MANAGER) (some CONNMAN_AT_MANAGER) = 0 := by decide
    simp only [connman_get_property_internal, hprops, if_pos h0, find_manager_property,
      scan_props_eq, fmt_s]
    unfold spec_get_named_flat
    cases (List.find? (fun pair => decide (pair.1 = name)) reply) <;> rfl
  · intro before v after hreply hbefore
    unfold spec_get_named_flat
    rw [hreply, List.find?_append]
    have hnone : List.find? (fun pair => decide (pair.1 = name)) before = none := by
      rw [List.find?_eq_none]
      intro x hx
      simpa using hbefore x hx
    rw [hnone]
    simp
  · intro hnone
    unfold spec_get_named_flat
    have : List.find? (fun pair => decide (pair.1 = name)) reply = none := by
      rw [List.find?_eq_none]
      intro x hx
      simpa using hnone x hx
    rw [this]
    rfl

/-- C11, witness: the property State on the bus `bus_sample`, whose reply carries two
pairs named State. -/
theorem C11_get_named_flat_witness :
    connman_get_property_internal bus_sample CONNMAN_AT_MANAGER none (some "State") =
      some (.ok (.string "online"),
        [Effect.call_sync "/" "net.connman.Manager" "GetProperties" none]) :=
  (C11_get_named_flat bus_sample none "State" props_sample (by decide)).1

/-- C19. For every path string, `connman_strip_path` returns what follows the last `/`
when the path contains a `/` and something follows the last one, and returns `NULL` exactly
when the path contains no `/` or ends with `/`; a basename returned is not empty and
contains no `/`.  The basename of `/net/connman/technology/wifi` is `wifi`, and `/` has
none. -/
theorem C19_strip_path (path : String) :
    (∀ before suf : List Char, path.data = before ++ '/' :: suf → '/' ∉ suf → suf ≠ [] →
      connman_strip_path path = some (String.mk suf)) ∧
    (connman_strip_path path = none ↔
      ('/' ∉ path.data ∨ path.data.getLast? = some '/')) ∧
    (∀ b, connman_strip_path path = some b → '/' ∉ b.data ∧ b.data ≠ []) ∧
    connman_strip_path "/net/connman/technology/wifi" = some "wifi" ∧
    connman_strip_path "/" = none := by
  refine ⟨?_, ?_, ?_, by decide, by decide⟩
  · intro before suf hpath hsuf hne
    unfold connman_strip_path
    rw [hpath, strrchr_append '/' suf hsuf before]
    cases suf with
    | nil => exact absurd rfl hne
    | cons c cs => rfl
  · unfold connman_strip_path
    cases h : strrchr path.data '/' with
    | none =>
      simp only [true_iff]
      exact Or.inl ((strrchr_none_iff _ _).mp h)
    | some tail =>
      obtain ⟨before, suf, h1, h2, h3⟩ := strrchr_some _ _ _ h
      subst h3
      have hmem : '/' ∈ path.data := by rw [h1]; simp
      cases suf with
      | nil =>
        simp only [List.drop_succ_cons, List.drop_zero, true_iff]
        right
        rw [h1]
        simp
      | cons c cs =>
        simp only [List.drop_succ_cons, List.drop_zero, reduceCtorEq, false_iff, not_or,
          not_not]
        refine ⟨hmem, ?_⟩
        rw [h1]
        intro hlast
        have hl : (before ++ '/' :: c :: cs).getLast? = (c :: cs).getLast? := by
          rw [List.getLast?_append, List.getLast?_cons_cons]
          have : ((c :: cs).getLast?).isSome = true := by simp
          obtain ⟨z, hz⟩ := Option.isSome_iff_exists.mp this
          rw [hz]; rfl
        rw [hl] at hlast
        have := List.mem_of_getLast?_eq_some hlast
        exact h2 this
  · intro b hb
    unfold connman_strip_path at hb
    cases h : strrchr path.data '/' with
    | none => rw [h] at hb; simp at hb
    | some tail =>
      rw [h] at hb
      obtain ⟨before, suf, _, h2, h3⟩ := strrchr_some _ _ _ h
      subst h3
      cases suf with
      | nil => simp at hb
      | cons c cs =>
        simp only [List.drop_succ_cons, List.drop_zero, Option.some.injEq] at hb
        subst hb
        exact ⟨h2, by simp⟩

/-- C19, witness: the path `/net/connman/service/svc0`, cut after its last `/`. -/
theorem C19_strip_path_witness :
    connman_strip_path "/net/connman/service/svc0" = some (String.mk "svc0".data) :=
  (C19_strip_path "/net/connman/service/svc0").1 "/net/connman/service".data "svc0".data
    (by decide) (by decide) (by decide)

/-- C20. `connman_call` and `connman_call_async` resolve every (category, target) alike
and reject the same inputs with the same error: manager goes to path `/` with interface
`net.connman.Manager`, technology to `/net/connman/technology/` followed by the whole
target with interface `net.connman.Technology`, service to `/net/connman/service/` followed
by the whole target with interface `net.connman.Service` (`spec_resolve`); a technology or
service without target fails with MissingArgument, any other category with
IllegalArgument, in both gateways without a transport call. -/
theorem C20_gateways_resolve_alike (bus : Bus) (ns : connman_state) (category : String)
    (target : Option String) (method : String) (params : Option GVariant)
    (callback : AsyncCallback) (user_data : Nat) :
    match spec_resolve category target with
    | .ok (path, interface) =>
      (connman_call bus category target method params).2 =
        [Effect.call_sync path interface method params] ∧
      connman_call_async ns category target method params callback user_data =
        ({ ns with heap_top := ns.heap_top + 1 }, .ok ns.heap_top,
          [Effect.call_async path interface method params callback user_data ns.heap_top])
    | .error kind =>
      ∃ e, connman_call bus category target method params = (.error e, []) ∧
        connman_call_async ns category target method params callback user_data =
          (ns, .error e, []) ∧
        e.domain = GQuark.CONNMAN_ERROR ∧ e.code = kind.code := by
  cases h : spec_resolve category target with
  | ok r =>
    obtain ⟨path, interface⟩ := r
    exact ⟨(connman_call_of_resolve bus category target method params path interface h).1,
      connman_call_async_of_resolve ns category target method params callback user_data
        path interface h⟩
  | error kind =>
    exact gateways_of_reject bus ns category target method params callback user_data kind h

/-- C12. `connman_set_property_internal` returns failure without a transport call (and
without setting an error) whenever category, target, name or value is absent; with all
four present and a category that resolves it issues one synchronous SetProperty call
with payload (name, value) on the object resolved from (category, target), and returns
success exactly when the bus returns a reply to that call. -/
theorem C12_set_named (bus : Bus) (access_type type_arg name : Option String)
    (value : Option Value) :
    ((access_type = none ∨ type_arg = none ∨ name = none ∨ value = none) →
      connman_set_property_internal bus access_type type_arg name value = (false, none, [])) ∧
    (∀ a t n v path interface, access_type = some a → type_arg = some t → name = some n →
      value = some v → spec_resolve a (some t) = .ok (path, interface) →
      (connman_set_property_internal bus access_type type_arg name value).2.2 =
        [Effect.call_sync path interface "SetProperty" (some (.name_value n v))] ∧
      ((connman_set_property_internal bus access_type type_arg name value).1 = true ↔
        ∃ reply, bus path interface "SetProperty" (some (.name_value n v)) = .ok reply)) := by
  constructor
  · intro h
    unfold connman_set_property_internal
    rcases access_type with _ | a <;> rcases type_arg with _ | t <;> rcases name with _ | n <;>
      rcases value with _ | v <;> first | rfl | simp at h
  · intro a t n v path interface ha ht hn hv hres
    subst ha ht hn hv
    obtain ⟨heff, hok, herr⟩ := connman_call_of_resolve bus a (some t) "SetProperty"
      (some (.name_value n v)) path interface hres
    unfold connman_set_property_internal
    simp only
    cases hc : connman_call bus a (some t) "SetProperty" (some (GVariant.name_value n v)) with
    | mk res effects =>
      rw [hc] at heff hok herr
      simp only at heff hok herr
      cases res with
      | ok reply =>
        refine ⟨heff, ?_⟩
        simp only [true_iff]
        cases hb : bus path interface "SetProperty" (some (GVariant.name_value n v)) with
        | ok r => exact ⟨r, rfl⟩
        | error e =>
          obtain ⟨e1, he1⟩ := herr e hb
          simp at he1
      | error e =>
        refine ⟨heff, ?_⟩
        simp only [Bool.false_eq_true, false_iff, not_exists]
        intro r hr
        have := hok r hr
        simp at this

/-- C12, witness: the SetProperty of Powered on technology `wifi` on the bus `bus_sample`,
and a call without target. -/
theorem C12_set_named_witness :
    connman_set_property_internal bus_sample (some "technology") none (some "Powered")
        (some (.boolean true)) = (false, none, []) ∧
    (connman_set_property_internal bus_sample (some "technology") (some "wifi")
        (some "Powered") (some (.boolean true))).2.2 =
      [Effect.call_sync "/net/connman/technology/wifi" "net.connman.Technology" "SetProperty"
        (some (.name_value "Powered" (.boolean true)))] ∧
    ((connman_set_property_internal bus_sample (some "technology") (some "wifi")
        (some "Powered") (some (.boolean true))).1 = true ↔
      ∃ reply, bus_sample "/net/connman/technology/wifi" "net.connman.Technology"
        "SetProperty" (some (.name_value "Powered" (.boolean true))) = .ok reply) :=
  ⟨(C12_set_named bus_sample (some "technology") none (some "Powered")
      (some (.boolean true))).1 (Or.inr (Or.inl rfl)),
   (C12_set_named bus_sample (some "technology") (some "wifi") (some "Powered")
      (some (.boolean true))).2 "technology" "wifi" "Powered" (.boolean true)
      "/net/connman/technology/wifi" "net.connman.Technology" rfl rfl rfl rfl (by decide)⟩

/-- C13 (amended). For a ServicesChanged(changed, removed) signal accepted on the manager
channel, with the basenames that `g_assert` demands: every manager subscriber is invoked
once per changed entry whose properties map is not empty, with ServiceChange(basename(path),
properties), a changed entry with an empty properties map being skipped, and once per
removed path with ServiceRemove(basename(path), null); the changed entries come in payload
order, before the removed paths in payload order. -/
theorem C13_services_changed (callbacks : callback_list_t)
    (changed : List (String × List (String × Value))) (removed : List String)
    (base : String → String)
    (hchanged : ∀ e ∈ changed, e.2 ≠ [] → connman_strip_path e.1 = some (base e.1))
    (hremoved : ∀ p ∈ removed, connman_strip_path p = some (base p)) :
    connman_manager_signal_callback callbacks (some "/") (some "net.connman.Manager")
        (some "ServicesChanged") (.services_changed changed removed) =
      some ((changed.filter (fun e => !e.2.isEmpty)).flatMap (fun e =>
          spec_emit_manager (subscribers callbacks) (base e.1)
            .CONNMAN_MANAGER_EVENT_SERVICE_CHANGE (some (.dict e.2))) ++
        removed.flatMap (fun p =>
          spec_emit_manager (subscribers callbacks) (base p)
            .CONNMAN_MANAGER_EVENT_SERVICE_REMOVE none)) := by
  have h1 : g_strcmp0 (some "/") (some "/") = 0 := by decide
  have h2 : g_strcmp0 (some "net.connman.Manager") (some "net.connman.Manager") = 0 := by
    decide
  have h3 : ¬ g_strcmp0 (some "ServicesChanged") (some "TechnologyAdded") = 0 := by decide
  have h4 : ¬ g_strcmp0 (some "ServicesChanged") (some "TechnologyRemoved") = 0 := by decide
  have h5 : g_strcmp0 (some "ServicesChanged") (some "ServicesChanged") = 0 := by decide
  simp only [connman_manager_signal_callback, h1, h2, and_self, not_true_eq_false, if_false,
    if_neg h3, if_neg h4, if_pos h5, services_changed_loop_eq callbacks base changed hchanged,
    services_removed_loop_eq callbacks base removed hremoved]

/-- C13, witness: one changed service with a property, one changed service with an empty
map, one removed service, on the list `callbacks_sample`. -/
theorem C13_services_changed_witness :
    connman_manager_signal_callback callbacks_sample (some "/") (some "net.connman.Manager")
        (some "ServicesChanged")
        (.services_changed [("/net/connman/service/a", [("State", .string "ready")]),
                            ("/net/connman/service/b", [])]
          ["/net/connman/service/c"]) =
      some [
        .manager_event 1 "a" .CONNMAN_MANAGER_EVENT_SERVICE_CHANGE
          (some (.dict [("State", .string "ready")])) (some 10),
        .manager_event 2 "a" .CONNMAN_MANAGER_EVENT_SERVICE_CHANGE
          (some (.dict [("State", .string "ready")])) none,
        .manager_event 1 "a" .CONNMAN_MANAGER_EVENT_SERVICE_CHANGE
          (some (.dict [("State", .string "ready")])) (some 11),
        .manager_event 1 "c" .CONNMAN_MANAGER_EVENT_SERVICE_REMOVE none (some 10),
        .manager_event 2 "c" .CONNMAN_MANAGER_EVENT_SERVICE_REMOVE none none,
        .manager_event 1 "c" .CONNMAN_MANAGER_EVENT_SERVICE_REMOVE none (some 11)] :=
  C13_services_changed callbacks_sample
    [("/net/connman/service/a", [("State", .string "ready")]), ("/net/connman/service/b", [])]
    ["/net/connman/service/c"] (fun p => (connman_strip_path p).getD "")
    (by decide) (by decide)

/-- C13, counterexample to the claim as stated: a changed entry with an empty properties
map reaches no subscriber; the one subscriber is not invoked for service `svc0`. -/
theorem C13_empty_properties_counterexample :
    connman_manager_signal_callback [{ callback := some 1, user_data := none }] (some "/")
        (some "net.connman.Manager") (some "ServicesChanged")
        (.services_changed [("/net/connman/service/svc0", [])] []) = some [] := by
  decide

/-- C14. On the manager channel, a signal whose object path is not `/` or whose interface
is not `net.connman.Manager` reaches no subscriber, whatever its name and payload; for an
accepted signal, TechnologyAdded(path, properties) emits TechnologyAdd(basename(path),
properties), TechnologyRemoved(path) emits TechnologyRemove(basename(path), null),
PropertyChanged(key, value) emits PropertyChange(key, value), each to every subscriber in
list order, and a signal of any other name emits nothing. -/
theorem C14_manager_channel (callbacks : callback_list_t)
    (object_path interface_name signal_name : Option String) (parameters : GVariant) :
    (¬ (object_path = some "/" ∧ interface_name = some "net.connman.Manager") →
      connman_manager_signal_callback callbacks object_path interface_name signal_name
        parameters = some []) ∧
    (∀ path props b, connman_strip_path path = some b →
      connman_manager_signal_callback callbacks (some "/") (some "net.connman.Manager")
          (some "TechnologyAdded") (.path_dict path props) =
        some (spec_emit_manager (subscribers callbacks) b
          .CONNMAN_MANAGER_EVENT_TECHNOLOGY_ADD (some (.dict props)))) ∧
    (∀ path b, connman_strip_path path = some b →
      connman_manager_signal_callback callbacks (some "/") (some "net.connman.Manager")
          (some "TechnologyRemoved") (.object_path path) =
        some (spec_emit_manager (subscribers callbacks) b
          .CONNMAN_MANAGER_EVENT_TECHNOLOGY_REMOVE none)) ∧
    (∀ key value,
      connman_manager_signal_callback callbacks (some "/") (some "net.connman.Manager")
          (some "PropertyChanged") (.name_value key value) =
        some (spec_emit_manager (subscribers callbacks) key
          .CONNMAN_MANAGER_EVENT_PROPERTY_CHANGE (some (.value value)))) ∧
    (signal_name ≠ some "TechnologyAdded" → signal_name ≠ some "TechnologyRemoved" →
      signal_name ≠ some "ServicesChanged" → signal_name ≠ some "PropertyChanged" →
      connman_manager_signal_callback callbacks (some "/") (some "net.connman.Manager")
        signal_name parameters = some []) := by
  have h1 : g_strcmp0 (some "/") (some "/") = 0 := by decide
  have h2 : g_strcmp0 (some "net.connman.Manager") (some "net.connman.Manager") = 0 := by
    decide
  refine ⟨?_, ?_, ?_, ?_, ?_⟩
  · intro h
    have hc : ¬ (g_strcmp0 object_path (some "/") = 0 ∧
        g_strcmp0 interface_name (some "net.connman.Manager") = 0) := by
      rw [g_strcmp0_eq_zero, g_strcmp0_eq_zero]; exact h
    unfold connman_manager_signal_callback
    rw [if_pos hc]
  · intro path props b hb
    have h3 : g_strcmp0 (some "TechnologyAdded") (some "TechnologyAdded") = 0 := by decide
    simp only [connman_manager_signal_callback, h1, h2, and_self, not_true_eq_false, if_false,
      if_pos h3, hb, run_manager_callbacks_eq]
  · intro path b hb
    have h3 : ¬ g_strcmp0 (some "TechnologyRemoved") (some "TechnologyAdded") = 0 := by decide
    have h4 : g_strcmp0 (some "TechnologyRemoved") (some "TechnologyRemoved") = 0 := by decide
    simp only [connman_manager_signal_callback, h1, h2, and_self, not_true_eq_false, if_false,
      if_neg h3, if_pos h4, hb, run_manager_callbacks_eq]
  · intro key value
    have h3 : ¬ g_strcmp0 (some "PropertyChanged") (some "TechnologyAdded") = 0 := by decide
    have h4 : ¬ g_strcmp0 (some "PropertyChanged") (some "TechnologyRemoved") = 0 := by decide
    have h5 : ¬ g_strcmp0 (some "PropertyChanged") (some "ServicesChanged") = 0 := by decide
    have h6 : g_strcmp0 (some "PropertyChanged") (some "PropertyChanged") = 0 := by decide
    simp only [connman_manager_signal_callback, h1, h2, and_self, not_true_eq_false, if_false,
      if_neg h3, if_neg h4, if_neg h5, if_pos h6, run_manager_callbacks_eq]
  · intro n1 n2 n3 n4
    have e1 : ¬ g_strcmp0 signal_name (some "TechnologyAdded") = 0 := by
      rw [g_strcmp0_eq_zero]; exact n1
    have e2 : ¬ g_strcmp0 signal_name (some "TechnologyRemoved") = 0 := by
      rw [g_strcmp0_eq_zero]; exact n2
    have e3 : ¬ g_strcmp0 signal_name (some "ServicesChanged") = 0 := by
      rw [g_strcmp0_eq_zero]; exact n3
    have e4 : ¬ g_strcmp0 signal_name (some "PropertyChanged") = 0 := by
      rw [g_strcmp0_eq_zero]; exact n4
    simp only [connman_manager_signal_callback, h1, h2, and_self, not_true_eq_false, if_false,
      if_neg e1, if_neg e2, if_neg e3, if_neg e4]

/-- C14, witness: a TechnologyAdded for `wifi` on the list `callbacks_sample`, the same
signal under the interface `net.connman.Technology`, and a signal named Other. -/
theorem C14_manager_channel_witness :
    connman_manager_signal_callback callbacks_sample (some "/") (some "net.connman.Manager")
        (some "TechnologyAdded")
        (.path_dict "/net/connman/technology/wifi" [("Powered", .boolean true)]) =
      some (spec_emit_manager (subscribers callbacks_sample) "wifi"
        .CONNMAN_MANAGER_EVENT_TECHNOLOGY_ADD (some (.dict [("Powered", .boolean true)]))) ∧
    connman_manager_signal_callback callbacks_sample (some "/")
        (some "net.connman.Technology") (some "TechnologyAdded")
        (.path_dict "/net/connman/technology/wifi" [("Powered", .boolean true)]) = some [] ∧
    connman_manager_signal_callback callbacks_sample (some "/") (some "net.connman.Manager")
        (some "Other") .unit = some [] :=
  ⟨(C14_manager_channel callbacks_sample none none none .unit).2.1
      "/net/connman/technology/wifi" [("Powered", .boolean true)] "wifi" (by decide),
   (C14_manager_channel callbacks_sample (some "/") (some "net.connman.Technology")
      (some "TechnologyAdded")
      (.path_dict "/net/connman/technology/wifi" [("Powered", .boolean true)])).1 (by decide),
   (C14_manager_channel callbacks_sample none none (some "Other") .unit).2.2.2.2
      (by decide) (by decide) (by decide) (by decide)⟩

/-- C15. On the technology channel, a signal whose object path starts with
`/net/connman/technology/` and has a basename, whose interface is `net.connman.Technology`
and whose name is PropertyChanged reaches every technology subscriber once, in list order,
with (basename(object path), payload); a signal whose path or interface does not match
reaches no subscriber, and neither does a signal of another name (the handler returns, or
stops at `g_assert(basename)`).  The service channel does the same with the prefix
`/net/connman/service/`, the interface `net.connman.Service` and the service subscribers. -/
theorem C15_property_channels (connman_technology_callbacks : callback_list_t)
    (connman_service_callbacks : callback_list_t)
    (object_path interface_name signal_name : Option String) (parameters : GVariant) :
    ((∀ path b, object_path = some path →
        "/net/connman/technology/".data <+: path.data → connman_strip_path path = some b →
        interface_name = some "net.connman.Technology" →
        signal_name = some "PropertyChanged" →
        connman_technology_signal_callback connman_technology_callbacks object_path
            interface_name signal_name parameters =
          some (spec_emit_technology (subscribers connman_technology_callbacks) b
            parameters)) ∧
      (¬ ((∃ path, object_path = some path ∧
            "/net/connman/technology/".data <+: path.data) ∧
          interface_name = some "net.connman.Technology") →
        connman_technology_signal_callback connman_technology_callbacks object_path
          interface_name signal_name parameters = some []) ∧
      (signal_name ≠ some "PropertyChanged" →
        connman_technology_signal_callback connman_technology_callbacks object_path
            interface_name signal_name parameters = some [] ∨
          connman_technology_signal_callback connman_technology_callbacks object_path
            interface_name signal_name parameters = none)) ∧
    ((∀ path b, object_path = some path →
        "/net/connman/service/".data <+: path.data → connman_strip_path path = some b →
        interface_name = some "net.connman.Service" →
        signal_name = some "PropertyChanged" →
        connman_service_signal_callback connman_service_callbacks object_path
            interface_name signal_name parameters =
          some (spec_emit_service (subscribers connman_service_callbacks) b parameters)) ∧
      (¬ ((∃ path, object_path = some path ∧ "/net/connman/service/".data <+: path.data) ∧
          interface_name = some "net.connman.Service") →
        connman_service_signal_callback connman_service_callbacks object_path
          interface_name signal_name parameters = some []) ∧
      (signal_name ≠ some "PropertyChanged" →
        connman_service_signal_callback connman_service_callbacks object_path
            interface_name signal_name parameters = some [] ∨
          connman_service_signal_callback connman_service_callbacks object_path
            interface_name signal_name parameters = none)) := by
  have hpc : g_strcmp0 (some "PropertyChanged") (some "PropertyChanged") = 0 := by decide
  refine ⟨⟨?_, ?_, ?_⟩, ⟨?_, ?_, ?_⟩⟩
  · intro path b hp hpre hb hi hs
    subst hp hi hs
    have hc : ¬ ¬ ( g_str_has_prefix (some path) "/net/connman/technology/" = true ∧
        g_strcmp0 (some "net.connman.Technology") (some "net.connman.Technology") = 0) := by
      rw [not_not, has_prefix_iff, g_strcmp0_eq_zero]
      exact ⟨⟨path, rfl, hpre⟩, rfl⟩
    simp only [connman_technology_signal_callback, if_neg hc, Option.some_bind, hb,
      if_pos hpc, run_property_callbacks_technology]
  · intro h
    have hc : ¬ ( g_str_has_prefix object_path "/net/connman/technology/" = true ∧
        g_strcmp0 interface_name (some "net.connman.Technology") = 0) := by
      rw [has_prefix_iff, g_strcmp0_eq_zero]; exact h
    unfold connman_technology_signal_callback
    rw [if_pos hc]
  · intro hs
    have hn : ¬ g_strcmp0 signal_name (some "PropertyChanged") = 0 := by
      rw [g_strcmp0_eq_zero]; exact hs
    unfold connman_technology_signal_callback
    by_cases hc : ¬ ( g_str_has_prefix object_path "/net/connman/technology/" = true ∧
        g_strcmp0 interface_name (some "net.connman.Technology") = 0)
    · rw [if_pos hc]; exact Or.inl rfl
    · rw [if_neg hc]
      cases object_path.bind connman_strip_path with
      | none => exact Or.inr rfl
      | some b =>
        left
        show (if g_strcmp0 signal_name (some "PropertyChanged") = 0 then _ else _) = _
        rw [if_neg hn]
  · intro path b hp hpre hb hi hs
    subst hp hi hs
    have hc : ¬ ¬ ( g_str_has_prefix (some path) "/net/connman/service/" = true ∧
        g_strcmp0 (some "net.connman.Service") (some "net.connman.Service") = 0) := by
      rw [not_not, has_prefix_iff, g_strcmp0_eq_zero]
      exact ⟨⟨path, rfl, hpre⟩, rfl⟩
    simp only [connman_service_signal_callback, if_neg hc, Option.some_bind, hb,
      if_pos hpc, run_property_callbacks_service]
  · intro h
    have hc : ¬ ( g_str_has_prefix object_path "/net/connman/service/" = true ∧
        g_strcmp0 interface_name (some "net.connman.Service") = 0) := by
      rw [has_prefix_iff, g_strcmp0_eq_zero]; exact h
    unfold connman_service_signal_callback
    rw [if_pos hc]
  · intro hs
    have hn : ¬ g_strcmp0 signal_name (some "PropertyChanged") = 0 := by
      rw [g_strcmp0_eq_zero]; exact hs
    unfold connman_service_signal_callback
    by_cases hc : ¬ ( g_str_has_prefix object_path "/net/connman/service/" = true ∧
        g_strcmp0 interface_name (some "net.connman.Service") = 0)
    · rw [if_pos hc]; exact Or.inl rfl
    · rw [if_neg hc]
      cases object_path.bind connman_strip_path with
      | none => exact Or.inr rfl
      | some b =>
        left
        show (if g_strcmp0 signal_name (some "PropertyChanged") = 0 then _ else _) = _
        rw [if_neg hn]

/-- C15, witness: a PropertyChanged for technology `wifi` on the list `callbacks_sample`,
the same signal on the service channel (no match), and a PropertyChanged for service
`svc0`. -/
theorem C15_property_channels_witness :
    connman_technology_signal_callback callbacks_sample
        (some "/net/connman/technology/wifi") (some "net.connman.Technology")
        (some "PropertyChanged") (.name_value "Powered" (.boolean true)) =
      some (spec_emit_technology (subscribers callbacks_sample) "wifi"
        (.name_value "Powered" (.boolean true))) ∧
    connman_service_signal_callback callbacks_sample
        (some "/net/connman/technology/wifi") (some "net.connman.Technology")
        (some "PropertyChanged") (.name_value "Powered" (.boolean true)) = some [] ∧
    connman_service_signal_callback callbacks_sample
        (some "/net/connman/service/svc0") (some "net.connman.Service")
        (some "PropertyChanged") (.name_value "State" (.string "ready")) =
      some (spec_emit_service (subscribers callbacks_sample) "svc0"
        (.name_value "State" (.string "ready"))) :=
  ⟨(C15_property_channels callbacks_sample callbacks_sample
      (some "/net/connman/technology/wifi") (some "net.connman.Technology")
      (some "PropertyChanged") (.name_value "Powered" (.boolean true))).1.1
      "/net/connman/technology/wifi" "wifi" rfl (by decide) (by decide) rfl rfl,
   (C15_property_channels callbacks_sample callbacks_sample
      (some "/net/connman/technology/wifi") (some "net.connman.Technology")
      (some "PropertyChanged") (.name_value "Powered" (.boolean true))).2.2.1 (by decide),
   (C15_property_channels callbacks_sample callbacks_sample
      (some "/net/connman/service/svc0") (some "net.connman.Service")
      (some "PropertyChanged") (.name_value "State" (.string "ready"))).2.1
      "/net/connman/service/svc0" "svc0" rfl (by decide) (by decide) rfl rfl⟩

/-- C16. For every callback list: `callback_add` puts the (callback, context) pair at the
end and suppresses no duplicate; a dispatch invokes every entry with a callback once, in
list order, each with its own context, so that a callback registered twice is invoked
twice; `callback_remove` removes one entry, the first whose callback pointer equals the
argument, and leaves the others and their order as they were, so that after two
registrations and one removal one registration remains. -/
theorem C16_callback_lists (l : callback_list_t) (cb user_data : Option Nat) :
    callback_add l cb user_data = l ++ [{ callback := cb, user_data := user_data }] ∧
    (∀ c, subscribers (callback_add l (some c) user_data) =
      subscribers l ++ [(c, user_data)]) ∧
    ((∀ e ∈ l, e.callback ≠ none) →
      (subscribers l).map (fun sub => (some sub.1, sub.2)) =
        l.map (fun e => (e.callback, e.user_data))) ∧
    (∀ path event properties,
      run_manager_callbacks l (some path) event properties =
        (subscribers l).map (fun sub =>
          Effect.manager_event sub.1 path event properties sub.2)) ∧
    (∀ object properties,
      run_property_callbacks l object properties true =
        (subscribers l).map (fun sub =>
          Effect.technology_property_event sub.1 object properties sub.2) ∧
      run_property_callbacks l object properties false =
        (subscribers l).map (fun sub =>
          Effect.service_property_event sub.1 object properties sub.2)) ∧
    (∀ c path event properties,
      run_manager_callbacks (callback_add (callback_add [] (some c) user_data) (some c)
          user_data) (some path) event properties =
        [Effect.manager_event c path event properties user_data,
         Effect.manager_event c path event properties user_data]) ∧
    (∀ before e after, l = before ++ e :: after → e.callback = cb →
      (∀ x ∈ before, x.callback ≠ cb) → callback_remove l cb = before ++ after) ∧
    ((∀ x ∈ l, x.callback ≠ cb) → callback_remove l cb = l) ∧
    ((∀ x ∈ l, x.callback ≠ cb) →
      callback_remove (callback_add (callback_add l cb user_data) cb user_data) cb =
        callback_add l cb user_data) := by
  refine ⟨rfl, ?_, ?_, ?_, ?_, ?_, ?_, ?_, ?_⟩
  · intro c
    unfold callback_add
    rw [subscribers_append]
    rfl
  · intro h
    induction l with
    | nil => rfl
    | cons x xs ih =>
      have hx := h x (List.mem_cons_self _ _)
      obtain ⟨c, hc⟩ := Option.ne_none_iff_exists'.mp hx
      have ih1 := ih (fun e he => h e (List.mem_cons_of_mem _ he))
      unfold subscribers at ih1 ⊢
      simp only [List.filterMap_cons, hc, Option.map_some', List.map_cons, ih1]
  · intro path event properties
    exact run_manager_callbacks_eq l path event properties
  · intro object properties
    exact ⟨run_property_callbacks_technology l object properties,
      run_property_callbacks_service l object properties⟩
  · intro c path event properties
    rfl
  · intro before e after hl he hbefore
    rw [hl]
    exact callback_remove_first cb before e after he hbefore
  · intro h
    unfold callback_remove
    rw [callback_remove_find_none cb l h]
  · intro h
    unfold callback_add
    rw [List.append_assoc]
    exact callback_remove_first cb l _ _ rfl h

/-- C16, witness: the removal of callback 1 from `callbacks_sample`, where it is registered
first and third, and of callback 7, which is not registered. -/
theorem C16_callback_lists_witness :
    callback_remove callbacks_sample (some 1) =
      [{ callback := some 2, user_data := none },
       { callback := some 1, user_data := some 11 }] ∧
    callback_remove callbacks_sample (some 7) = callbacks_sample ∧
    (subscribers callbacks_sample).map (fun sub => (some sub.1, sub.2)) =
      callbacks_sample.map (fun e => (e.callback, e.user_data)) :=
  ⟨(C16_callback_lists callbacks_sample (some 1) none).2.2.2.2.2.2.1 []
      { callback := some 1, user_data := some 10 }
      [{ callback := some 2, user_data := none },
       { callback := some 1, user_data := some 11 }] rfl rfl (by decide),
   (C16_callback_lists callbacks_sample (some 7) none).2.2.2.2.2.2.2.1 (by decide),
   (C16_callback_lists callbacks_sample none none).2.2.1 (by decide)⟩

/-- C17 (amended). The agent event category has one callback slot, not a list: on an
empty slot the first subscription stores its callback and context, a second subscription,
with the same or with another callback, is refused and changes nothing, and one
RequestInput with a matching ledger entry then produces one callback invocation, of the
callback registered first. -/
theorem C17_agent_single_slot (ag : agent_event_state) (cb1 cb2 : Nat) (d1 d2 : Option Nat)
    (ns : connman_state) (path : String) (fields : List (String × Value)) (invocation : Nat)
    (cw : call_work) (hempty : ag.agent_event_cb = none)
    (hl : call_work_lookup_unlocked ns (some "service") (connman_strip_path path)
      (some "connect_service") = some cw) :
    connman_add_agent_event_callback ag (some cb1) d1 =
      { agent_event_cb := some cb1, agent_event_cb_data := d1 } ∧
    connman_add_agent_event_callback
        (connman_add_agent_event_callback ag (some cb1) d1) (some cb2) d2 =
      { agent_event_cb := some cb1, agent_event_cb_data := d1 } ∧
    ∃ ns1, handle_method_call
        (connman_add_agent_event_callback
          (connman_add_agent_event_callback ag (some cb1) d1) (some cb2) d2)
        ns (some "RequestInput") (.path_dict path fields) invocation =
      some (ns1, [Effect.agent_event cb1 (connman_strip_path path) cw.id (.dict fields) d1]) := by
  have h1 : connman_add_agent_event_callback ag (some cb1) d1 =
      { agent_event_cb := some cb1, agent_event_cb_data := d1 } := by
    unfold connman_add_agent_event_callback
    rw [if_pos hempty]
  have h2 : connman_add_agent_event_callback
      { agent_event_cb := some cb1, agent_event_cb_data := d1 } (some cb2) d2 =
      { agent_event_cb := some cb1, agent_event_cb_data := d1 } := by
    unfold connman_add_agent_event_callback
    simp
  have hm : g_strcmp0 (some "RequestInput") (some "RequestInput") = 0 := by decide
  refine ⟨h1, by rw [h1, h2], ?_⟩
  rw [h1, h2]
  simp only [handle_method_call, hm, if_true, hl, run_callback]
  exact ⟨_, rfl⟩

/-- C17, witness: callbacks 3 and 8 subscribed in turn to the empty slot, and a
RequestInput for `svc0` on the ledger `ns_connecting`. -/
theorem C17_agent_single_slot_witness :
    connman_add_agent_event_callback { agent_event_cb := none, agent_event_cb_data := none }
        (some 3) (some 4) = { agent_event_cb := some 3, agent_event_cb_data := some 4 } ∧
    connman_add_agent_event_callback
        (connman_add_agent_event_callback
          { agent_event_cb := none, agent_event_cb_data := none } (some 3) (some 4))
        (some 8) (some 9) = { agent_event_cb := some 3, agent_event_cb_data := some 4 } ∧
    ∃ ns1, handle_method_call
        (connman_add_agent_event_callback
          (connman_add_agent_event_callback
            { agent_event_cb := none, agent_event_cb_data := none } (some 3) (some 4))
          (some 8) (some 9))
        ns_connecting (some "RequestInput")
        (.path_dict "/net/connman/service/svc0" []) 5 =
      some (ns1, [Effect.agent_event 3 (connman_strip_path "/net/connman/service/svc0")
        cw_svc0.id (.dict []) (some 4)]) :=
  C17_agent_single_slot { agent_event_cb := none, agent_event_cb_data := none } 3 8 (some 4)
    (some 9) ns_connecting "/net/connman/service/svc0" [] 5 cw_svc0 rfl (by decide)

/-- C17, counterexample to the claim as stated: after two subscriptions (callbacks 3 and
8) the slot holds callback 3 alone, and a RequestInput for `svc0` with a matching entry
produces one invocation, not two. -/
theorem C17_two_subscriptions_counterexample :
    connman_add_agent_event_callback
        (connman_add_agent_event_callback
          { agent_event_cb := none, agent_event_cb_data := none } (some 3) (some 4))
        (some 8) (some 9) = { agent_event_cb := some 3, agent_event_cb_data := some 4 } ∧
    handle_method_call
        (connman_add_agent_event_callback
          (connman_add_agent_event_callback
            { agent_event_cb := none, agent_event_cb_data := none } (some 3) (some 4))
          (some 8) (some 9))
        ns_connecting (some "RequestInput")
        (.path_dict "/net/connman/service/svc0" []) 5 =
      some (ns_asked, [Effect.agent_event 3 (some "svc0") 1 (.dict []) (some 4)]) := by
  decide

/-- C18. For a technology name whose current Powered value can be read from the bulk
technology reply, `connman_technology_enable` (requested value true) and
`connman_technology_disable` (requested value false) issue no SetProperty call and return
success when the boolean that the reply carries equals the requested one, and otherwise
issue one SetProperty call, for property Powered with the requested value on the object of
that technology, returning success exactly when the bus replies; a value of another type is
read as `FALSE`; when the current value cannot be read they issue no SetProperty call and
return failure. -/
theorem C18_technology_set_powered (bus : Bus) (name : String) (powered : Bool) :
    (connman_technology_enable bus (some name) =
        connman_technology_set_powered bus (some name) true ∧
      connman_technology_disable bus (some name) =
        connman_technology_set_powered bus (some name) false) ∧
    (∀ (current : Bool) fx, connman_get_property_internal bus CONNMAN_AT_TECHNOLOGY
        (some name) (some "Powered") = some (.ok (.boolean current), fx) →
      set_property_calls fx = [] ∧
      (current = powered →
        connman_technology_set_powered bus (some name) powered = some (true, fx)) ∧
      (current ≠ powered →
        ∃ r, connman_technology_set_powered bus (some name) powered =
            some (r, fx ++ [Effect.call_sync ("/net/connman/technology/" ++ name)
              "net.connman.Technology" "SetProperty"
              (some (.name_value "Powered" (.boolean powered)))]) ∧
          (r = true ↔ ∃ reply, bus ("/net/connman/technology/" ++ name)
            "net.connman.Technology" "SetProperty"
            (some (.name_value "Powered" (.boolean powered))) = .ok reply))) ∧
    (∀ v fx, connman_get_property_internal bus CONNMAN_AT_TECHNOLOGY (some name)
        (some "Powered") = some (.ok v, fx) → (∀ b, v ≠ .boolean b) →
      set_property_calls fx = [] ∧
      (powered = false →
        connman_technology_set_powered bus (some name) powered = some (true, fx)) ∧
      (powered = true →
        ∃ r, connman_technology_set_powered bus (some name) powered =
            some (r, fx ++ [Effect.call_sync ("/net/connman/technology/" ++ name)
              "net.connman.Technology" "SetProperty"
              (some (.name_value "Powered" (.boolean powered)))]) ∧
          (r = true ↔ ∃ reply, bus ("/net/connman/technology/" ++ name)
            "net.connman.Technology" "SetProperty"
            (some (.name_value "Powered" (.boolean powered))) = .ok reply))) ∧
    (∀ e fx, connman_get_property_internal bus CONNMAN_AT_TECHNOLOGY (some name)
        (some "Powered") = some (.error e, fx) →
      set_property_calls fx = [] ∧
      connman_technology_set_powered bus (some name) powered = some (false, fx)) := by
  have hcalls : ∀ (r : Except GError Value) fx,
      connman_get_property_internal bus CONNMAN_AT_TECHNOLOGY (some name)
        (some "Powered") = some (r, fx) → set_property_calls fx = [] := by
    intro r fx hget
    rw [get_property_internal_effects _ _ _ _ _ fx hget]
    exact set_property_calls_get_properties _ _ _
  have hsame : ∀ v fx, connman_get_property_internal bus CONNMAN_AT_TECHNOLOGY (some name)
      (some "Powered") = some (.ok v, fx) → g_variant_get_boolean v = powered →
      connman_technology_set_powered bus (some name) powered = some (true, fx) := by
    intro v fx hget heq
    simp only [connman_technology_set_powered, hget, heq, if_true]
  have hdiff : ∀ v fx, connman_get_property_internal bus CONNMAN_AT_TECHNOLOGY (some name)
      (some "Powered") = some (.ok v, fx) → g_variant_get_boolean v ≠ powered →
      ∃ r, connman_technology_set_powered bus (some name) powered =
          some (r, fx ++ [Effect.call_sync ("/net/connman/technology/" ++ name)
            "net.connman.Technology" "SetProperty"
            (some (.name_value "Powered" (.boolean powered)))]) ∧
        (r = true ↔ ∃ reply, bus ("/net/connman/technology/" ++ name)
          "net.connman.Technology" "SetProperty"
          (some (.name_value "Powered" (.boolean powered))) = .ok reply) := by
    intro v fx hget hne
    obtain ⟨r, err, hset, hr, herr⟩ :=
      set_property_internal_technology bus name "Powered" (.boolean powered)
    refine ⟨r, ?_, hr⟩
    simp only [connman_technology_set_powered, hget, if_neg hne, hset]
    cases r with
    | true => rfl
    | false =>
      obtain ⟨e, he⟩ := Option.ne_none_iff_exists'.mp (herr rfl)
      rw [he]
  refine ⟨⟨rfl, rfl⟩, ?_, ?_, ?_⟩
  · intro current fx hget
    exact ⟨hcalls _ fx hget, fun heq => hsame _ fx hget heq, fun hne => hdiff _ fx hget hne⟩
  · intro v fx hget hv
    have hread : g_variant_get_boolean v = false := by
      cases v with
      | boolean b => exact absurd rfl (hv b)
      | string s => rfl
      | other tag => rfl
    refine ⟨hcalls _ fx hget, ?_, ?_⟩
    · intro hp
      exact hsame v fx hget (by rw [hread, hp])
    · intro hp
      exact hdiff v fx hget (by rw [hread, hp]; decide)
  · intro e fx hget
    refine ⟨hcalls _ fx hget, ?_⟩
    simp only [connman_technology_set_powered, hget]

/-- C18, witness: on the bus `bus_powered`, where `wifi` is powered, the enabling of
`wifi` makes no SetProperty call and its disabling makes one; on the bus `bus_sample`,
where `wifi` is not powered, the disabling makes no SetProperty call and the enabling
makes one; on the bus `bus_down` the value cannot be read. -/
theorem C18_technology_set_powered_witness :
    connman_technology_set_powered bus_powered (some "wifi") true =
      some (true, [Effect.call_sync "/" "net.connman.Manager" "GetTechnologies" none]) ∧
    (∃ r, connman_technology_set_powered bus_powered (some "wifi") false =
        some (r, [Effect.call_sync "/" "net.connman.Manager" "GetTechnologies" none] ++
          [Effect.call_sync ("/net/connman/technology/" ++ "wifi") "net.connman.Technology"
            "SetProperty" (some (.name_value "Powered" (.boolean false)))]) ∧
      (r = true ↔ ∃ reply, bus_powered ("/net/connman/technology/" ++ "wifi")
        "net.connman.Technology" "SetProperty"
        (some (.name_value "Powered" (.boolean false))) = .ok reply)) ∧
    connman_technology_set_powered bus_sample (some "wifi") false =
      some (true, [Effect.call_sync "/" "net.connman.Manager" "GetTechnologies" none]) ∧
    (∃ r, connman_technology_set_powered bus_sample (some "wifi") true =
        some (r, [Effect.call_sync "/" "net.connman.Manager" "GetTechnologies" none] ++
          [Effect.call_sync ("/net/connman/technology/" ++ "wifi") "net.connman.Technology"
            "SetProperty" (some (.name_value "Powered" (.boolean true)))]) ∧
      (r = true ↔ ∃ reply, bus_sample ("/net/connman/technology/" ++ "wifi")
        "net.connman.Technology" "SetProperty"
        (some (.name_value "Powered" (.boolean true))) = .ok reply)) ∧
    connman_technology_set_powered bus_down (some "wifi") true =
      some (false, [Effect.call_sync "/" "net.connman.Manager" "GetTechnologies" none]) :=
  ⟨((C18_technology_set_powered bus_powered "wifi" true).2.1 true
      [Effect.call_sync "/" "net.connman.Manager" "GetTechnologies" none] (by decide)).2.1
      rfl,
   ((C18_technology_set_powered bus_powered "wifi" false).2.1 true
      [Effect.call_sync "/" "net.connman.Manager" "GetTechnologies" none] (by decide)).2.2
      (by decide),
   ((C18_technology_set_powered bus_sample "wifi" false).2.1 false
      [Effect.call_sync "/" "net.connman.Manager" "GetTechnologies" none] (by decide)).2.1
      rfl,
   ((C18_technology_set_powered bus_sample "wifi" true).2.1 false
      [Effect.call_sync "/" "net.connman.Manager" "GetTechnologies" none] (by decide)).2.2
      (by decide),
   ((C18_technology_set_powered bus_down "wifi" true).2.2.2
      { domain := .transport 0, code := 0, message := "no reply" }
      [Effect.call_sync "/" "net.connman.Manager" "GetTechnologies" none] (by decide)).2⟩

/-- C21 (as stated, refuted): an entry created with an absent target is not found by a
lookup with the empty target, and an entry created with the empty target is not found by
a lookup with an absent target; `g_strcmp0` tells `NULL` from the empty string. -/
theorem C21_absent_empty_counterexample :
    (call_work_create connman_dbus_init (some "technology") none (some "scan")
        (some "Scan")).map (fun r => r.1) = some ns_absent ∧
    call_work_lookup_unlocked ns_absent (some "technology") (some "") (some "scan") = none ∧
    call_work_lookup_unlocked ns_absent (some "technology") none (some "scan") ≠ none ∧
    (call_work_create connman_dbus_init (some "technology") (some "") (some "scan")
        (some "Scan")).map (fun r => r.1) = some ns_empty ∧
    call_work_lookup_unlocked ns_empty (some "technology") none (some "scan") = none ∧
    call_work_lookup_unlocked ns_empty (some "technology") (some "") (some "scan") ≠ none ∧
    g_strcmp0 none (some "") ≠ 0 ∧ g_strcmp0 (some "") none ≠ 0 := by
  refine ⟨by decide, by decide, by decide, by decide, by decide, by decide, by decide,
    by decide⟩

/-- C21 (amended): `call_work_lookup_unlocked` returns the first entry in ledger order
whose access type, target and method all equal the arguments, and nothing when no entry
has all three; an absent target equals only an absent target, so an entry with an absent
target is never the result of a lookup with the empty target, and an entry with the empty
target is never the result of a lookup with an absent target. -/
theorem C21_find_first_match (ns : connman_state) (a t m : Option String) :
    (∀ cw, call_work_lookup_unlocked ns a t m = some cw ↔
      ∃ before after, ns.cw_pending = before ++ cw :: after ∧
        (cw.access_type = a ∧ cw.type_arg = t ∧ cw.method = m) ∧
        ∀ x ∈ before, ¬ (x.access_type = a ∧ x.type_arg = t ∧ x.method = m)) ∧
    (call_work_lookup_unlocked ns a t m = none ↔
      ∀ x ∈ ns.cw_pending, ¬ (x.access_type = a ∧ x.type_arg = t ∧ x.method = m)) ∧
    (∀ cw, cw.type_arg = none → call_work_lookup_unlocked ns a (some "") m ≠ some cw) ∧
    (∀ cw, cw.type_arg = some "" → call_work_lookup_unlocked ns a none m ≠ some cw) := by
  have hmatch : ∀ x : call_work,
      ((g_strcmp0 a x.access_type == 0 && g_strcmp0 t x.type_arg == 0 &&
        g_strcmp0 m x.method == 0) = true) ↔
      (x.access_type = a ∧ x.type_arg = t ∧ x.method = m) := by
    intro x
    simp only [Bool.and_eq_true, beq_iff_eq, g_strcmp0_eq_zero, and_assoc]
    constructor
    · rintro ⟨h1, h2, h3⟩; exact ⟨h1.symm, h2.symm, h3.symm⟩
    · rintro ⟨h1, h2, h3⟩; exact ⟨h1.symm, h2.symm, h3.symm⟩
  refine ⟨?_, ?_, ?_, ?_⟩
  · intro cw
    unfold call_work_lookup_unlocked
    rw [List.find?_eq_some]
    constructor
    · rintro ⟨hp, before, after, hl, hb⟩
      refine ⟨before, after, hl, (hmatch cw).1 hp, ?_⟩
      intro x hx hx2
      have := hb x hx
      rw [(hmatch x).2 hx2] at this
      simp at this
    · rintro ⟨before, after, hl, hp, hb⟩
      refine ⟨(hmatch cw).2 hp, before, after, hl, ?_⟩
      intro x hx
      have := hb x hx
      rw [← hmatch x] at this
      rw [Bool.not_eq_true', Bool.eq_false_iff]
      exact this
  · rw [lookup_none_iff]
    constructor
    · intro h x hx hx2; exact h x hx ⟨hx2.1.symm, hx2.2.1.symm, hx2.2.2.symm⟩
    · intro h x hx hx2; exact h x hx ⟨hx2.1.symm, hx2.2.1.symm, hx2.2.2.symm⟩
  · intro cw hcw h
    have := (lookup_some ns _ _ _ cw h).2.2.1
    rw [hcw] at this
    simp at this
  · intro cw hcw h
    have := (lookup_some ns _ _ _ cw h).2.2.1
    rw [hcw] at this
    simp at this

/-- Witness of `C21_find_first_match`: in the ledger with one entry of absent target the
lookup with the empty target finds nothing. -/
theorem C21_find_first_match_witness :
    call_work_lookup_unlocked ns_absent (some "technology") (some "") (some "scan") = none :=
  (C21_find_first_match ns_absent (some "technology") (some "") (some "scan")).2.1.2
    (by decide)

/-- C22: when `call_work_create` succeeds for a triple in a ledger whose counter is in
`1 .. 2^31-1`, destroying the entry returned restores the list of entries, the lookup for
the triple then finds nothing, and a further create for the triple succeeds. -/
theorem C22_create_destroy_round_trip (ns ns1 : connman_state) (a t m c : Option String)
    (cw : call_work) (h1 : 1 ≤ ns.next_cw_id) (h2 : ns.next_cw_id ≤ 2147483647)
    (hcreate : call_work_create ns a t m c = some (ns1, .ok cw)) :
    (call_work_destroy ns1 cw).cw_pending = ns.cw_pending ∧
    call_work_lookup_unlocked (call_work_destroy ns1 cw) a t m = none ∧
    ∃ ns2 cw2, call_work_create (call_work_destroy ns1 cw) a t m c = some (ns2, .ok cw2) := by
  obtain ⟨hl, ha, hlist, _, _, _, _, _⟩ := create_ok_cases ns ns1 a t m c cw hcreate
  have hd := destroy_head ns1 cw _ hlist
  have hpend : (call_work_destroy ns1 cw).cw_pending = ns.cw_pending := by rw [hd]
  have hcnt : (call_work_destroy ns1 cw).next_cw_id = ns1.next_cw_id := by rw [hd]
  have hl2 : call_work_lookup_unlocked (call_work_destroy ns1 cw) a t m = none := by
    rw [lookup_congr ns _ hpend]; exact hl
  refine ⟨hpend, hl2, ?_⟩
  obtain ⟨i1, i2, _, _, hfree⟩ := alloc_id_loop_spec ns _ _ _ _ h1 h2 ha
  obtain ⟨k, _, _, _, _, hnext⟩ := alloc_id_loop_first ns _ _ _ _ ha
  cases hb : alloc_id_loop (call_work_destroy ns1 cw) ALLOC_FUEL
      (call_work_destroy ns1 cw).next_cw_id with
  | some p =>
    obtain ⟨id2, next2⟩ := p
    exact ⟨_, _, create_of_alloc _ a t m c id2 next2 hl2 hb⟩
  | none =>
    exfalso
    rw [alloc_id_loop_congr ns _ hpend, hcnt, hnext] at hb
    have := alloc_id_loop_none ns _ _ hb 2147483646 (by unfold ALLOC_FUEL; omega)
    rw [counter_after_back _ i1 i2] at this
    exact this hfree

/-- Witness of `C22_create_destroy_round_trip`: a create in the initial ledger. -/
theorem C22_create_destroy_round_trip_witness :
    (call_work_destroy ns_absent
        { addr := 0, id := 1, access_type := some "technology", type_arg := none,
          method := some "scan", connman_method := some "Scan", cpw := none,
          request_cb := none, request_user_data := none, agent_method := none,
          invocation := none }).cw_pending = connman_dbus_init.cw_pending :=
  (C22_create_destroy_round_trip connman_dbus_init ns_absent (some "technology") none
    (some "scan") (some "Scan") _ (by decide) (by decide) (by decide)).1

/-- C23 (the code departs from the claim): without agent registration the thread of
`connman_handler_func` signals the success of the initialisation before it sets the
process-wide state.  After the first write of the thread `connman_init` returns `TRUE`
while `g_connman_state` is still `NULL`, and `connman_manager_get_state` called then
returns `FALSE` without a call on the bus; after the second write the same call fetches
the manager properties and succeeds.  With agent registration the signal comes after the
state is set. -/
theorem C23_init_signalled_before_state_set :
    connman_init (handler_progress false 1) = true ∧
    (handler_progress false 1).g_connman_state = none ∧
    connman_manager_get_state bus_sample (handler_progress false 1).g_connman_state
      = some (false, none, []) ∧
    connman_manager_get_state bus_sample (handler_progress false 2).g_connman_state
      = some (true, some "online",
          [Effect.call_sync "/" "net.connman.Manager" "GetProperties" none]) ∧
    (∀ k, connman_init (handler_progress true k) = true →
      (handler_progress true k).g_connman_state ≠ none) := by
  refine ⟨by decide, by decide, by decide, by decide, ?_⟩
  intro k
  match k with
  | 0 => decide
  | 1 => decide
  | k + 2 =>
    intro _
    simp [handler_progress, connman_handler_func, connman_set_state, signal_init_done]

/-- C24: when `call_work_create` succeeds in a ledger whose counter `n` is in
`1 .. 2^31-1`, the id of the new entry is the first value of the cyclic sequence
`n, n+1, ..., 2^31-1, 1, 2, ...` that no entry of the ledger has, the counter is left at
the cyclic successor of that id (in `1 .. 2^31-1`), and the new entry is the head of the
ledger, followed by the entries of before in their order. -/
theorem C24_id_assignment (ns ns1 : connman_state) (a t m c : Option String)
    (cw : call_work) (h1 : 1 ≤ ns.next_cw_id) (h2 : ns.next_cw_id ≤ 2147483647)
    (hcreate : call_work_create ns a t m c = some (ns1, .ok cw)) :
    (∃ k : Nat, k < 2147483647 ∧ cw.id = cyclic_seq ns.next_cw_id k ∧
      (∀ x ∈ ns.cw_pending, x.id ≠ cw.id) ∧
      (∀ j, j < k → ∃ x ∈ ns.cw_pending, x.id = cyclic_seq ns.next_cw_id j)) ∧
    ns1.next_cw_id = cyclic_succ cw.id ∧
    (1 ≤ ns1.next_cw_id ∧ ns1.next_cw_id ≤ 2147483647) ∧
    ns1.cw_pending = cw :: ns.cw_pending := by
  obtain ⟨_, ha, hlist, _, _, _, _, _⟩ := create_ok_cases ns ns1 a t m c cw hcreate
  obtain ⟨i1, i2, n1, n2, hfree⟩ := alloc_id_loop_spec ns _ _ _ _ h1 h2 ha
  obtain ⟨k, _, hid, _, hused, hnext⟩ := alloc_id_loop_first ns _ _ _ _ ha
  have husedx : ∀ j, j < k → ∃ x ∈ ns.cw_pending, x.id = cyclic_seq ns.next_cw_id j := by
    intro j hj
    have := hused j hj
    rw [Ne, lookup_by_id_none_iff] at this
    push_neg at this
    obtain ⟨x, hx, hxid⟩ := this
    exact ⟨x, hx, by rw [hxid, counter_after_closed _ _ h1 h2]; rfl⟩
  have hidc : cw.id = cyclic_seq ns.next_cw_id k := by
    rw [hid, counter_after_closed _ _ h1 h2]; rfl
  refine ⟨⟨k, ?_, hidc, (lookup_by_id_none_iff ns _).1 hfree, husedx⟩, ?_, ⟨n1, n2⟩, hlist⟩
  · by_contra hk
    obtain ⟨x, hx, hxid⟩ := husedx (k - 2147483647) (by omega)
    have hsame : cyclic_seq ns.next_cw_id (k - 2147483647) = cyclic_seq ns.next_cw_id k := by
      unfold cyclic_seq
      omega
    exact (lookup_by_id_none_iff ns _).1 hfree x hx (by rw [hxid, hsame, hidc])
  · rw [hnext, next_cw_id_step_of_range _ i1 i2]; rfl

/-- Witness of `C24_id_assignment`: a create in the ledger `ns_wrapped`, whose counter is
2 while ids 1 and `2^31-1` are in use. -/
theorem C24_id_assignment_witness :
    (cyclic_succ 2 = 3) ∧
    ∃ k : Nat, k < 2147483647 ∧ (2 : Int) = cyclic_seq ns_wrapped.next_cw_id k ∧
      (∀ x ∈ ns_wrapped.cw_pending, x.id ≠ 2) ∧
      (∀ j, j < k → ∃ x ∈ ns_wrapped.cw_pending, x.id = cyclic_seq ns_wrapped.next_cw_id j) :=
  ⟨by decide,
   (C24_id_assignment ns_wrapped
    { next_cw_id := 3,
      cw_pending :=
        { addr := 2, id := 2, access_type := some "service", type_arg := some "c",
          method := some "connect_service", connman_method := some "Connect", cpw := none,
          request_cb := none, request_user_data := none, agent_method := none,
          invocation := none } :: ns_wrapped.cw_pending,
      heap_top := 3 }
    (some "service") (some "c") (some "connect_service") (some "Connect")
    { addr := 2, id := 2, access_type := some "service", type_arg := some "c",
      method := some "connect_service", connman_method := some "Connect", cpw := none,
      request_cb := none, request_user_data := none, agent_method := none,
      invocation := none }
    (by decide) (by decide) (by decide)).1⟩

/-- C25: `call_work_destroy` leaves the ledger as it is when no entry is registered under
the id of the handle or when the entry registered under it is another one; when the entry
registered under the id is the handle's own entry, exactly that entry leaves the list, the
other entries keep their order, and the counter is unchanged. -/
theorem C25_destroy_frame (ns : connman_state) (cw : call_work)
    (haddr : ns.cw_pending.Pairwise (fun x y => x.addr ≠ y.addr)) :
    (call_work_lookup_by_id_unlocked ns cw.id = none → call_work_destroy ns cw = ns) ∧
    (∀ cw2, call_work_lookup_by_id_unlocked ns cw.id = some cw2 → cw2.addr ≠ cw.addr →
      call_work_destroy ns cw = ns) ∧
    (∀ cw2, call_work_lookup_by_id_unlocked ns cw.id = some cw2 → cw2.addr = cw.addr →
      ∃ before after, ns.cw_pending = before ++ cw2 :: after ∧
        cw2 ∉ before ∧ cw2 ∉ after ∧
        call_work_destroy ns cw = { ns with cw_pending := before ++ after } ∧
        (call_work_destroy ns cw).next_cw_id = ns.next_cw_id) := by
  refine ⟨?_, ?_, ?_⟩
  · intro h
    unfold call_work_destroy call_work_destroy_unlocked
    rw [h]
  · intro cw2 h hne
    unfold call_work_destroy call_work_destroy_unlocked
    rw [h]
    simp [hne]
  · intro cw2 h heq
    have hmem := (lookup_by_id_some ns _ _ h).1
    obtain ⟨before, after, hsplit⟩ := List.append_of_mem hmem
    have hnodup : ns.cw_pending.Nodup := by
      refine haddr.imp ?_
      intro x y hxy hxyeq
      exact hxy (by rw [hxyeq])
    rw [hsplit] at hnodup
    have hnb : cw2 ∉ before := by
      intro hb
      have := (List.nodup_append.1 hnodup).2.2
      exact this hb (List.mem_cons_self _ _)
    have hna : cw2 ∉ after := by
      have := (List.nodup_append.1 hnodup).2.1
      exact (List.nodup_cons.1 this).1
    have hrm : g_slist_remove ns.cw_pending cw = before ++ after := by
      have h1 : g_slist_remove ns.cw_pending cw = g_slist_remove ns.cw_pending cw2 := by
        unfold g_slist_remove; rw [heq]
      rw [h1, eraseP_addr_eq_erase _ _ haddr hmem, hsplit,
        List.erase_append_right _ hnb, List.erase_cons_head]
    have hd : call_work_destroy ns cw = { ns with cw_pending := before ++ after } := by
      unfold call_work_destroy call_work_destroy_unlocked
      rw [h]
      simp [heq, hrm]
    exact ⟨before, after, hsplit, hnb, hna, hd, by rw [hd]⟩

/-- Witness of `C25_destroy_frame`: in the ledger `ns_wrapped` a handle with id 7 is
stale, and the destruction changes nothing. -/
theorem C25_destroy_frame_witness :
    call_work_destroy ns_wrapped { cw_svc0 with id := 7 } = ns_wrapped :=
  (C25_destroy_frame ns_wrapped { cw_svc0 with id := 7 } (by decide)).1 (by decide)

/-- C26: in every ledger reached from a ledger without reply handles (the initial one
among them) through `connman_service_connect`, `handle_method_call`,
`connman_agent_response` and `connect_service_callback`, every entry that holds a reply
handle holds the agent method RequestInput; so `connman_agent_response` either changes
nothing and returns `FALSE` without an effect, or clears the handle of the entry and
answers on it with the parameters: the UnknownMethod reply is never sent. -/
theorem C26_reply_handle_invariant (ag : agent_event_state) (bus : Bus)
    (ns0 ns : connman_state) (ops : List ApiOp)
    (h0 : ∀ cw ∈ ns0.cw_pending, cw.invocation = none)
    (hrun : run_api ag bus ns0 ops = some ns) :
    reply_handles_wf ns ∧
    ∀ (id : Int) (parameters : Option GVariant),
      (connman_agent_response ns id parameters = (ns, false, []) ∨
        ∃ cw invocation, call_work_lookup_by_id_unlocked ns id = some cw ∧
          cw.invocation = some invocation ∧
          connman_agent_response ns id parameters =
            ({ ns with cw_pending := store ns.cw_pending cw.addr (fun c =>
                { c with invocation := none }) }, true,
              [Effect.return_value invocation parameters])) ∧
      ∀ e ∈ (connman_agent_response ns id parameters).2.2,
        ∀ i error_name error_message, e ≠ Effect.return_dbus_error i error_name error_message := by
  have hwf : reply_handles_wf ns :=
    handles_run ag bus ops ns0 ns (fun cw hcw hne => absurd (h0 cw hcw) hne) hrun
  refine ⟨hwf, ?_⟩
  intro id parameters
  have hc := agent_response_cases ns id parameters hwf
  refine ⟨hc, ?_⟩
  rcases hc with hc | ⟨cw, invocation, _, _, hc⟩
  · rw [hc]; simp
  · rw [hc]; simp

/-- Witness of `C26_reply_handle_invariant`: the run `api_ops_sample` from the initial
ledger ends in the ledger `ns_asked`, whose entry holds reply handle 5. -/
theorem C26_reply_handle_invariant_witness :
    run_api ag_registered bus_sample connman_dbus_init api_ops_sample = some ns_asked ∧
    reply_handles_wf ns_asked :=
  ⟨by decide,
   (C26_reply_handle_invariant ag_registered bus_sample connman_dbus_init ns_asked
    api_ops_sample (by decide) (by decide)).1⟩

/-- C27: for every bus, path, property name and value, `connman_set_property` with
property type MANAGER issues no call on the bus and does not return `TRUE`, and neither
does `connman_manager_set_offline` for either boolean: both hand a `NULL` target to
`connman_set_property_internal`, which returns `FALSE` before any call and leaves the
error unset (the callers then read the message of that unset error and do not return). -/
theorem C27_manager_setters_never_succeed (bus : Bus) (path : Option String)
    (name : String) (value : Value) (state : Bool) :
    connman_set_property_internal bus (some CONNMAN_AT_MANAGER) none (some name) (some value)
      = (false, none, []) ∧
    (connman_set_property bus .CONNMAN_PROPERTY_MANAGER path (some name) (some value)).1 = [] ∧
    (connman_set_property bus .CONNMAN_PROPERTY_MANAGER path (some name) (some value)).2
      ≠ some true ∧
    (connman_manager_set_offline bus state).1 = [] ∧
    (connman_manager_set_offline bus state).2 ≠ some true ∧
    connman_set_property bus .CONNMAN_PROPERTY_MANAGER path (some name) (some value)
      = ([], none) ∧
    connman_manager_set_offline bus state = ([], none) := by
  have h1 : connman_set_property bus .CONNMAN_PROPERTY_MANAGER path (some name) (some value)
      = ([], none) := by
    simp [connman_set_property, connman_set_property_internal]
  have h2 : connman_manager_set_offline bus state = ([], none) := by
    simp [connman_manager_set_offline, connman_set_property_internal]
  refine ⟨rfl, ?_, ?_, ?_, ?_, h1, h2⟩
  · rw [h1]
  · rw [h1]; simp
  · rw [h2]
  · rw [h2]; simp

/-- C28: `connman_decode_call_error` is idempotent: for every error (set or not), access
type, target and method, decoding the decoded error again with the same access type,
target and method gives the decoded error, also when the target contains the text of the
unknown-object marker. -/
theorem C28_decode_idempotent (access_type type_arg : Option String) (method : String)
    (error : Option GError) :
    connman_decode_call_error access_type type_arg method
        (connman_decode_call_error access_type type_arg method error) =
      connman_decode_call_error access_type type_arg method error := by
  cases error with
  | none => rfl
  | some e => exact decode_fixed access_type type_arg method e

/-- C29: `connman_strip_path` undoes `CONNMAN_SERVICE_PATH` and `CONNMAN_TECHNOLOGY_PATH`
exactly on the names that are not empty and contain no `/`; for every other name the
basename differs from the name.  So the lookup that `handle_method_call` makes for a
RequestInput on the object path of service `s` finds the entry that
`connman_service_connect` reserved for `s` exactly when `s` is not empty and has no `/`,
and `handle_method_call` then stores the reply handle in that entry. -/
theorem C29_path_round_trip (s : String) :
    (connman_strip_path (CONNMAN_SERVICE_PATH s) = some s ↔ (s ≠ "" ∧ '/' ∉ s.data)) ∧
    (connman_strip_path (CONNMAN_TECHNOLOGY_PATH s) = some s ↔ (s ≠ "" ∧ '/' ∉ s.data)) ∧
    (∀ (ns : connman_state) (cw : call_work), triples_distinct ns → cw ∈ ns.cw_pending →
      cw.access_type = some "service" → cw.type_arg = some s →
      cw.method = some "connect_service" →
      ((call_work_lookup_unlocked ns (some "service")
          (connman_strip_path (CONNMAN_SERVICE_PATH s)) (some "connect_service") = some cw ↔
        (s ≠ "" ∧ '/' ∉ s.data)) ∧
       ((s ≠ "" ∧ '/' ∉ s.data) →
        ∀ (ag : agent_event_state) (var : List (String × Value)) (invocation : Nat),
          handle_method_call ag ns (some "RequestInput")
              (.path_dict (CONNMAN_SERVICE_PATH s) var) invocation =
            some ({ ns with cw_pending := store ns.cw_pending cw.addr (fun c =>
                { c with agent_method := some "RequestInput",
                         invocation := some invocation }) },
              run_callback ag (some s) cw.id (.dict var))))) := by
  have hsvc := strip_path_round_trip "/net/connman/service" s
  have htech := strip_path_round_trip "/net/connman/technology" s
  rw [← service_path_split] at hsvc
  rw [← technology_path_split] at htech
  refine ⟨hsvc, htech, ?_⟩
  intro ns cw htr hmem ha ht hm
  have hfound : (s ≠ "" ∧ '/' ∉ s.data) →
      call_work_lookup_unlocked ns (some "service")
        (connman_strip_path (CONNMAN_SERVICE_PATH s)) (some "connect_service") = some cw := by
    intro hs
    rw [hsvc.2 hs, ← ha, ← ht, ← hm]
    exact lookup_of_mem ns cw htr hmem
  refine ⟨⟨?_, hfound⟩, ?_⟩
  · intro h
    have := (lookup_some ns _ _ _ cw h).2.2.1
    rw [ht] at this
    exact hsvc.1 this.symm
  · intro hs ag var invocation
    have hf := hfound hs
    unfold handle_method_call
    rw [if_pos (by decide)]
    simp only
    rw [hf, hsvc.2 hs]

/-- Witness of `C29_path_round_trip`: the entry for `svc0` in the ledger `ns_connecting`
is the one that the lookup for the object path of `svc0` finds. -/
theorem C29_path_round_trip_witness :
    call_work_lookup_unlocked ns_connecting (some "service")
      (connman_strip_path (CONNMAN_SERVICE_PATH "svc0")) (some "connect_service")
        = some cw_svc0 :=
  ((C29_path_round_trip "svc0").2.2 ns_connecting cw_svc0 (by decide) (by decide) rfl rfl
    rfl).1.2 (by decide)

/-- C30: in a ledger whose counter is in `1 .. 2^31-1` and that holds fewer than `2^31-1`
entries with a positive id, the allocation loop of `call_work_create_unlocked` finds an
unused id within (number of entries + 1) rounds; the create, which runs the loop, returns. -/
theorem C30_alloc_loop_terminates (ns : connman_state) (a t m c : Option String)
    (h1 : 1 ≤ ns.next_cw_id) (h2 : ns.next_cw_id ≤ 2147483647)
    (hpos : (ns.cw_pending.filter (fun cw => decide (0 < cw.id))).length < 2147483647) :
    (∃ id next, alloc_id_loop ns (ns.cw_pending.length + 1) ns.next_cw_id = some (id, next) ∧
      call_work_lookup_by_id_unlocked ns id = none ∧
      alloc_id_loop ns ALLOC_FUEL ns.next_cw_id = some (id, next)) ∧
    ∃ r, call_work_create ns a t m c = some r := by
  obtain ⟨⟨id, next⟩, hp⟩ := alloc_id_loop_terminates_pos ns h1 h2 hpos
  have hle : (ns.cw_pending.filter (fun cw => decide (0 < cw.id))).length ≤
      ns.cw_pending.length := List.length_filter_le _ _
  have hA := alloc_id_loop_mono ns _ _ _ ALLOC_FUEL (by unfold ALLOC_FUEL; omega) hp
  refine ⟨⟨id, next, alloc_id_loop_mono ns _ _ _ _ (by omega) hp,
    (alloc_id_loop_spec ns _ _ _ _ h1 h2 hp).2.2.2.2, hA⟩, ?_⟩
  unfold call_work_create call_work_create_unlocked
  cases call_work_lookup_unlocked ns a t m with
  | some x => exact ⟨_, rfl⟩
  | none => rw [hA]; exact ⟨_, rfl⟩

/-- Witness of `C30_alloc_loop_terminates`: the ledger `ns_wrapped` with two entries; the
loop started at 2 ends in its first round. -/
theorem C30_alloc_loop_terminates_witness :
    ∃ id next, alloc_id_loop ns_wrapped (ns_wrapped.cw_pending.length + 1)
        ns_wrapped.next_cw_id = some (id, next) ∧
      call_work_lookup_by_id_unlocked ns_wrapped id = none ∧
      alloc_id_loop ns_wrapped ALLOC_FUEL ns_wrapped.next_cw_id = some (id, next) :=
  (C30_alloc_loop_terminates ns_wrapped (some "service") (some "c")
    (some "connect_service") (some "Connect") (by decide) (by decide) (by decide)).1

end Connman
